import Mathlib

/-!
Eternity's Descent: interactive sessions of the chat-bot front end.

A shallow embedding of the slash commands under `src/commands`, the
`interactionCreate` and `messageCreate` event handlers, the HTTP client and the
message-component collectors the commands arm.  Asynchronous JavaScript functions become resumption trees (`Prog`):
every `await` of a backend request is a node at which the function is
suspended, every call into the chat platform is a node answered by the
platform model (`applyOp`).  The process is an event loop (`step`) that
receives platform events, backend answers and the passage of time.
-/

namespace EternitysDescent

/-! ## JavaScript string helpers -/

/-- Split a character list at every occurrence of `sep`, as `String.prototype.split`
does for a one-character separator.  The accumulator holds the current piece. -/
def splitAux (sep : Char) : List Char → List Char → List (List Char)
  | [], acc => [acc.reverse]
  | c :: cs, acc =>
    if c = sep then acc.reverse :: splitAux sep cs [] else splitAux sep cs (c :: acc)

/-- The JavaScript `s.split(sep)` for a one-character separator. -/
def jsSplit (s : String) (sep : Char) : List String :=
  (splitAux sep s.data []).map String.mk

/-- White space as `trim` and `parseInt` skip it: the ECMAScript WhiteSpace and
LineTerminator code points. -/
def jsWhitespace (c : Char) : Bool :=
  let n := c.toNat
  n = 9 || n = 10 || n = 11 || n = 12 || n = 13 || n = 32 || n = 160 || n = 5760 ||
    (8192 ≤ n && n ≤ 8202) || n = 8232 || n = 8233 || n = 8239 || n = 8287 || n = 12288 ||
    n = 65279

/-- The JavaScript `s.trim()`. -/
def jsTrim (s : String) : String :=
  String.mk ((s.data.dropWhile jsWhitespace).reverse.dropWhile jsWhitespace).reverse

/-- The expression `key.charAt(0).toUpperCase() + key.slice(1)`, exact when the first
character is ASCII; other letters are left as they are. -/
def capitalize (s : String) : String :=
  match s.data with
  | [] => ""
  | c :: cs => String.mk (c.toUpper :: cs)

/-- Split at every maximal run of white space, as `split(/\s+/)` does; `gap` tells
that the character before was white space, in which case the run goes on. -/
def splitRunsAux : List Char → List Char → Bool → List (List Char)
  | [], acc, _ => [acc.reverse]
  | c :: cs, acc, gap =>
    if jsWhitespace c then
      if gap then splitRunsAux cs acc true else acc.reverse :: splitRunsAux cs [] true
    else splitRunsAux cs (c :: acc) false

/-- The JavaScript `s.split(/\s+/)`. -/
def jsSplitWs (s : String) : List String :=
  (splitRunsAux s.data [] false).map String.mk

/-- The JavaScript `s.slice(n)` for `n` within the string. -/
def jsSlice (s : String) (n : Nat) : String :=
  String.mk (s.data.drop n)

/-- The JavaScript `s.toLowerCase()`, exact on ASCII text; other letters are left as
they are. -/
def jsToLowerCase (s : String) : String :=
  String.mk (s.data.map Char.toLower)

/-- The JavaScript `s.startsWith(p)`. -/
def jsStartsWith (s p : String) : Bool :=
  p.data.isPrefixOf s.data

/-- Remove the first occurrence of `pat` from a character list. -/
def removeFirst (pat : List Char) : List Char → List Char
  | [] => []
  | c :: cs =>
    if pat.isPrefixOf (c :: cs) then (c :: cs).drop pat.length
    else c :: removeFirst pat cs

/-- The JavaScript `s.replace(pat, '')` for a non-empty string pattern: only the
first occurrence is replaced. -/
def jsRemove (s pat : String) : String :=
  String.mk (removeFirst pat.data s.data)

/-- Value of a decimal digit character. -/
def digitVal (c : Char) : Option Nat :=
  if c.isDigit then some (c.toNat - 48) else none

/-- Read the longest run of leading decimal digits; `none` when there is none. -/
def readDigits : List Char → Option Nat → Option Nat
  | [], acc => acc
  | c :: cs, acc =>
    match digitVal c with
    | some d => readDigits cs (some (acc.getD 0 * 10 + d))
    | none => acc

/-- The JavaScript `parseInt(s, 10)`: leading white space is skipped, one sign is
accepted, then the leading digits are read; `none` stands for `NaN`.  The result is
the exact integer: JavaScript rounds to a double, which differs above 2^53. -/
def parseInt10 (s : String) : Option Int :=
  match s.data.dropWhile jsWhitespace with
  | '-' :: cs => (readDigits cs none).map (fun n => - (n : Int))
  | '+' :: cs => (readDigits cs none).map (fun n => (n : Int))
  | cs => (readDigits cs none).map (fun n => (n : Int))

/-- Template-literal rendering of a value that may be `undefined`. -/
def showOpt (s : Option String) : String :=
  s.getD "undefined"

/-- Template-literal rendering of a number that may be `undefined`. -/
def showNum (n : Option Int) : String :=
  match n with
  | some v => toString v
  | none => "undefined"

/-! ## Service payloads -/

/-- An item object as the service returns it (trader wares, loot, inventory rows,
shop items, equipment). -/
structure Item where
  id : String := ""
  name : String := ""
  description : String := ""
  price : Int := 0
  qty : Int := 0
  quantity : Int := 0
  isEquipped : Bool := false
  iconUrl : Option String := none
  slot : String := ""
deriving DecidableEq, Repr

/-- One narrative option `{ id, label }`. -/
structure StoryOption where
  id : String
  label : String
deriving DecidableEq, Repr

/-- A gacha reward `{ name, rarity, imageUrl? }`. -/
structure Reward where
  name : String
  rarity : String
  imageUrl : Option String := none
deriving DecidableEq, Repr

/-- The value a command reads as `res.data` and destructures.  A missing property is
`none`; for properties only tested for truthiness the truth value is kept.  When the
value is an array, `array` holds its elements and the named properties are absent. -/
structure Data where
  success : Bool := false
  message : Option String := none
  playerHp : Option Int := none
  playerMaxHp : Option Int := none
  enemyHp : Option Int := none
  enemyMaxHp : Option Int := none
  loot : Option (List Item) := none
  combatEnd : Bool := false
  floor : Option Int := none
  description : Option String := none
  mapImageUrl : Option String := none
  spawnBarterer : Bool := false
  spawn : Bool := false
  items : Option (List Item) := none
  error : Option String := none
  item : Option Item := none
  narrative : Option String := none
  options : Option (List StoryOption) := none
  reward : Option Reward := none
  balance : Option Int := none
  totalItems : Option Nat := none
  trade_id : Option Int := none
  gold : Option Int := none
  rank : Option String := none
  xp : Option Int := none
  nextRankXp : Option Int := none
  session_id : Option String := none
  dungeon_level : Option Int := none
  stats : Option (List (String × Int)) := none
  equipment : Option (List Item) := none
  url : Option String := none
  name : Option String := none
  forgedItem : Option Item := none
  cost : Option Int := none
  array : Option (List Item) := none
deriving DecidableEq, Repr

/-- The standardized rejection of `httpClient` (`{ message, status, data }`). -/
structure HttpError where
  message : String
  status : Option Nat := none
deriving DecidableEq, Repr

/-- Errors a promise can reject with.  For a `TypeError`, `what` names the access that
failed; the engine's exact wording of the message is not reproduced. -/
inductive Err where
  | typeError (what : String)
  | http (e : HttpError)
  | alreadyReplied
  | notReplied
  | error (message : String)
deriving DecidableEq, Repr

/-- The property `err.message` of a caught error. -/
def Err.message : Err → String
  | .typeError what => what
  | .http e => e.message
  | .alreadyReplied => "The reply to this interaction has already been sent or deferred."
  | .notReplied => "The reply to this interaction has not been sent or deferred."
  | .error message => message

/-- Outcome of `httpClient.get` / `httpClient.post`.  The wrapper resolves to the
response body (`res => res.data`); `data` is the `data` property of that body, which
is what the commands read, and is `none` when the body has no such property. -/
inductive HttpResult where
  | rejected (e : HttpError)
  | resolved (data : Option Data)
deriving DecidableEq, Repr

/-- A value in a request payload. -/
inductive Val where
  | str (s : String)
  | int (n : Int)
  | nan
  | offer (item_id : String) (quantity : Int)
  | strs (xs : List String)
  | uuid
deriving DecidableEq, Repr

/-- HTTP verbs used by the commands. -/
inductive Verb where
  | get
  | post
deriving DecidableEq, Repr

/-- A backend request: verb, path and the payload (body or query parameters). -/
structure Request where
  verb : Verb
  path : String
  payload : List (String × Val)
deriving DecidableEq, Repr

/-! ## JSON bodies -/

/-- A JSON value. -/
inductive Json where
  | null
  | bool (b : Bool)
  | num (n : Int)
  | str (s : String)
  | arr (xs : List Json)
  | obj (fields : List (String × Json))
deriving Repr

/-- The property `j[key]` of a parsed JSON value: `none` is `undefined`.  A key that
occurs twice has its last value.  Only objects have the properties the commands read. -/
def Json.prop (j : Json) (key : String) : Option Json :=
  match j with
  | .obj fields => (fields.reverse.find? (fun e => e.1 == key)).map (fun e => e.2)
  | _ => none

/-- JavaScript truthiness of a JSON value. -/
def Json.truthy : Json → Bool
  | .null => false
  | .bool b => b
  | .num n => n != 0
  | .str s => s != ""
  | .arr _ => true
  | .obj _ => true

/-- Truthiness of a property that may be absent. -/
def Json.flag (j : Json) (key : String) : Bool :=
  match j.prop key with
  | some v => v.truthy
  | none => false

/-- A string property, for the properties the schema documents as strings; a number
is rendered in decimal, as a template literal does. -/
def Json.text (j : Json) (key : String) : Option String :=
  match j.prop key with
  | some (.str s) => some s
  | some (.num n) => some (toString n)
  | _ => none

/-- A number property, for the properties the schema documents as numbers. -/
def Json.int (j : Json) (key : String) : Option Int :=
  match j.prop key with
  | some (.num n) => some n
  | _ => none

/-- An item object read by the documented schema.  A property that is missing reads as
`undefined` for a text and as 0 for a number; the code throws where it calls a method on
a missing number (`item.price.toLocaleString()`), which no input used here reaches. -/
def Json.item (j : Json) : Item :=
  { id := (j.text "id").getD "undefined"
    name := (j.text "name").getD "undefined"
    description := (j.text "description").getD "undefined"
    price := (j.int "price").getD 0
    qty := (j.int "qty").getD 0
    quantity := (j.int "quantity").getD 0
    isEquipped := j.flag "isEquipped"
    iconUrl := j.text "iconUrl"
    slot := (j.text "slot").getD "undefined" }

/-- An array property whose elements are read by `f`. -/
def Json.list {α : Type} (j : Json) (key : String) (f : Json → α) : Option (List α) :=
  match j.prop key with
  | some (.arr xs) => some (xs.map f)
  | _ => none

/-- The entries of the `stats` object. -/
def Json.entries (j : Json) (key : String) : Option (List (String × Int)) :=
  match j.prop key with
  | some (.obj fields) =>
    some (fields.filterMap (fun e => match e.2 with
      | .num n => some (e.1, n)
      | _ => none))
  | _ => none

/-- The value `res.data` as the commands read it, by the schemas documented in the
command modules.  Counts are natural numbers: a negative `totalItems` reads as 0. -/
def Json.toData (j : Json) : Data :=
  { success := j.flag "success"
    message := j.text "message"
    playerHp := j.int "playerHp"
    playerMaxHp := j.int "playerMaxHp"
    enemyHp := j.int "enemyHp"
    enemyMaxHp := j.int "enemyMaxHp"
    loot := j.list "loot" Json.item
    combatEnd := j.flag "combatEnd"
    floor := j.int "floor"
    description := j.text "description"
    mapImageUrl := j.text "mapImageUrl"
    spawnBarterer := j.flag "spawnBarterer"
    spawn := j.flag "spawn"
    items := j.list "items" Json.item
    error := j.text "error"
    item := (j.prop "item").map Json.item
    narrative := j.text "narrative"
    options := j.list "options"
      (fun o => { id := (o.text "id").getD "undefined", label := (o.text "label").getD "undefined" })
    reward := (j.prop "reward").map
      (fun r => { name := (r.text "name").getD "undefined"
                  rarity := (r.text "rarity").getD "undefined"
                  imageUrl := r.text "imageUrl" })
    balance := j.int "balance"
    totalItems := (j.int "totalItems").map Int.toNat
    trade_id := j.int "trade_id"
    gold := j.int "gold"
    rank := j.text "rank"
    xp := j.int "xp"
    nextRankXp := j.int "nextRankXp"
    session_id := j.text "session_id"
    dungeon_level := j.int "dungeon_level"
    stats := j.entries "stats"
    equipment := j.list "equipment" Json.item
    url := j.text "url"
    name := j.text "name"
    forgedItem := (j.prop "forgedItem").map Json.item
    cost := j.int "cost"
    array := match j with
      | .arr xs => some (xs.map Json.item)
      | _ => none }

/-- What a command gets when it reads `.data` of the value `httpClient` resolved to:
`none` when that property is `undefined` or `null`. -/
def readData (resolved : Json) : Option Data :=
  match resolved.prop "data" with
  | none => none
  | some .null => none
  | some j => some j.toData

/-! ## The HTTP client (src/utils/httpClient.js) -/

/-- The constant `MAX_RETRIES`. -/
def MAX_RETRIES : Nat := 2

/-- The constant `RETRY_DELAY_MS`. -/
def RETRY_DELAY_MS : Nat := 1000

/-- An axios response: the status and the parsed body. -/
structure Response where
  status : Nat
  data : Json

/-- An axios error: its message and the response, when one was received. -/
structure AxiosError where
  message : String
  response : Option Response := none

/-- The outcome of one attempt to send the request. -/
inductive Attempt where
  | fulfilled (res : Response)
  | failed (error : AxiosError)

/-- The object `standardizedError`. -/
structure StandardizedError where
  message : String
  status : Option Nat
  data : Option Json

/-- How the promise of `instance(config)` settles. -/
inductive Settled where
  | resolved (res : Response)
  | rejected (e : StandardizedError)

/-- The expression `{ message: error.message, status: response?.status || null,
data: response?.data || null }`. -/
def standardize (error : AxiosError) : StandardizedError :=
  { message := error.message
    status := (error.response.map (fun r => r.status)).filter (fun st => st != 0)
    data := (error.response.map (fun r => r.data)).filter Json.truthy }

/-- The condition `!response || response.status >= 500`. -/
def retryable (error : AxiosError) : Bool :=
  match error.response with
  | none => true
  | some r => r.status ≥ 500

/-- The call `instance(config)` with the response interceptor: `server n` is the
outcome of the attempt number `n` (from 0), `retryCount` is `config._retryCount`
(`none` when unset).  The result is how the promise settles and the number of the
next attempt, which is the number of attempts made. -/
def instanceRequest (server : Nat → Attempt) (attempt : Nat) (retryCount : Option Nat) :
    Settled × Nat :=
  match server attempt with
  | .fulfilled res => (.resolved res, attempt + 1)
  | .failed error =>
    let count := retryCount.getD 0
    if count < MAX_RETRIES ∧ retryable error = true then
      instanceRequest server (attempt + 1) (some (count + 1))
    else (.rejected (standardize error), attempt + 1)
termination_by MAX_RETRIES - retryCount.getD 0
decreasing_by
  simp only [Option.getD_some]
  omega

/-- The wrapper `httpClient.verb(...)`: `instance.verb(...).then(res => res.data)` on
a fresh config.  It resolves to the response body. -/
def httpClient.send (server : Nat → Attempt) : Except StandardizedError Json × Nat :=
  match instanceRequest server 0 none with
  | (.resolved res, n) => (.ok res.data, n)
  | (.rejected e, n) => (.error e, n)

/-- What the awaiting command sees of a settled `httpClient` call: the `data` property
of the resolved body, or the rejection with its message and status. -/
def HttpResult.ofSend (r : Except StandardizedError Json) : HttpResult :=
  match r with
  | .ok body => .resolved (readData body)
  | .error e => .rejected { message := e.message, status := e.status }

/-! ## What is rendered -/

/-- Button styles. -/
inductive ButtonStyle where
  | primary
  | secondary
  | success
  | danger
deriving DecidableEq, Repr

/-- A button as built by `ButtonBuilder`. -/
structure Button where
  customId : String
  label : String
  style : ButtonStyle
  disabled : Bool := false
deriving DecidableEq, Repr

/-- An embed as built by `EmbedBuilder` (colour and timestamp are left out). -/
structure Embed where
  title : Option String := none
  description : Option String := none
  fields : List (String × String) := []
  footer : Option String := none
  image : Option String := none
  thumbnail : Option String := none
deriving DecidableEq, Repr

/-- The options object passed to `reply`, `editReply`, `update`, `followUp` or
`message.edit`.  A key that is absent is `none` and leaves that part of the message
as it is; `ephemeral` is the flag `ephemeral: true`. -/
structure Payload where
  content : Option String := none
  embeds : Option (List Embed) := none
  components : Option (List (List Button)) := none
  ephemeral : Bool := false
deriving DecidableEq, Repr

/-- A message as the platform holds it. -/
structure Message where
  id : Nat
  content : String := ""
  embeds : List Embed := []
  components : List (List Button) := []
deriving DecidableEq, Repr

/-- Apply an edit to a message: keys present in the payload replace the message's. -/
def Message.patch (m : Message) (p : Payload) : Message :=
  { m with
    content := p.content.getD m.content
    embeds := p.embeds.getD m.embeds
    components := p.components.getD m.components }

/-! ## Interactions -/

/-- Kinds of interaction the `interactionCreate` handler distinguishes. -/
inductive IKind where
  | chatInput
  | button
  | selectMenu
  | modalSubmit
  | other
deriving DecidableEq, Repr

/-- Options of a slash command (`/trade`, `/shop`, `/preview`); `subcommand` is empty
for a command without subcommands. -/
structure Options where
  subcommand : String
  target : String := ""
  item_id : String := ""
  quantity : Int := 0
  request_item_id : String := ""
  request_quantity : Int := 0
  trade_id : Int := 0
  model_id : String := ""
deriving DecidableEq, Repr

/-- An interaction delivered by the platform.  `userId` is `interaction.user.id`;
`messageId` is the message a component sits on; `options` is absent on component
interactions; `fields` holds the text inputs of a submitted modal. -/
structure Interaction where
  id : Nat
  kind : IKind
  userId : String
  username : String := ""
  commandName : String := ""
  customId : String := ""
  messageId : Nat := 0
  options : Option Options := none
  fields : List (String × String) := []
deriving DecidableEq, Repr

/-- A text message delivered by the platform: `bot` is `message.author.bot`, `guild`
the name of the guild (absent in a direct message), `channel` the name of the channel
and `tag` is `message.author.tag`. -/
structure TextMessage where
  id : Nat
  bot : Bool := false
  guild : Option String := none
  channel : String := ""
  tag : String := ""
  content : String
deriving DecidableEq, Repr

/-! ## Asynchronous functions as resumption trees -/

/-- Log levels of `logger` and `console`. -/
inductive Level where
  | info
  | warn
  | error
deriving DecidableEq, Repr

/-- Calls into the chat platform made on an interaction or a message. -/
inductive Call where
  | deferReply (i : Interaction)
  | reply (i : Interaction) (p : Payload)
  | editReply (i : Interaction) (p : Payload)
  | followUp (i : Interaction) (p : Payload)
  | fetchReply (i : Interaction)
  | deferUpdate (i : Interaction)
  | update (i : Interaction) (p : Payload)
  | messageEdit (m : Nat) (p : Payload)
  | showModal (i : Interaction) (customId : String) (inputs : List String)
  | messageReply (message : Nat) (text : String)
deriving DecidableEq, Repr

/-- The variables a collector's `collect` and `end` handlers close over, one
constructor per call site of `createMessageComponentCollector`. -/
inductive Site where
  | combat (interaction : Interaction) (messageReply : Message) (nextBtn : Button)
  | explore (interaction : Interaction) (message : Message) (row : List Button)
  | barter (interaction : Interaction)
  | story (interaction : Interaction) (message : Message)
  | roll (interaction : Interaction) (row : List Button)
  | inventory (interaction : Interaction) (message : Message)
  | trade (interaction : Interaction) (toUser : String)
deriving DecidableEq, Repr

/-- Everything an asynchronous function can ask of its environment besides a
backend request. -/
inductive Op where
  | platform (c : Call)
  | ackState (i : Interaction)
  | createCollector (message : Nat) (time : Nat) (site : Site)
  | stop (collector : Nat)
  | setPage (collector : Nat) (page : Nat)
  | log (level : Level) (text : String) (err : Option Err)
deriving DecidableEq, Repr

/-- What an operation returns. -/
inductive Ret where
  | unit
  | message (m : Message)
  | flags (deferred replied : Bool)
  | collector (c : Nat)
deriving DecidableEq, Repr

/-- An asynchronous function body.  `http` is the point where the function is
suspended on `await httpClient...`; `call` is answered at once by the environment,
with the value returned or the error thrown. -/
inductive Prog (α : Type) where
  | pure (a : α)
  | throw (e : Err)
  | http (req : Request) (k : HttpResult → Prog α)
  | call (op : Op) (k : Except Err Ret → Prog α)

/-- Sequencing of asynchronous code. -/
def Prog.bind {α β : Type} : Prog α → (α → Prog β) → Prog β
  | .pure a, f => f a
  | .throw e, _ => .throw e
  | .http r k, f => .http r (fun x => (k x).bind f)
  | .call o k, f => .call o (fun x => (k x).bind f)

/-- The JavaScript `try { body } catch (err) { handler }`. -/
def Prog.tryCatch {α : Type} : Prog α → (Err → Prog α) → Prog α
  | .pure a, _ => .pure a
  | .throw e, h => h e
  | .http r k, h => .http r (fun x => (k x).tryCatch h)
  | .call o k, h => .call o (fun x => (k x).tryCatch h)

instance : Monad Prog where
  pure := Prog.pure
  bind := Prog.bind

instance : MonadExcept Err Prog where
  throw := Prog.throw
  tryCatch := Prog.tryCatch

/-- Perform an operation and `await` it: a rejection is thrown. -/
def perform (op : Op) : Prog Ret :=
  .call op (fun r => match r with
    | .ok v => .pure v
    | .error e => .throw e)

/-- Await a platform call, discarding its value. -/
def await (c : Call) : Prog Unit := do
  let _ ← perform (.platform c)
  return ()

/-- Await a platform call that returns a message (`editReply`, `fetchReply`). -/
def awaitMessage (c : Call) : Prog Message := do
  match (← perform (.platform c)) with
  | .message m => return m
  | _ => throw (.typeError "no message returned")

/-- The call `logger.<level>(text)` / `console.error(text)`. -/
def logLine (level : Level) (text : String) : Prog Unit := do
  let _ ← perform (.log level text none)
  return ()

/-- The call `console.error(text, err)` / `logger.error(text, err)`: the error goes to
the log with the text. -/
def logError (text : String) (err : Err) : Prog Unit := do
  let _ ← perform (.log .error text (some err))
  return ()

/-- The call `httpClient.verb(path, payload)`, awaited: the resolved body's `data`
property, or the standardized error thrown. -/
def httpCall (verb : Verb) (path : String) (payload : List (String × Val)) :
    Prog (Option Data) :=
  .http ⟨verb, path, payload⟩ (fun r => match r with
    | .rejected e => .throw (.http e)
    | .resolved d => .pure d)

/-- Use of a value that must not be `undefined`: reading a property of `undefined`
throws a `TypeError`. -/
def defined {α : Type} (x : Option α) (what : String) : Prog α :=
  match x with
  | some v => .pure v
  | none => .throw (.typeError what)

/-- Destructuring `const { ... } = res.data`: a `TypeError` when `res.data` is
`undefined`. -/
def destructure (d : Option Data) : Prog Data :=
  defined d "Cannot destructure property of undefined"

/-- Read the flags `interaction.deferred` and `interaction.replied`. -/
def ackFlags (i : Interaction) : Prog (Bool × Bool) :=
  .call (.ackState i) (fun r => match r with
    | .ok (.flags deferred replied) => .pure (deferred, replied)
    | _ => .pure (false, false))

/-! ## Number formatting -/

/-- Insert a comma after every third digit of a reversed digit list. -/
def groupDigits : List Char → List Char
  | a :: b :: c :: d :: rest => a :: b :: c :: ',' :: groupDigits (d :: rest)
  | xs => xs

/-- The call `n.toLocaleString()` for an integer, in the en-US locale. -/
def toLocaleString (n : Int) : String :=
  (if n < 0 then "-" else "") ++
    String.mk (groupDigits (Nat.repr n.natAbs).data.reverse).reverse

/-- JavaScript truthiness of a string that may be `undefined`. -/
def truthy (s : Option String) : Bool :=
  match s with
  | some v => v != ""
  | none => false

/-- The expression `s || fallback` for a string that may be `undefined`. -/
def orElseStr (s : Option String) (fallback : String) : String :=
  if truthy s then s.getD fallback else fallback

/-- A button with `setDisabled(true)`. -/
def Button.disable (b : Button) : Button :=
  { b with disabled := true }

/-! ## /combat (src/commands/combat.js) -/

/-- The "Next Encounter" button. -/
def combatNextBtn : Button :=
  { customId := "combat_next", label := "🔄 Next Encounter", style := .primary }

/-- One line of the loot field. -/
def lootLine (item : Item) : String :=
  s!"• **{item.name}** x{item.qty}"

/-- The combat result embed.  A response without `message` gives an embed without
description here; discord.js rejects a description that is `undefined`. -/
def combatEmbed (d : Data) : Embed :=
  let base : Embed :=
    { title := some "⚔️ Combat Round"
      description := d.message
      fields :=
        [("🛡️ You", s!"{showNum d.playerHp} / {showNum d.playerMaxHp} HP"),
         ("👹 Enemy", s!"{showNum d.enemyHp} / {showNum d.enemyMaxHp} HP")] }
  match d.combatEnd, d.loot with
  | true, some (x :: xs) =>
    { base with
      fields := base.fields ++ [("🎁 Loot Acquired", "\n".intercalate ((x :: xs).map lootLine))] }
  | _, _ => base

/-- The function `execute` of combat.js. -/
def combat.execute (interaction : Interaction) : Prog Unit := do
  await (.deferReply interaction)
  try
    let response ← httpCall .post "/combat/resolve" [("user_id", .str interaction.userId)]
    let d ← destructure response
    if !d.success then
      await (.editReply interaction
        { content := some s!"❌ {showOpt d.message}", ephemeral := true })
      return
    let embed := combatEmbed d
    let components := if d.combatEnd then [[combatNextBtn]] else []
    let messageReply ← awaitMessage
      (.editReply interaction { embeds := some [embed], components := some components })
    if d.combatEnd then
      let _ ← perform (.createCollector messageReply.id 60000
        (.combat interaction messageReply combatNextBtn))
  catch err =>
    logError "Error in /combat command:" err
    await (.editReply interaction
      { content := some "❌ An error occurred while resolving combat. Please try again later."
        ephemeral := true })

/-! ## /explore (src/commands/explore.js) -/

/-- The "Descend Further" button. -/
def descendBtn : Button :=
  { customId := "explore_next", label := "⬇️ Descend Further", style := .primary }

/-- The "Barter with Trader" button. -/
def barterBtn : Button :=
  { customId := "explore_barter", label := "🛒 Barter with Trader", style := .success }

/-- The function `execute` of explore.js. -/
def explore.execute (interaction : Interaction) : Prog Unit := do
  await (.deferReply interaction)
  try
    let res ← httpCall .post "/dungeon/generate" [("user_id", .str interaction.userId)]
    let d ← destructure res
    if !d.success then
      let text := orElseStr d.description "Unable to generate dungeon."
      await (.editReply interaction { content := some s!"❌ {text}", ephemeral := true })
      return
    let embed : Embed :=
      { title := some s!"🗺️ Dungeon Floor {showNum d.floor}"
        description := d.description
        image := if truthy d.mapImageUrl then d.mapImageUrl else none }
    let row := if d.spawnBarterer then [descendBtn, barterBtn] else [descendBtn]
    let message ← awaitMessage
      (.editReply interaction { embeds := some [embed], components := some [row] })
    let _ ← perform (.createCollector message.id 60000 (.explore interaction message row))
  catch err =>
    logError "Error in /explore command:" err
    await (.editReply interaction
      { content := some "❌ An error occurred while exploring. Please try again later."
        ephemeral := true })

/-! ## /barter (src/commands/barter.js) -/

/-- The embed field listing one of the trader's wares. -/
def wareField (item : Item) : String × String :=
  (s!"{item.name} — {toLocaleString item.price} 🪙", item.description)

/-- The action row built for one of the trader's wares: a Buy and a Skip button. -/
def wareRow (item : Item) : List Button :=
  [{ customId := s!"barter_buy_{item.id}", label := s!"Buy {item.name}", style := .primary },
   { customId := "barter_skip", label := "Skip Trader", style := .secondary }]

/-- The function `execute` of barter.js. -/
def barter.execute (interaction : Interaction) : Prog Unit := do
  await (.deferReply interaction)
  try
    let res ← httpCall .get "/barterer/encounter" [("user_id", .str interaction.userId)]
    let d ← destructure res
    if !d.spawn then
      await (.editReply interaction
        { content := some "😕 No wandering trader showed up this floor." })
      return
    let items ← defined d.items "Cannot read properties of undefined (reading forEach)"
    let embed : Embed :=
      { title := some "🔹 A Wandering Trader Appears!"
        description := some "He offers the following items for sale:"
        fields := items.map wareField }
    let rows := items.map wareRow
    let message ← awaitMessage
      (.editReply interaction { embeds := some [embed], components := some rows })
    let _ ← perform (.createCollector message.id 60000 (.barter interaction))
  catch err =>
    logError "Error during /barter:" err
    let flags ← ackFlags interaction
    let p : Payload :=
      { content := some "❌ Unable to contact the trader service. Please try again later."
        ephemeral := true }
    if flags.1 then await (.editReply interaction p)
    else await (.reply interaction p)

/-! ## /story (src/commands/narrative.js) -/

/-- The button of one narrative option. -/
def choiceBtn (opt : StoryOption) : Button :=
  { customId := s!"story_choice_{opt.id}", label := opt.label, style := .primary }

/-- The test `options?.length` of narrative.js. -/
def hasOptions (options : Option (List StoryOption)) : Bool :=
  match options with
  | some (_ :: _) => true
  | _ => false

/-- The inner function `render` of narrative.js. -/
def narrative.render (narrative : Option String) (options : Option (List StoryOption)) : Payload :=
  let embed : Embed := { title := some "📖 Campaign Narrative", description := narrative }
  let components := if hasOptions options then [(options.getD []).map choiceBtn] else []
  { embeds := some [embed], components := some components }

/-- The function `execute` of narrative.js. -/
def narrative.execute (interaction : Interaction) : Prog Unit := do
  await (.deferReply interaction)
  try
    let res ← httpCall .post "/story/progressNarrative" [("user_id", .str interaction.userId)]
    let d ← destructure res
    if !d.success then
      let text := orElseStr d.narrative "Could not advance the story."
      await (.editReply interaction { content := some s!"❌ {text}" })
      return
    let payload := narrative.render d.narrative d.options
    let message ← awaitMessage (.editReply interaction payload)
    if hasOptions d.options then
      let _ ← perform (.createCollector message.id 120000 (.story interaction message))
  catch err =>
    logError "Error in /story command:" err
    await (.editReply interaction
      { content := some "❌ Unable to reach the story service. Please try again later." })

/-! ## /roll-power (src/commands/roll.js) -/

/-- The constant `COST` of roll.js. -/
def COST : Int := 100

/-- The confirmation row: Confirm Roll and Cancel. -/
def rollRow : List Button :=
  [{ customId := "roll_confirm", label := "Confirm Roll", style := .primary },
   { customId := "roll_cancel", label := "Cancel", style := .secondary }]

/-- The confirmation embed. -/
def confirmEmbed : Embed :=
  { title := some "🎲 Gacha Roll"
    description := some s!"This roll costs **{COST} 🪙**. Do you want to proceed?" }

/-- The embed showing the rewarded power or item. -/
def resultEmbed (reward : Reward) (balance : Option Int) : Embed :=
  { title := some "🎉 Roll Result"
    fields :=
      [("You received", s!"**{reward.name}**"),
       ("Rarity", reward.rarity),
       ("Your New Balance", s!"{showNum balance} 🪙")]
    image := if truthy reward.imageUrl then reward.imageUrl else none }

/-- The function `execute` of roll.js. -/
def roll.execute (interaction : Interaction) : Prog Unit := do
  await (.reply interaction
    { embeds := some [confirmEmbed], components := some [rollRow], ephemeral := true })
  let message ← awaitMessage (.fetchReply interaction)
  let _ ← perform (.createCollector message.id 30000 (.roll interaction rollRow))

/-! ## /inventory (src/commands/inventory.js) -/

/-- The constant `pageSize` of inventory.js. -/
def pageSize : Nat := 10

/-- The expression `Math.ceil(totalItems / pageSize) || 1`; `undefined` gives `NaN`,
which is falsy. -/
def totalPages (totalItems : Option Nat) : Nat :=
  match totalItems with
  | some n => if (n + pageSize - 1) / pageSize = 0 then 1 else (n + pageSize - 1) / pageSize
  | none => 1

/-- One line of the inventory listing. -/
def inventoryLine (it : Item) : String :=
  let equippedTag := if it.isEquipped then " (Equipped)" else ""
  s!"• **{it.name}** x{it.quantity}{equippedTag}"

/-- The Previous / Next buttons shown on a page. -/
def pageRow (pageNumber total : Nat) : List Button :=
  (if pageNumber > 1 then
    [{ customId := "inv_prev", label := "◀️ Previous", style := ButtonStyle.secondary }]
   else []) ++
  (if pageNumber < total then
    [{ customId := "inv_next", label := "Next ▶️", style := ButtonStyle.secondary }]
   else [])

/-- The inner function `inventory.showPage` of inventory.js. -/
def inventory.showPage (interaction : Interaction) (pageNumber : Nat) : Prog Unit := do
  try
    let res ← httpCall .get "/item/getInventory"
      [("user_id", .str interaction.userId), ("page", .int pageNumber),
       ("pageSize", .int pageSize)]
    let d ← destructure res
    let total := totalPages d.totalItems
    let items ← defined d.items "Cannot read properties of undefined (reading length)"
    let embed : Embed :=
      { title := some s!"{interaction.username}’s Inventory"
        footer := some s!"Page {pageNumber} of {total}"
        description :=
          if items.length = 0 then some "_Your inventory is empty._"
          else some ("\n".intercalate (items.map inventoryLine)) }
    let row := pageRow pageNumber total
    await (.editReply interaction { embeds := some [embed], components := some [row] })
  catch err =>
    logError "Error fetching inventory:" err
    await (.editReply interaction
      { content := some "❌ Could not load inventory. Please try again later."
        embeds := some []
        components := some [] })

/-- The function `execute` of inventory.js.  The variable `page` starts at 1 and
lives with the collector. -/
def inventory.execute (interaction : Interaction) : Prog Unit := do
  await (.deferReply interaction)
  inventory.showPage interaction 1
  let message ← awaitMessage (.fetchReply interaction)
  let _ ← perform (.createCollector message.id 120000 (.inventory interaction message))

/-! ## /trade (src/commands/trade.js) -/

/-- The Accept / Cancel row of a trade proposal. -/
def tradeRow (trade_id : Option Int) : List Button :=
  [{ customId := s!"trade_accept_{showNum trade_id}", label := "Accept", style := .success },
   { customId := s!"trade_cancel_{showNum trade_id}", label := "Cancel", style := .danger }]

/-- The "Trade Proposal Sent" embed. -/
def proposalEmbed (trade_id : Option Int) (fromUser toUser itemId : String) (qty : Int)
    (reqItemId : String) (reqQty : Int) : Embed :=
  { title := some "🤝 Trade Proposal Sent"
    description := some (s!"Trade ID **{showNum trade_id}**\n" ++
      s!"<@{fromUser}> offers **{qty}× {itemId}**\n" ++
      s!"in exchange for **{reqQty}× {reqItemId}** from <@{toUser}>") }

/-- The function `execute` of trade.js. -/
def trade.execute (interaction : Interaction) : Prog Unit := do
  await (.deferReply interaction)
  let opts ← defined interaction.options
    "Cannot read properties of undefined (reading getSubcommand)"
  let sub := opts.subcommand
  try
    if sub = "propose" then
      let fromUser := interaction.userId
      let toUser := opts.target
      let res ← httpCall .post "/trade/initiate"
        [("from_user", .str fromUser), ("to_user", .str toUser),
         ("item_offer", .offer opts.item_id opts.quantity),
         ("item_request", .offer opts.request_item_id opts.request_quantity)]
      let d ← destructure res
      if !d.success then
        await (.editReply interaction
          { content := some s!"❌ Could not initiate trade: {showOpt d.error}" })
        return
      let embed := proposalEmbed d.trade_id fromUser toUser opts.item_id opts.quantity
        opts.request_item_id opts.request_quantity
      await (.editReply interaction
        { embeds := some [embed], components := some [tradeRow d.trade_id] })
      let message ← awaitMessage (.fetchReply interaction)
      let _ ← perform (.createCollector message.id 120000 (.trade interaction toUser))
    else if sub = "accept" ∨ sub = "cancel" then
      let tradeId := opts.trade_id
      let res ← httpCall .post s!"/trade/{sub}"
        [("user_id", .str interaction.userId), ("trade_id", .int tradeId)]
      let d ← destructure res
      if !d.success then
        await (.editReply interaction { content := some s!"❌ {showOpt d.error}" })
      else
        await (.editReply interaction
          { content := some (if sub = "accept"
              then s!"✅ You have accepted trade **{tradeId}**."
              else s!"❌ You have cancelled trade **{tradeId}**.") })
  catch err =>
    logError "Error in /trade command:" err
    await (.editReply interaction
      { content := some
          "❌ An error occurred while processing the trade. Please try again later."
        ephemeral := true })

/-! ## /balance (src/commands/balance.js) -/

/-- The optional field "Progress to Next Rank": present when `nextRankXp` is a number. -/
def balance.progress (d : Data) : Prog (List (String × String)) :=
  match d.nextRankXp with
  | some next => do
    let xp ← defined d.xp "Cannot read properties of undefined (reading toLocaleString)"
    return [("Progress to Next Rank", s!"{toLocaleString xp} / {toLocaleString next} XP")]
  | none => pure []

/-- The function `execute` of balance.js. -/
def balance.execute (interaction : Interaction) : Prog Unit := do
  await (.deferReply interaction)
  try
    let response ← httpCall .get "/economy/balance" [("user_id", .str interaction.userId)]
    let d ← destructure response
    let gold ← defined d.gold "Cannot read properties of undefined (reading toLocaleString)"
    let progress ← balance.progress d
    let embed : Embed :=
      { title := some s!"{interaction.username}’s Balance"
        fields := [("Gold", s!"{toLocaleString gold} 🪙"), ("Rank", s!"**{showOpt d.rank}**")] ++
          progress }
    await (.editReply interaction { embeds := some [embed] })
  catch err =>
    logError "Error fetching balance:" err
    await (.editReply interaction
      { content := some
          "❌ Sorry, I couldn’t fetch your balance right now. Please try again later."
        ephemeral := true })

/-! ## /start (src/commands/start.js) -/

/-- The function `execute` of start.js.  The correlation id is a fresh random UUID. -/
def start.execute (interaction : Interaction) : Prog Unit := do
  await (.deferReply interaction)
  try
    let response ← httpCall .post "/sessions/create"
      [("user_id", .str interaction.userId), ("correlation_id", .uuid)]
    let d ← destructure response
    let embed : Embed :=
      { title := some "🎉 Adventure Started!"
        description := some "Your journey begins now—good luck!"
        fields :=
          [("Session ID", "`" ++ showOpt d.session_id ++ "`"),
           ("Dungeon Level", showNum d.dungeon_level),
           ("XP", showNum d.xp),
           ("Gold", s!"{showNum d.gold} 🪙")] }
    await (.editReply interaction { embeds := some [embed] })
  catch err =>
    logError "Error in /start command:" err
    await (.editReply interaction
      { content := some "❌ Failed to start a new adventure. Please try again later."
        ephemeral := true })

/-! ## /stats (src/commands/stats.js) -/

/-- One line of the equipment field. -/
def stats.equipLine (eq : Item) : String :=
  let icon := match eq.iconUrl with
    | some u => if u != "" then "![icon](" ++ u ++ ") " else ""
    | none => ""
  let status := if eq.isEquipped then " (Equipped)" else ""
  s!"{icon}**{eq.slot}:** {eq.name}{status}"

/-- The equipment field: the equipped items, or a note that there are none. -/
def stats.equipmentField (equipment : Option (List Item)) : String × String :=
  match equipment with
  | some (x :: xs) => ("🗡️ Equipment", "\n".intercalate ((x :: xs).map stats.equipLine))
  | _ => ("🗡️ Equipment", "_No items equipped._")

/-- The function `execute` of stats.js. -/
def stats.execute (interaction : Interaction) : Prog Unit := do
  await (.deferReply interaction)
  try
    let res ← httpCall .get "/player/stats" [("user_id", .str interaction.userId)]
    let d ← destructure res
    if !d.success then
      await (.editReply interaction
        { content := some "❌ Could not load your stats. Please try again later." })
      return
    let xp ← defined d.xp "Cannot read properties of undefined (reading toLocaleString)"
    let nextRankXp ← defined d.nextRankXp
      "Cannot read properties of undefined (reading toLocaleString)"
    let entries ← defined d.stats "Cannot convert undefined or null to object"
    let embed : Embed :=
      { title := some s!"{interaction.username}’s Character Profile"
        fields :=
          [("Rank", s!"**{showOpt d.rank}**"),
           ("XP", s!"{toLocaleString xp} / {toLocaleString nextRankXp}")] ++
          entries.map (fun e => (capitalize e.1, toString e.2)) ++
          [stats.equipmentField d.equipment] }
    await (.editReply interaction { embeds := some [embed] })
  catch err =>
    logError "Error in /stats command:" err
    await (.editReply interaction
      { content := some
          "❌ An error occurred while fetching your profile. Please try again later." })

/-! ## /preview (src/commands/preview.js) -/

/-- The function `execute` of preview.js. -/
def preview.execute (interaction : Interaction) : Prog Unit := do
  await (.deferReply interaction)
  let userId := interaction.userId
  let opts ← defined interaction.options "Cannot read properties of undefined (reading getString)"
  let modelId := opts.model_id
  try
    let res ← httpCall .get "/model/preview" [("user_id", .str userId), ("model_id", .str modelId)]
    let d ← destructure res
    if !d.success then
      let text := orElseStr d.error "Unknown error."
      await (.editReply interaction { content := some s!"❌ Could not generate preview: {text}" })
      return
    let embed : Embed :=
      { title := some s!"🔍 Preview: {showOpt d.name}"
        description := some
          ("Here is the 3D preview for **" ++ showOpt d.name ++ "** (ID: `" ++ modelId ++ "`)")
        image := d.url }
    await (.editReply interaction { embeds := some [embed] })
  catch err =>
    logError "Error in /preview command:" err
    await (.editReply interaction
      { content := some "❌ Failed to fetch model preview. Please try again later." })

/-! ## /shop (src/commands/shop.js) -/

/-- The embed field of one shop item. -/
def shop.itemField (item : Item) : String × String :=
  let icon := match item.iconUrl with
    | some u => if u != "" then "![icon](" ++ u ++ ") " else ""
    | none => ""
  (icon ++ "**" ++ item.name ++ "** (`" ++ item.id ++ "`)",
   s!"{item.description}\n**Price:** {toLocaleString item.price} 🪙")

/-- The "Item Shop" embed. -/
def shop.listEmbed (items : List Item) : Embed :=
  { title := some "🛒 Item Shop"
    description := some "Browse items available for purchase:"
    fields := items.map shop.itemField }

/-- The value `items = res.data` when `Array.isArray(items)` holds. -/
def shop.asArray (resData : Option Data) : Option (List Item) :=
  match resData with
  | some d => d.array
  | none => none

/-- The "Purchase Successful" embed. -/
def shop.purchaseEmbed (item : Item) (balance : Int) : Embed :=
  let quantity := if item.quantity = 0 then 1 else item.quantity
  { title := some "✅ Purchase Successful"
    description := some s!"You purchased **{item.name}** (x{quantity})"
    fields :=
      [("Item ID", "`" ++ item.id ++ "`"),
       ("Cost", s!"{toLocaleString item.price} 🪙"),
       ("Balance", s!"{toLocaleString balance} 🪙")]
    thumbnail := match item.iconUrl with
      | some u => if u != "" then some u else none
      | none => none }

/-- The function `execute` of shop.js. -/
def shop.execute (interaction : Interaction) : Prog Unit := do
  await (.deferReply interaction)
  let userId := interaction.userId
  let opts ← defined interaction.options
    "Cannot read properties of undefined (reading getSubcommand)"
  let sub := opts.subcommand
  if sub = "list" then
    try
      let res ← httpCall .get "/economy/shop/items" []
      match shop.asArray res with
      | some (x :: xs) =>
        await (.editReply interaction { embeds := some [shop.listEmbed (x :: xs)] })
      | _ =>
        await (.editReply interaction { content := some "🛒 The shop is currently empty." })
    catch err =>
      logError "Error fetching shop items:" err
      await (.editReply interaction
        { content := some "❌ Could not load shop items. Please try again later." })
  else if sub = "buy" then
    let itemId := opts.item_id
    try
      let res ← httpCall .post "/economy/shop/buy"
        [("user_id", .str userId), ("item_id", .str itemId)]
      let d ← destructure res
      if !d.success then
        await (.editReply interaction { content := some s!"❌ {showOpt d.error}" })
        return
      let item ← defined d.item "Cannot read properties of undefined (reading name)"
      let balance ← defined d.balance
        "Cannot read properties of undefined (reading toLocaleString)"
      await (.editReply interaction { embeds := some [shop.purchaseEmbed item balance] })
    catch err =>
      logError "Error purchasing item:" err
      await (.editReply interaction
        { content := some "❌ Purchase failed. Please try again later." })

/-! ## /forge (src/commands/forge.js) -/

/-- The call `interaction.fields.getTextInputValue(id)`: it throws when the modal has
no such input. -/
def getTextInputValue (interaction : Interaction) (id : String) : Prog String :=
  defined ((interaction.fields.find? (fun e => e.1 == id)).map (fun e => e.2))
    "Required field with custom id not found."

/-- The traits typed into the modal: `traitsRaw.split(',').map(t => t.trim())
.filter(Boolean)`, or none when the input is empty. -/
def forge.traits (traitsRaw : String) : List String :=
  if traitsRaw = "" then []
  else ((jsSplit traitsRaw ',').map jsTrim).filter (fun t => t != "")

/-- The quantity typed into the modal: `parseInt(quantityRaw, 10)`, rejected with an
`Error` when it is `NaN` or below 1. -/
def forge.quantity (quantityRaw : String) : Prog Int :=
  match parseInt10 quantityRaw with
  | some q =>
    if q < 1 then .throw (.error "Quantity must be a positive integer.") else .pure q
  | none => .throw (.error "Quantity must be a positive integer.")

/-- The "Forge Successful" embed. -/
def forge.embed (forgedItem : Item) (quantity : Int) (cost : Int) (traits : List String) :
    Embed :=
  { title := some "🔨 Forge Successful"
    fields :=
      [("Item", s!"**{forgedItem.name}** (x{quantity})"),
       ("Cost", s!"{toLocaleString cost} 🪙"),
       ("Traits", if traits.length = 0 then "None" else ", ".intercalate traits)] }

/-- The text shown by the catch block: `err.message || 'Unknown error'` after a fixed
lead-in. -/
def forge.failureText (err : Err) : String :=
  let detail := if err.message = "" then "Unknown error" else err.message
  s!"❌ Error forging item: {detail}"

/-- The function `execute` of forge.js: the slash command shows the modal, the
submission of the modal `forge_modal` forges. -/
def forge.execute (interaction : Interaction) : Prog Unit := do
  if interaction.kind = .chatInput then
    await (.showModal interaction "forge_modal" ["item_id", "traits", "quantity"])
    return
  if interaction.kind = .modalSubmit ∧ interaction.customId = "forge_modal" then
    await (.deferReply interaction)
    try
      let userId := interaction.userId
      let itemId ← getTextInputValue interaction "item_id"
      let traitsRaw ← getTextInputValue interaction "traits"
      let quantityRaw ← getTextInputValue interaction "quantity"
      let traits := forge.traits traitsRaw
      let quantity ← forge.quantity quantityRaw
      let res ← httpCall .post "/item/forgeItem"
        [("user_id", .str userId), ("item_id", .str itemId), ("traits", .strs traits),
         ("quantity", .int quantity)]
      let d ← destructure res
      if !d.success then
        await (.editReply interaction
          { content := some s!"❌ Could not forge item: {showOpt d.error}" })
        return
      let forgedItem ← defined d.forgedItem "Cannot read properties of undefined (reading name)"
      let cost ← defined d.cost "Cannot read properties of undefined (reading toLocaleString)"
      await (.editReply interaction { embeds := some [forge.embed forgedItem quantity cost traits] })
    catch err =>
      logError "Error in forge modal submission:" err
      await (.editReply interaction { content := some (forge.failureText err) })

/-! ## The command registry (src/index.js) -/

/-- The command modules under src/commands. -/
inductive Cmd where
  | combat
  | explore
  | barter
  | story
  | rollPower
  | inventory
  | trade
  | balance
  | forge
  | help
  | preview
  | shop
  | start
  | stats
deriving DecidableEq, Repr

/-- The value of `data.name` of a command. -/
def Cmd.dataName : Cmd → String
  | .combat => "combat"
  | .explore => "explore"
  | .barter => "barter"
  | .story => "story"
  | .rollPower => "roll-power"
  | .inventory => "inventory"
  | .trade => "trade"
  | .balance => "balance"
  | .forge => "forge"
  | .help => "help"
  | .preview => "preview"
  | .shop => "shop"
  | .start => "start"
  | .stats => "stats"

/-- The value of `data.description` of a command. -/
def Cmd.description : Cmd → String
  | .combat => "⚔️ Resolve your next combat round (or start a new battle)"
  | .explore => "🏰 Descend to the next dungeon floor"
  | .barter => "🛒 Encounter the wandering trader"
  | .story => "📖 Advance the campaign narrative"
  | .rollPower => "🎲 Roll for a new power (cost: 100 🪙)"
  | .inventory => "📦 View and manage your inventory"
  | .trade => "🤝 Player‐to‐player trading commands"
  | .balance => "💰 View your current gold and rank"
  | .forge => "🔨 Forge a new item with optional traits"
  | .help => "❓ Show all available commands and how to use them"
  | .preview => "🔍 Preview a 3D model by its ID"
  | .shop => "🛒 Browse and buy items"
  | .start => "🚀 Start a new dungeon-crawling adventure"
  | .stats => "📊 View your character stats and equipped items"

/-- The collection `client.commands`, keyed by `data.name`. -/
abbrev Registry := List (String × Cmd)

/-- The call `client.commands.get(name)`. -/
def Registry.get (reg : Registry) (name : String) : Option Cmd :=
  match reg.find? (fun e => e.1 == name) with
  | some e => some e.2
  | none => none

/-- The registry as index.js fills it: every module of src/commands, in the order of
the file names, stored under its `data.name`. -/
def registry : Registry :=
  [Cmd.balance, .barter, .combat, .explore, .forge, .help, .inventory, .story, .preview,
   .rollPower, .shop, .start, .stats, .trade].map (fun c => (c.dataName, c))

/-- The function `execute` of help.js; `interaction.client.commands` is the registry
of index.js. -/
def help.execute (interaction : Interaction) : Prog Unit := do
  await (.deferReply interaction)
  let commands := registry
  let embed : Embed :=
    { title := some "📖 Command List"
      description := some "Here are all the commands you can use:"
      fields := (commands.filter
          (fun e => e.2.dataName != "" && e.2.description != "")).map
        (fun e => ("/" ++ e.2.dataName, e.2.description)) }
  await (.editReply interaction { embeds := some [embed] })

/-- The function `execute` exported by a command module. -/
def Cmd.execute : Cmd → Interaction → Prog Unit
  | .combat => combat.execute
  | .explore => explore.execute
  | .barter => barter.execute
  | .story => narrative.execute
  | .rollPower => roll.execute
  | .inventory => inventory.execute
  | .trade => trade.execute
  | .balance => balance.execute
  | .forge => forge.execute
  | .help => help.execute
  | .preview => preview.execute
  | .shop => shop.execute
  | .start => start.execute
  | .stats => stats.execute

/-- The member `executeText` of an entry of `client.commands`: index.js stores
`{ data, execute }` for every module, so no entry has one. -/
def Cmd.executeText (_ : Cmd) : Option (TextMessage → List String → Prog Unit) :=
  none

/-! ## Collector handlers -/

/-- A collector as `createMessageComponentCollector` makes it: the message it listens
on, its `time` option, the interactions collected so far and whether it has ended.
`page` is the variable of inventory.js that its `collect` handler updates. -/
structure Collector where
  id : Nat
  message : Nat
  time : Nat
  createdAt : Nat
  site : Site
  page : Nat := 1
  collected : List Nat := []
  ended : Bool := false
deriving DecidableEq, Repr

/-- The `filter` option given at each call site. -/
def Site.filter : Site → Interaction → Bool
  | .combat interaction _ _, btnInt => btnInt.userId == interaction.userId
  | .explore interaction _ _, i => i.userId == interaction.userId
  | .barter interaction, i => i.userId == interaction.userId
  | .story interaction _, i => i.userId == interaction.userId
  | .roll interaction _, btn => btn.userId == interaction.userId
  | .inventory interaction _, btn => btn.userId == interaction.userId
  | .trade _ toUser, btn => btn.userId == toUser

/-- The call `collector.stop()`. -/
def stopCollector (c : Nat) : Prog Unit := do
  let _ ← perform (.stop c)
  return ()

/-- The `collect` handler of combat.js. -/
def combat.collect (c : Collector) (interaction : Interaction) (btnInt : Interaction) :
    Prog Unit := do
  if btnInt.customId = "combat_next" then
    await (.deferUpdate btnInt)
    combat.execute interaction
    stopCollector c.id

/-- The `collect` handler of explore.js. -/
def explore.collect (reg : Registry) (c : Collector) (interaction : Interaction)
    (i : Interaction) : Prog Unit := do
  if i.customId = "explore_next" then
    await (.deferUpdate i)
    stopCollector c.id
    explore.execute interaction
  else if i.customId = "explore_barter" then
    await (.deferUpdate i)
    stopCollector c.id
    match reg.get "barter" with
    | some barterCommand => barterCommand.execute interaction
    | none =>
      await (.followUp interaction
        { content := some "⚠️ Trade command not found. Please run `/barter`."
          ephemeral := true })

/-- The `collect` handler of barter.js. -/
def barter.collect (c : Collector) (interaction : Interaction) (i : Interaction) :
    Prog Unit := do
  if i.customId = "barter_skip" then
    await (.update i
      { content := some "🕶️ You decided to skip the trader."
        embeds := some []
        components := some [] })
    stopCollector c.id
    return
  if jsStartsWith i.customId "barter_buy_" then
    let itemId := jsRemove i.customId "barter_buy_"
    try
      let buyRes ← httpCall .post "/barterer/buy"
        [("user_id", .str interaction.userId), ("item_id", .str itemId)]
      let d ← destructure buyRes
      if !d.success then
        await (.update i
          { content := some s!"❌ {showOpt d.error}", embeds := some [], components := some [] })
      else
        let item ← defined d.item "Cannot read properties of undefined (reading name)"
        await (.update i
          { content := some
              s!"✅ You purchased **{item.name}** for {toLocaleString item.price} 🪙!"
            embeds := some []
            components := some [] })
    catch err =>
      logError "Barter purchase error:" err
      await (.update i
        { content := some "❌ There was an error processing your purchase."
          embeds := some []
          components := some [] })
    stopCollector c.id

/-- The `collect` handler of narrative.js. -/
def narrative.collect (c : Collector) (interaction : Interaction) (i : Interaction) :
    Prog Unit := do
  let choiceId := jsRemove i.customId "story_choice_"
  await (.deferUpdate i)
  try
    let choiceRes ← httpCall .post "/story/progressNarrative"
      [("user_id", .str interaction.userId), ("choice", .str choiceId)]
    let d ← destructure choiceRes
    let nextPayload := narrative.render d.narrative d.options
    await (.editReply interaction nextPayload)
  catch err =>
    logError "Error processing narrative choice:" err
    await (.editReply interaction
      { content := some "❌ An error occurred processing your choice. Please try again later."
        components := some [] })
  stopCollector c.id

/-- The `collect` handler of roll.js. -/
def roll.collect (c : Collector) (interaction : Interaction) (btn : Interaction) :
    Prog Unit := do
  await (.deferUpdate btn)
  if btn.customId = "roll_cancel" then
    await (.editReply interaction
      { content := some "❌ Roll canceled.", embeds := some [], components := some [] })
    stopCollector c.id
    return
  try
    let res ← httpCall .post "/gacha/rollPower"
      [("user_id", .str interaction.userId), ("cost", .int COST)]
    let d ← destructure res
    if !d.success then
      await (.editReply interaction
        { content := some s!"❌ {showOpt d.error}", embeds := some [], components := some [] })
    else
      let reward ← defined d.reward "Cannot read properties of undefined (reading name)"
      await (.editReply interaction
        { content := some ""
          embeds := some [resultEmbed reward d.balance]
          components := some [] })
  catch err =>
    logError "Error performing gacha roll:" err
    await (.editReply interaction
      { content := some "❌ An error occurred while rolling. Please try again later."
        embeds := some []
        components := some [] })
  stopCollector c.id

/-- The new value of `page` after a click, as the `collect` handler of inventory.js
computes it. -/
def turnPage (page : Nat) (customId : String) : Nat :=
  if customId = "inv_prev" then max 1 (page - 1)
  else if customId = "inv_next" then page + 1
  else page

/-- The `collect` handler of inventory.js. -/
def inventory.collect (c : Collector) (interaction : Interaction) (btn : Interaction) :
    Prog Unit := do
  let page := turnPage c.page btn.customId
  let _ ← perform (.setPage c.id page)
  await (.deferUpdate btn)
  inventory.showPage interaction page

/-- Rendering of `tradeId` in a template literal: `NaN` when `parseInt` failed. -/
def showParsed (n : Option Int) : String :=
  match n with
  | some v => toString v
  | none => "NaN"

/-- The `collect` handler of trade.js. -/
def trade.collect (c : Collector) (interaction : Interaction) (btn : Interaction) :
    Prog Unit := do
  await (.deferUpdate btn)
  let parts := jsSplit btn.customId '_'
  let action := parts.getD 0 ""
  let tradeId := (parts.get? 2).bind parseInt10
  let endpoint :=
    if action = "trade" ∧ jsStartsWith btn.customId "trade_accept" then "accept" else "cancel"
  let resp ← httpCall .post s!"/trade/{endpoint}"
    [("user_id", .str btn.userId),
     ("trade_id", match tradeId with
        | some n => .int n
        | none => .nan)]
  let d ← destructure resp
  if !d.success then
    await (.editReply interaction { content := some s!"❌ {showOpt d.error}" })
  else
    let outcomeEmbed : Embed :=
      { title := some (if action = "trade_accept" then "✅ Trade Completed"
          else "❌ Trade Cancelled")
        description := some (s!"Trade ID **{showParsed tradeId}** has been " ++
          (if action = "trade_accept" then "accepted" else "cancelled") ++ ".") }
    await (.editReply interaction { embeds := some [outcomeEmbed], components := some [] })
  stopCollector c.id

/-- The `collect` handler a collector runs, by call site. -/
def collectHandler (reg : Registry) (c : Collector) (i : Interaction) : Prog Unit :=
  match c.site with
  | .combat interaction _ _ => combat.collect c interaction i
  | .explore interaction _ _ => explore.collect reg c interaction i
  | .barter interaction => barter.collect c interaction i
  | .story interaction _ => narrative.collect c interaction i
  | .roll interaction _ => roll.collect c interaction i
  | .inventory interaction _ => inventory.collect c interaction i
  | .trade interaction _ => trade.collect c interaction i

/-- The `end` handler of each call site, as the platform calls it awaits in order;
`size` is `collected.size`.  The handlers are straight-line code; an `error` is an
exception thrown before the first call. -/
def endHandler (site : Site) (size : Nat) : Except Err (List Call) :=
  match site with
  | .combat _ messageReply nextBtn =>
    if size = 0 then
      .ok [.messageEdit messageReply.id { components := some [[nextBtn.disable]] }]
    else .ok []
  | .explore interaction message row =>
    if size = 0 then
      .ok [.messageEdit message.id { components := some [row.map Button.disable] },
           .followUp interaction
             { content := some "⌛ The echoes in the dungeon grow silent…", ephemeral := true }]
    else .ok []
  | .barter interaction =>
    if size = 0 then
      .ok [.editReply interaction
        { content := some "⌛ Time’s up – the trader has packed up and left."
          embeds := some []
          components := some [] }]
    else .ok []
  | .story _ message =>
    if size = 0 then
      .ok [.messageEdit message.id
        { components := some (message.components.map (fun row => row.map Button.disable)) }]
    else .ok []
  | .roll interaction row =>
    if size = 0 then
      .ok [.editReply interaction
        { content := some "⌛ Time expired — roll canceled."
          embeds := some []
          components := some [row.map Button.disable] }]
    else .ok []
  | .inventory _ message =>
    match message.components with
    | originalRow :: _ =>
      .ok [.messageEdit message.id { components := some [originalRow.map Button.disable] }]
    | [] => .error (.typeError "Cannot read properties of undefined (reading components)")
  | .trade interaction _ =>
    if size = 0 then
      .ok [.editReply interaction
        { content := some "⌛ The trade offer has expired."
          embeds := some []
          components := some [] }]
    else .ok []

/-! ## The interactionCreate handler (src/events/interactionCreate.js) -/

/-- The text sent when a command throws. -/
def unexpectedError : String :=
  "❌ An unexpected error occurred. Please try again later."

/-- The `catch` block of `execute` in interactionCreate.js. -/
def interactionCreate.onError (interaction : Interaction) (err : Err) : Prog Unit := do
  logError "Error handling interaction:" err
  try
    let flags ← ackFlags interaction
    if flags.2 ∨ flags.1 then
      await (.editReply interaction
        { content := some unexpectedError, embeds := some [], components := some [] })
    else
      await (.reply interaction { content := some unexpectedError, ephemeral := true })
  catch err =>
    logError "Failed to send error reply:" err

/-- The function `execute` of interactionCreate.js. -/
def interactionCreate.execute (reg : Registry) (interaction : Interaction) : Prog Unit := do
  try
    if interaction.kind = .chatInput then
      match reg.get interaction.commandName with
      | none =>
        logLine .warn s!"No command handler for {interaction.commandName}"
        return
      | some cmd =>
        cmd.execute interaction
        return
    if interaction.kind = .button ∨ interaction.kind = .selectMenu ∨
        interaction.kind = .modalSubmit then
      let commandName := (jsSplit interaction.customId '_').getD 0 ""
      match reg.get commandName with
      | none =>
        logLine .warn s!"No command found for component {interaction.customId}"
        return
      | some cmd =>
        cmd.execute interaction
        return
  catch err =>
    interactionCreate.onError interaction err

/-! ## The messageCreate handler (src/events/messageCreate.js) -/

/-- The destructuring `[cmdName, ...args]` of the text after the first `skip`
characters, trimmed and split at white space. -/
def messageCreate.parse (content : String) (skip : Nat) : Option String × List String :=
  let parts := jsSplitWs (jsTrim (jsSlice content skip))
  (parts.head?, parts.tail)

/-- The text of the reply to an unknown command. -/
def unknownCommand (cmdName : String) : String :=
  "❓ Unknown command `" ++ cmdName ++ "`. Use `/help` to see all available slash commands."

/-- The constant `location`: where the message was written. -/
def messageCreate.location (message : TextMessage) : String :=
  match message.guild with
  | some guild => s!"[Guild: {guild} → #{message.channel}]"
  | none => "[DM]"

/-- The function `execute` of messageCreate.js.  `configured` is the property `prefix`
of config.json, a file that is not among the sources. -/
def messageCreate.execute (configured : Option String) (reg : Registry)
    (message : TextMessage) : Prog Unit := do
  if message.bot then return
  let location := messageCreate.location message
  logLine .info s!"{location} {message.tag}: {message.content}"
  let lead := orElseStr configured "!"
  if !jsStartsWith message.content lead then return
  let parsed := messageCreate.parse message.content lead.length
  let cmdName ← defined parsed.1 "Cannot read properties of undefined (reading toLowerCase)"
  let args := parsed.2
  match reg.get (jsToLowerCase cmdName) with
  | none =>
    await (.messageReply message.id (unknownCommand cmdName))
    return
  | some command =>
    match command.executeText with
    | some executeText =>
      try
        executeText message args
      catch err =>
        logError ("Error executing text command \"" ++ cmdName ++ "\":") err
        await (.messageReply message.id "❌ There was an error executing that command.")
    | none => return

/-! ## Tokens of a text -/

/-- The whitespace-delimited tokens of a text, in the words of the specification: its
maximal runs of characters that are not white space, in order. -/
def tokens (s : String) : List String :=
  ((s.data.splitOnP jsWhitespace).filter (fun piece => !piece.isEmpty)).map String.mk

/-- The pieces that are not empty. -/
def nonEmpty (pieces : List (List Char)) : List (List Char) :=
  pieces.filter (fun piece => !piece.isEmpty)

/-- Strip the white space at the end of a character list, as `jsTrim` does after it
has stripped the white space at the start. -/
def rtrim (l : List Char) : List Char :=
  (l.reverse.dropWhile jsWhitespace).reverse

/-! ## The platform and the event loop -/

/-- What the process does that can be observed from outside, in order. -/
inductive Effect where
  | request (task : Nat) (req : Request)
  | deferReply (i : Nat) (message : Nat)
  | reply (i : Nat) (message : Nat) (p : Payload)
  | editReply (i : Nat) (message : Nat) (p : Payload)
  | followUp (i : Nat) (message : Nat) (p : Payload)
  | deferUpdate (i : Nat)
  | update (i : Nat) (message : Nat) (p : Payload)
  | messageEdit (message : Nat) (p : Payload)
  | showModal (i : Nat) (customId : String) (inputs : List String)
  | messageReply (source : Nat) (message : Nat) (text : String)
  | collectorCreated (c : Nat) (message : Nat)
  | collected (c : Nat) (i : Nat)
  | collectorEnded (c : Nat)
  | log (level : Level) (text : String) (err : Option Err)
  | unhandledRejection (e : Err)
deriving DecidableEq, Repr

/-- An asynchronous function suspended on a backend request. -/
structure Task where
  id : Nat
  req : Request
  resume : HttpResult → Prog Unit

/-- State of the process and of the platform objects it holds.  `deferred` and
`replied` list the interactions whose flag of that name is set; `replyOf` maps an
interaction to the message that is its reply.  `settled` lists the interactions whose
acknowledgement had completed before the current event was handled: the library sets
the flags of an interaction object when the call that acknowledges it resolves, so a
listener that runs while that call is still in flight does not see them yet. -/
structure World where
  now : Nat := 0
  nextMessage : Nat := 0
  nextCollector : Nat := 0
  nextTask : Nat := 0
  deferred : List Nat := []
  replied : List Nat := []
  replyOf : List (Nat × Nat) := []
  messages : List Message := []
  collectors : List Collector := []
  pending : List Task := []
  trace : List Effect := []
  settled : List Nat := []

/-- Append an effect to the trace. -/
def World.emit (w : World) (e : Effect) : World :=
  { w with trace := w.trace ++ [e] }

/-- Whether the interaction is deferred or replied. -/
def World.acked (w : World) (i : Interaction) : Bool :=
  w.deferred.contains i.id || w.replied.contains i.id

/-- The message that is the interaction's reply, when it has one. -/
def World.replyMessage (w : World) (i : Interaction) : Option Nat :=
  match w.replyOf.find? (fun e => e.1 == i.id) with
  | some e => some e.2
  | none => none

/-- The current state of a message. -/
def World.message (w : World) (m : Nat) : Message :=
  (w.messages.find? (fun x => x.id == m)).getD { id := m }

/-- Edit a message in place. -/
def World.patch (w : World) (m : Nat) (p : Payload) : World :=
  { w with messages := w.messages.map (fun x => if x.id == m then x.patch p else x) }

/-- The reply message of an interaction, created when it does not exist yet. -/
def World.ensureReply (w : World) (i : Interaction) : World × Nat :=
  match w.replyMessage i with
  | some m => (w, m)
  | none =>
    ({ w with
        nextMessage := w.nextMessage + 1
        messages := w.messages ++ [{ id := w.nextMessage }]
        replyOf := w.replyOf ++ [(i.id, w.nextMessage)] }, w.nextMessage)

/-- Bind a component interaction's reply to the message the component sits on. -/
def World.bindSource (w : World) (i : Interaction) : World :=
  match w.replyMessage i with
  | some _ => w
  | none => { w with replyOf := w.replyOf ++ [(i.id, i.messageId)] }

/-- Whether an acknowledgement (`deferReply`, `reply`, `deferUpdate`, `update`,
`showModal`) of the interaction is rejected with `alreadyReplied`.  The library rejects
it before anything is sent when the flags of the interaction object are set, which is
the case once an earlier acknowledgement has completed (`settled`).  While the earlier
acknowledgement is still in flight the call reaches the platform, which rejects it
when `strict` and accepts it otherwise. -/
def World.rejects (w : World) (strict : Bool) (i : Interaction) : Bool :=
  w.acked i && (strict || w.settled.contains i.id)

/-- The acknowledgements made so far have completed, that of the interaction `current`
apart, which the event being handled may have in flight. -/
def World.settleOthers (w : World) (current : Interaction) : World :=
  { w with settled := w.settled ++ (w.deferred ++ w.replied).filter (fun x => x != current.id) }

/-- The acknowledgements made so far have completed. -/
def World.settleAll (w : World) : World :=
  { w with settled := w.settled ++ w.deferred ++ w.replied }

/-- The platform's answer to a call.  A second acknowledgement (`deferReply`, `reply`,
`deferUpdate`, `update`, `showModal`) of an interaction is rejected with
`alreadyReplied` as `World.rejects` says.  `editReply`, `followUp` and `fetchReply`
need an acknowledged interaction. -/
def applyCall (strict : Bool) (w : World) : Call → World × Except Err Ret
  | .deferReply i =>
    if w.rejects strict i then (w, .error .alreadyReplied)
    else
      let (w1, m) := w.ensureReply i
      (({ w1 with deferred := i.id :: w1.deferred }).emit (.deferReply i.id m), .ok .unit)
  | .reply i p =>
    if w.rejects strict i then (w, .error .alreadyReplied)
    else
      let (w1, m) := w.ensureReply i
      let w2 := ({ w1 with replied := i.id :: w1.replied }).patch m p
      (w2.emit (.reply i.id m p), .ok .unit)
  | .editReply i p =>
    match w.replyMessage i with
    | none => (w, .error .notReplied)
    | some m =>
      let w1 := ({ w with replied := i.id :: w.replied }).patch m p
      (w1.emit (.editReply i.id m p), .ok (.message (w1.message m)))
  | .followUp i p =>
    if w.acked i then
      let m := w.nextMessage
      let w1 : World :=
        { w with
          nextMessage := m + 1
          messages := w.messages ++ [({ id := m } : Message).patch p] }
      (w1.emit (.followUp i.id m p), .ok (.message (w1.message m)))
    else (w, .error .notReplied)
  | .fetchReply i =>
    match w.replyMessage i with
    | none => (w, .error .notReplied)
    | some m => (w, .ok (.message (w.message m)))
  | .deferUpdate i =>
    if w.rejects strict i then (w, .error .alreadyReplied)
    else
      let w1 := w.bindSource i
      (({ w1 with deferred := i.id :: w1.deferred }).emit (.deferUpdate i.id), .ok .unit)
  | .update i p =>
    if w.rejects strict i then (w, .error .alreadyReplied)
    else
      let w1 := w.bindSource i
      let w2 := ({ w1 with replied := i.id :: w1.replied }).patch i.messageId p
      (w2.emit (.update i.id i.messageId p), .ok .unit)
  | .messageEdit m p =>
    let w1 := w.patch m p
    (w1.emit (.messageEdit m p), .ok (.message (w1.message m)))
  | .showModal i customId inputs =>
    if w.rejects strict i then (w, .error .alreadyReplied)
    else (({ w with replied := i.id :: w.replied }).emit (.showModal i.id customId inputs),
      .ok .unit)
  | .messageReply source text =>
    let m := w.nextMessage
    let w1 : World :=
      { w with
        nextMessage := m + 1
        messages := w.messages ++ [{ id := m, content := text }] }
    (w1.emit (.messageReply source m text), .ok (.message (w1.message m)))

/-- Run the awaited calls of an `end` handler in order; the first rejection ends the
handler as an unhandled rejection. -/
def runCalls (strict : Bool) : List Call → World → World
  | [], w => w
  | c :: cs, w =>
    match applyCall strict w c with
    | (w1, .ok _) => runCalls strict cs w1
    | (w1, .error e) => w1.emit (.unhandledRejection e)

/-- Look a collector up by id. -/
def World.collector (w : World) (c : Nat) : Option Collector :=
  w.collectors.find? (fun x => x.id == c)

/-- Replace a collector's record. -/
def World.setCollector (w : World) (c : Collector) : World :=
  { w with collectors := w.collectors.map (fun x => if x.id == c.id then c else x) }

/-- End a collector (`stop()` or its timer): nothing when it has ended already;
otherwise it is marked ended and its `end` handler runs with what was collected. -/
def endCollector (strict : Bool) (w : World) (c : Nat) : World :=
  match w.collector c with
  | none => w
  | some col =>
    if col.ended then w
    else
      let w1 := (w.setCollector { col with ended := true }).emit (.collectorEnded c)
      match endHandler col.site col.collected.length with
      | .ok calls => runCalls strict calls w1
      | .error e => w1.emit (.unhandledRejection e)

/-- The environment's answer to an operation. -/
def applyOp (strict : Bool) (w : World) : Op → World × Except Err Ret
  | .platform c => applyCall strict w c
  | .ackState i => (w, .ok (.flags (w.deferred.contains i.id) (w.replied.contains i.id)))
  | .createCollector m time site =>
    let c := w.nextCollector
    let w1 : World :=
      { w with
        nextCollector := c + 1
        collectors := w.collectors ++
          [{ id := c, message := m, time := time, createdAt := w.now, site := site }] }
    (w1.emit (.collectorCreated c m), .ok (.collector c))
  | .stop c => (endCollector strict w c, .ok .unit)
  | .setPage c page =>
    match w.collector c with
    | some col => (w.setCollector { col with page := page }, .ok .unit)
    | none => (w, .ok .unit)
  | .log level text err => (w.emit (.log level text err), .ok .unit)

/-- Run an asynchronous function until it returns, throws (nobody awaits it: an
unhandled rejection) or is suspended on a backend request, which is then issued. -/
def exec (strict : Bool) : Prog Unit → World → World
  | .pure _, w => w
  | .throw e, w => w.emit (.unhandledRejection e)
  | .http req k, w =>
    ({ w with nextTask := w.nextTask + 1, pending := w.pending ++ [Task.mk w.nextTask req k] }).emit
      (.request w.nextTask req)
  | .call op k, w =>
    match applyOp strict w op with
    | (w1, r) => exec strict (k r) w1

/-- The collector's listener on the client's interactionCreate event: a button
interaction on the collector's message that passes the filter is collected and
handed to the `collect` handler.  The acknowledgements of earlier events have completed
by then; one made on the collected interaction in this event is still in flight. -/
def handleCollect (strict : Bool) (reg : Registry) (i : Interaction) (w : World) (c : Nat) :
    World :=
  match w.collector c with
  | none => w
  | some col =>
    if !col.ended && i.kind == .button && i.messageId == col.message && col.site.filter i then
      let col1 : Collector :=
        { col with collected := if col.collected.contains i.id then col.collected
                                else col.collected ++ [i.id] }
      let w1 := ((w.setCollector col1).settleOthers i).emit (.collected c i.id)
      exec strict (collectHandler reg col1 i) w1
    else w

/-- The client emits interactionCreate: the handler registered at start-up runs
first, then the listeners of the collectors that were active when the event arrived.
Each listener is run here until it waits for the backend, a call to the platform being
answered at once; in the process a listener yields at its first `await`, so the effects
of different listeners of one event may reach the wire in another order than the trace
lists them: the trace gives the order within each listener. -/
def deliver (strict : Bool) (reg : Registry) (w : World) (i : Interaction) : World :=
  let listeners := (w.collectors.filter (fun c => !c.ended)).map (fun c => c.id)
  let w1 := exec strict (interactionCreate.execute reg i) w
  listeners.foldl (handleCollect strict reg i) w1

/-- Whether a collector's timer has run out. -/
def Collector.due (c : Collector) (now : Nat) : Bool :=
  !c.ended && c.createdAt + c.time ≤ now

/-- What the event loop receives. -/
inductive Event where
  | interaction (i : Interaction)
  | response (task : Nat) (r : HttpResult)
  | tick (t : Nat)

/-- One turn of the event loop.  A backend response arrives after the acknowledgements
made before the request have completed. -/
def step (strict : Bool) (reg : Registry) (w : World) : Event → World
  | .interaction i => deliver strict reg w i
  | .response t r =>
    match w.pending.find? (fun x => x.id == t) with
    | none => w
    | some task =>
      exec strict (task.resume r)
        ({ w with pending := w.pending.filter (fun x => x.id != t) }).settleAll
  | .tick t =>
    let w1 := { w with now := max w.now t }
    ((w1.collectors.filter (fun c => c.due w1.now)).map (fun c => c.id)).foldl
      (endCollector strict) w1

/-- Run the event loop over a list of events. -/
def run (strict : Bool) (reg : Registry) (w : World) (events : List Event) : World :=
  events.foldl (step strict reg) w

/-- The backend requests in a trace, in the order they were issued. -/
def requests (t : List Effect) : List Request :=
  t.filterMap (fun e => match e with
    | .request _ r => some r
    | _ => none)

/-- Whether no button of the message is enabled. -/
def Message.allDisabled (m : Message) : Bool :=
  m.components.all (fun row => row.all (fun b => b.disabled))

/-- The effects added to the trace between the world `w` and the later world `w1`. -/
def World.since (w1 w : World) : List Effect :=
  w1.trace.drop w.trace.length

/-- The payload an effect puts before the user, when it has one. -/
def Effect.payload : Effect → Option Payload
  | .reply _ _ p => some p
  | .editReply _ _ p => some p
  | .followUp _ _ p => some p
  | .update _ _ p => some p
  | .messageEdit _ p => some p
  | .messageReply _ _ text => some { content := some text }
  | _ => none

/-- The texts (`content`) sent to the user in a trace, in order. -/
def shown (t : List Effect) : List String :=
  t.filterMap (fun e => e.payload.bind (fun p => p.content))

/-- The embeds sent to the user in a trace, in order. -/
def shownEmbeds (t : List Effect) : List Embed :=
  (t.filterMap (fun e => e.payload.bind (fun p => p.embeds))).flatten

/-- The lines written to the log in a trace, in order. -/
def logged (t : List Effect) : List (Level × String × Option Err) :=
  t.filterMap (fun e => match e with
    | .log level text err => some (level, text, err)
    | _ => none)

/-- The custom ids of the buttons of a message, row by row. -/
def customIds (rows : List (List Button)) : List String :=
  rows.flatten.map (fun b => b.customId)

/-! ## What an asynchronous function can do -/

/-- Some run of the function (for some answers of the environment) performs `op`. -/
inductive Performs {α : Type} : Prog α → Op → Prop
  | here (op k) : Performs (.call op k) op
  | call (op k r o) : Performs (k r) o → Performs (.call op k) o
  | http (req k r o) : Performs (k r) o → Performs (.http req k) o

/-- Some run of the function issues the backend request `q`. -/
inductive Requests {α : Type} : Prog α → Request → Prop
  | here (req k) : Requests (.http req k) req
  | call (op k r q) : Requests (k r) q → Requests (.call op k) q
  | http (req k r q) : Requests (k r) q → Requests (.http req k) q

/-- Some run of the function returns `a`. -/
inductive Returns {α : Type} : Prog α → α → Prop
  | pure (a) : Returns (.pure a) a
  | call (op k r a) : Returns (k r) a → Returns (.call op k) a
  | http (req k r a) : Returns (k r) a → Returns (.http req k) a

/-- Some run of the function throws `e`. -/
inductive Throws {α : Type} : Prog α → Err → Prop
  | throw (e) : Throws (.throw e) e
  | call (op k r e) : Throws (k r) e → Throws (.call op k) e
  | http (req k r e) : Throws (k r) e → Throws (.http req k) e

/-- Some run of the function in which every call to the logger returns throws `e`:
the promise of the function can be rejected with `e` though the logger does not throw. -/
inductive Rejects {α : Type} : Prog α → Err → Prop
  | throw (e) : Rejects (.throw e) e
  | call (op k r e) : (∀ level text err, op = .log level text err → ∃ v, r = .ok v) →
      Rejects (k r) e → Rejects (.call op k) e
  | http (req k r e) : Rejects (k r) e → Rejects (.http req k) e

/-- Some run of the function arms a collector with this `time` option and these
captured variables. -/
def Arms {α : Type} (p : Prog α) (time : Nat) (site : Site) : Prop :=
  ∃ m, Performs p (.createCollector m time site)

/-- The record `y` is a later state of the collector record `x`: what was fixed when
the collector was created is the same, and a collector that has ended stays ended. -/
def Collector.later (x y : Collector) : Prop :=
  y.id = x.id ∧ y.message = x.message ∧ y.time = x.time ∧ y.createdAt = x.createdAt ∧
    y.site = x.site ∧ (x.ended = true → y.ended = true)

/-- The collector `c` exists in `w1` as a later state of the record `x`. -/
def World.keeps (w1 : World) (c : Nat) (x : Collector) : Prop :=
  ∃ y, w1.collector c = some y ∧ x.later y

/-- Whether the collector was created by inventory.js. -/
def Site.isInventory : Site → Bool
  | .inventory _ _ => true
  | _ => false

/-- An operation that leaves the deadline of the /inventory collectors of `w` alone: a
`stop` is of a collector that some other command created, and a collector created by
inventory.js gets the `time` option 120 000. -/
def World.allows (w : World) : Op → Prop
  | .stop c => ∃ col, w.collector c = some col ∧ col.site.isInventory = false
  | .createCollector _ time site => site.isInventory = true → time = 120000
  | _ => True

/-- The collectors have distinct ids below `nextCollector`. -/
def World.distinct (w : World) : Prop :=
  (∀ col ∈ w.collectors, w.collector col.id = some col) ∧
    ∀ col ∈ w.collectors, col.id < w.nextCollector

/-- Every suspended function performs only operations that `w` allows. -/
def World.quiet (w : World) : Prop :=
  ∀ task ∈ w.pending, ∀ r o, Performs (task.resume r) o → w.allows o

/-- Every /inventory collector has the `time` option 120 000; one that has ended is
past its creation time + 120 000, and one that is past it has ended or is among the
collectors `due`, whose timers are about to fire and are all past it. -/
def World.timedBut (w : World) (due : List Nat) : Prop :=
  ∀ col ∈ w.collectors, col.site.isInventory = true →
    col.time = 120000 ∧ (col.ended = true → col.createdAt + 120000 ≤ w.now) ∧
      (col.ended = false → col.createdAt + 120000 ≤ w.now → col.id ∈ due) ∧
      (col.id ∈ due → col.createdAt + 120000 ≤ w.now)

/-- Every /inventory collector has the `time` option 120 000 and has ended exactly when
the clock has reached its creation time + 120 000. -/
def World.timed (w : World) : Prop :=
  w.timedBut []

/-- How far a run of an asynchronous function has come with the interaction it was
started for: it has not acknowledged it with a reply yet, it has, or it has created its
collector. -/
inductive Stage where
  | fresh
  | acked
  | armed
deriving DecidableEq, Repr

/-- The stage after a `deferReply` or `reply` that was accepted. -/
def Stage.ack : Stage → Stage
  | .fresh => .acked
  | s => s

/-- The interaction a collector's handlers close over. -/
def Site.interaction : Site → Interaction
  | .combat interaction _ _ => interaction
  | .explore interaction _ _ => interaction
  | .barter interaction => interaction
  | .story interaction _ => interaction
  | .roll interaction _ => interaction
  | .inventory interaction _ => interaction
  | .trade interaction _ => interaction

/-- Book-keeping of one run of an asynchronous function: the interaction `owner` it was
started for, the interaction `click` of the event that started it, the stage reached,
and the id of the message that `editReply` or `fetchReply` on the owner returned last. -/
structure Run where
  owner : Interaction
  click : Interaction
  stage : Stage := .fresh
  known : Option Nat := none

/-- What a run may do next: it acknowledges with a reply only its owner, it updates only
the click, and it creates a collector only once, after it has acknowledged its owner,
on the message that is the owner's reply. -/
def Run.permits (γ : Run) : Op → Prop
  | .platform (.deferReply i) => i.id = γ.owner.id
  | .platform (.reply i _) => i.id = γ.owner.id
  | .platform (.showModal i _ _) => i.id = γ.owner.id
  | .platform (.deferUpdate i) => i.id = γ.click.id ∧ i.id ≠ γ.owner.id
  | .platform (.update i _) => i.id = γ.click.id ∧ i.id ≠ γ.owner.id
  | .createCollector m _ site =>
    γ.stage = .acked ∧ γ.known = some m ∧ site.interaction.id = γ.owner.id
  | _ => True

/-- The book-keeping after an operation was answered with `r`. -/
def Run.next (γ : Run) (op : Op) (r : Except Err Ret) : Run :=
  match op, r with
  | .platform (.deferReply _), .ok _ => { γ with stage := γ.stage.ack }
  | .platform (.reply _ _), .ok _ => { γ with stage := γ.stage.ack }
  | .platform (.editReply i _), .ok (.message msg) =>
    if i.id = γ.owner.id then { γ with known := some msg.id } else γ
  | .platform (.fetchReply i), .ok (.message msg) =>
    if i.id = γ.owner.id then { γ with known := some msg.id } else γ
  | .createCollector _ _ _, _ => { γ with stage := .armed }
  | _, _ => γ

/-- Every run of `p` that starts with the book-keeping `γ` does only what its
book-keeping permits, whatever the environment answers, and ends with `post` when it
returns and with `fail` when it throws.  With `router`, the function does not wait for
the backend before it has acknowledged its owner. -/
def Obeys {α : Type} (router : Bool) : Run → Prog α → (α → Run → Prop) → (Err → Run → Prop) →
    Prop
  | γ, .pure a, post, _ => post a γ
  | γ, .throw e, _, fail => fail e γ
  | γ, .http _ k, post, fail =>
    (router = true → γ.stage ≠ .fresh) ∧ ∀ r, Obeys router γ (k r) post fail
  | γ, .call op k, post, fail =>
    γ.permits op ∧ ∀ r, Obeys router (γ.next op r) (k r) post fail

/-- Every run of `p` that starts with the book-keeping `γ` does only what its
book-keeping permits. -/
def Owns (router : Bool) (γ : Run) (p : Prog Unit) : Prop :=
  Obeys router γ p (fun _ _ => True) (fun _ _ => True)

/-- The interaction owns a collector. -/
def World.owned (w : World) (j : Interaction) : Prop :=
  ∃ col ∈ w.collectors, col.site.interaction.id = j.id

/-- The interaction owns a collector or a suspended run may still create one for it.
The book-keeping of the suspended runs is given by task id. -/
def World.arming (w : World) (g : Nat → Run) (j : Interaction) : Prop :=
  w.owned j ∨ ∃ t ∈ w.pending, (g t.id).owner.id = j.id ∧ (g t.id).stage = .acked

/-- The message a run holds is the reply of its owner. -/
def World.knows (w : World) (γ : Run) : Prop :=
  ∀ m, γ.known = some m → w.replyMessage γ.owner = some m

/-- The book-keeping of the run that is executing fits the world.  A fresh run started
by the event router has an owner without a reply that nothing else is working for; a
fresh run of a collector's handler has an owner whose acknowledgements are rejected.  A
run that has acknowledged its owner is the only one that may create a collector for it,
on a reply message that no other owner shares. -/
def World.admits (w : World) (strict router : Bool) (g : Nat → Run) (γ : Run) : Prop :=
  match γ.stage with
  | .fresh =>
    if router then
      w.replyMessage γ.owner = none ∧ ¬ w.owned γ.owner ∧
        ∀ t ∈ w.pending, (g t.id).owner.id ≠ γ.owner.id
    else w.rejects strict γ.owner = true
  | .acked =>
    w.acked γ.owner = true ∧ (∃ m, w.replyMessage γ.owner = some m ∧ m < w.nextMessage) ∧
      ¬ w.owned γ.owner ∧
      (∀ t ∈ w.pending, (g t.id).stage = .acked → (g t.id).owner.id ≠ γ.owner.id) ∧
      ∀ j, w.arming g j → w.replyMessage j ≠ w.replyMessage γ.owner
  | .armed => True

/-- The book-keeping of a suspended run fits the world. -/
def World.holds (w : World) (g : Nat → Run) (t : Task) : Prop :=
  match (g t.id).stage with
  | .fresh => w.acked (g t.id).owner = true
  | .acked =>
    w.acked (g t.id).owner = true ∧ ¬ w.owned (g t.id).owner ∧
      ∀ t1 ∈ w.pending, t1.id ≠ t.id → (g t1.id).stage = .acked →
        (g t1.id).owner.id ≠ (g t.id).owner.id
  | .armed => True

/-- The invariant of the event loop behind "one collector per message".  `seen` lists
the ids of the interactions delivered so far and `g` gives the book-keeping of each
suspended run. -/
structure Sound (w : World) (seen : List Nat) (g : Nat → Run) : Prop where
  ids : w.distinct
  tasks : ∀ t ∈ w.pending, t.id < w.nextTask
  flags : ∀ j, w.acked j = true → j.id ∈ seen
  keys : ∀ j m, w.replyMessage j = some m → j.id ∈ seen
  owners : ∀ col ∈ w.collectors, col.site.interaction.id ∈ seen ∧
    w.acked col.site.interaction = true ∧
    w.replyMessage col.site.interaction = some col.message
  single : ∀ a ∈ w.collectors, ∀ b ∈ w.collectors,
    a.site.interaction.id = b.site.interaction.id → a.id = b.id
  below : ∀ j, w.arming g j → ∃ m, w.replyMessage j = some m ∧ m < w.nextMessage
  apart : ∀ j1 j2, w.arming g j1 → w.arming g j2 →
    w.replyMessage j1 = w.replyMessage j2 → j1.id = j2.id
  runs : ∀ t ∈ w.pending, (∀ r, Owns false (g t.id) (t.resume r)) ∧
    (g t.id).owner.id ∈ seen ∧ (g t.id).click.id ∈ seen ∧ w.knows (g t.id) ∧ w.holds g t

/-- The world `w1` comes from `w` by acknowledgements and edits: the suspended runs are
the same, the collectors are the same up to their page, what was collected and whether
they have ended, and the flags and replies of `w` are still there; what is new of them
belongs to an interaction in `seen`. -/
structure Extends (seen : List Nat) (w w1 : World) : Prop where
  pending : w1.pending = w.pending
  nextTask : w1.nextTask = w.nextTask
  forth : ∀ col ∈ w.collectors, ∃ col1 ∈ w1.collectors,
    col1.id = col.id ∧ col1.site = col.site ∧ col1.message = col.message
  back : ∀ col1 ∈ w1.collectors, ∃ col ∈ w.collectors,
    col1.id = col.id ∧ col1.site = col.site ∧ col1.message = col.message
  acked : ∀ j, w.acked j = true → w1.acked j = true
  ackedNew : ∀ j, w1.acked j = true → w.acked j = true ∨ j.id ∈ seen
  reply : ∀ j m, w.replyMessage j = some m → w1.replyMessage j = some m
  replyNew : ∀ j m, w1.replyMessage j = some m → w.replyMessage j = some m ∨ j.id ∈ seen
  nextMessage : w.nextMessage ≤ w1.nextMessage
  settled : ∀ x ∈ w.settled, x ∈ w1.settled
  nextCollector : w1.nextCollector = w.nextCollector

/-- The collectors of the interaction `x` have ids from `n` on. -/
def World.young (w : World) (x n : Nat) : Prop :=
  ∀ col ∈ w.collectors, col.site.interaction.id = x → n ≤ col.id

/-- The interaction a call acknowledges. -/
def Call.target : Call → Option Interaction
  | .deferReply i => some i
  | .reply i _ => some i
  | .deferUpdate i => some i
  | .update i _ => some i
  | .showModal i _ _ => some i
  | _ => none

/-- The ids of the interactions among the events. -/
def interactionIds (events : List Event) : List Nat :=
  events.filterMap (fun e => match e with
    | .interaction i => some i.id
    | _ => none)

/-- The interaction whose reply message a call may set. -/
def Call.binds : Call → Option Interaction
  | .deferReply i => some i
  | .reply i _ => some i
  | .deferUpdate i => some i
  | .update i _ => some i
  | _ => none

/-- The book-keeping `γ` of the run that is executing fits the world `w`, which is sound
for the suspended runs. -/
structure Fits (strict router : Bool) (w : World) (seen : List Nat) (g : Nat → Run)
    (γ : Run) : Prop where
  sound : Sound w seen g
  owner : γ.owner.id ∈ seen
  click : γ.click.id ∈ seen
  knows : w.knows γ
  admits : w.admits strict router g γ

/-! ## Scenarios -/

/-- A slash-command interaction `/name` by `user`. -/
def slashCommand (id : Nat) (user name : String) : Interaction :=
  { id := id, kind := .chatInput, userId := user, username := user, commandName := name }

/-- A click by `user` on the button `customId` of the message `message`. -/
def buttonClick (id : Nat) (user customId : String) (message : Nat) : Interaction :=
  { id := id, kind := .button, userId := user, username := user, customId := customId,
    messageId := message }

/-- A trader encounter offering one potion. -/
def barterWares : Data :=
  { spawn := true
    items := some [{ id := "potion", name := "Potion", description := "Heals", price := 1200 }] }

/-- Alice runs `/barter` and the trader appears: message 0 carries the Buy and Skip
buttons and collector 0 listens on it. -/
def barterSession (strict : Bool) : World :=
  run strict registry {}
    [.interaction (slashCommand 1 "alice" "barter"), .response 0 (.resolved (some barterWares))]

/-- A combat round that ends the encounter. -/
def combatWon : Data :=
  { success := true, message := some "You win", playerHp := some 7, playerMaxHp := some 10,
    enemyHp := some 0, enemyMaxHp := some 5, combatEnd := true }

/-- Alice runs `/combat` and wins: message 0 carries the Next Encounter button and
collector 0 listens on it. -/
def combatSession (strict : Bool) : World :=
  run strict registry {}
    [.interaction (slashCommand 1 "alice" "combat"), .response 0 (.resolved (some combatWon))]

/-- A dungeon floor without a trader. -/
def floorOne : Data :=
  { success := true, floor := some 1, description := some "A damp corridor." }

/-- Alice runs `/explore`: message 0 carries the Descend Further button. -/
def exploreSession (strict : Bool) : World :=
  run strict registry {}
    [.interaction (slashCommand 1 "alice" "explore"), .response 0 (.resolved (some floorOne))]

/-- A narrative beat with one option. -/
def beat (text option : String) : Data :=
  { success := true, narrative := some text, options := some [{ id := option, label := option }] }

/-- Alice runs `/story` and is offered the choice `a`. -/
def storySession (strict : Bool) : World :=
  run strict registry {}
    [.interaction (slashCommand 1 "alice" "story"),
     .response 0 (.resolved (some (beat "A fork in the road." "a")))]

/-- An inventory page: two items out of 25. -/
def inventoryPage : Data :=
  { items := some [{ name := "Sword", quantity := 1, isEquipped := true },
                   { name := "Potion", quantity := 3 }]
    totalItems := some 25 }

/-- Alice runs `/inventory`: message 0 shows page 1 of 3 with the Next button. -/
def inventorySession (strict : Bool) : World :=
  run strict registry {}
    [.interaction (slashCommand 1 "alice" "inventory"),
     .response 0 (.resolved (some inventoryPage))]

/-- Alice proposes a trade to Bob: `/trade propose`. -/
def proposeTrade : Interaction :=
  { id := 1, kind := .chatInput, userId := "alice", username := "alice", commandName := "trade"
    options := some
      { subcommand := "propose", target := "bob", item_id := "sword", quantity := 1,
        request_item_id := "shield", request_quantity := 1 } }

/-- The trade proposal 7 is shown on message 0 with Accept and Cancel buttons. -/
def tradeSession (strict : Bool) : World :=
  run strict registry {}
    [.interaction proposeTrade,
     .response 0 (.resolved (some { success := true, trade_id := some 7 }))]

/-- Alice runs `/roll-power`: message 0 asks for confirmation. -/
def rollSession (strict : Bool) : World :=
  run strict registry {} [.interaction (slashCommand 1 "alice" "roll-power")]

/-- A backend failure as `httpClient` reports it. -/
def serviceDown : HttpResult :=
  .rejected { message := "Request failed with status code 503", status := some 503 }

/-- A slash command given with options. -/
def slashWith (id : Nat) (user name : String) (o : Options) : Interaction :=
  { slashCommand id user name with options := some o }

/-- The submission of the forge modal with the three text inputs filled in. -/
def forgeSubmit (id : Nat) (user itemId traits quantity : String) : Interaction :=
  { id := id, kind := .modalSubmit, userId := user, username := user, customId := "forge_modal"
    fields := [("item_id", itemId), ("traits", traits), ("quantity", quantity)] }

/-- The slash commands, other than /forge, whose `execute` calls the backend, by
subcommand. -/
inductive Entry where
  | balance
  | barter
  | combat
  | explore
  | inventory
  | story
  | preview
  | shopList
  | shopBuy
  | start
  | stats
  | tradePropose
  | tradeAccept
  | tradeCancel
deriving DecidableEq, Repr

/-- The interaction by which `user` enters at an entry point. -/
def Entry.interaction (entry : Entry) (user : String) : Interaction :=
  match entry with
  | .balance => slashCommand 1 user "balance"
  | .barter => slashCommand 1 user "barter"
  | .combat => slashCommand 1 user "combat"
  | .explore => slashCommand 1 user "explore"
  | .inventory => slashCommand 1 user "inventory"
  | .story => slashCommand 1 user "story"
  | .preview => slashWith 1 user "preview" { subcommand := "", model_id := "golem" }
  | .shopList => slashWith 1 user "shop" { subcommand := "list" }
  | .shopBuy => slashWith 1 user "shop" { subcommand := "buy", item_id := "potion" }
  | .start => slashCommand 1 user "start"
  | .stats => slashCommand 1 user "stats"
  | .tradePropose => (slashWith 1 user "trade" (proposeTrade.options.getD { subcommand := "" }))
  | .tradeAccept => slashWith 1 user "trade" { subcommand := "accept", trade_id := 7 }
  | .tradeCancel => slashWith 1 user "trade" { subcommand := "cancel", trade_id := 7 }

/-- The user enters at an entry point and the backend call settles with `r`. -/
def Entry.session (entry : Entry) (strict : Bool) (user : String) (r : HttpResult) : World :=
  run strict registry {} [.interaction (entry.interaction user), .response 0 r]

/-- The text of the `catch` block around the backend call at each entry point. -/
def Entry.failureText : Entry → String
  | .balance => "❌ Sorry, I couldn’t fetch your balance right now. Please try again later."
  | .barter => "❌ Unable to contact the trader service. Please try again later."
  | .combat => "❌ An error occurred while resolving combat. Please try again later."
  | .explore => "❌ An error occurred while exploring. Please try again later."
  | .inventory => "❌ Could not load inventory. Please try again later."
  | .story => "❌ Unable to reach the story service. Please try again later."
  | .preview => "❌ Failed to fetch model preview. Please try again later."
  | .shopList => "❌ Could not load shop items. Please try again later."
  | .shopBuy => "❌ Purchase failed. Please try again later."
  | .start => "❌ Failed to start a new adventure. Please try again later."
  | .stats => "❌ An error occurred while fetching your profile. Please try again later."
  | .tradePropose => "❌ An error occurred while processing the trade. Please try again later."
  | .tradeAccept => "❌ An error occurred while processing the trade. Please try again later."
  | .tradeCancel => "❌ An error occurred while processing the trade. Please try again later."

/-- The label under which the `catch` block at each entry point logs the error. -/
def Entry.logLabel : Entry → String
  | .balance => "Error fetching balance:"
  | .barter => "Error during /barter:"
  | .combat => "Error in /combat command:"
  | .explore => "Error in /explore command:"
  | .inventory => "Error fetching inventory:"
  | .story => "Error in /story command:"
  | .preview => "Error in /preview command:"
  | .shopList => "Error fetching shop items:"
  | .shopBuy => "Error purchasing item:"
  | .start => "Error in /start command:"
  | .stats => "Error in /stats command:"
  | .tradePropose => "Error in /trade command:"
  | .tradeAccept => "Error in /trade command:"
  | .tradeCancel => "Error in /trade command:"

/-- The backend call made at each entry point. -/
def Entry.request (entry : Entry) (user : String) : Request :=
  match entry with
  | .balance => ⟨.get, "/economy/balance", [("user_id", .str user)]⟩
  | .barter => ⟨.get, "/barterer/encounter", [("user_id", .str user)]⟩
  | .combat => ⟨.post, "/combat/resolve", [("user_id", .str user)]⟩
  | .explore => ⟨.post, "/dungeon/generate", [("user_id", .str user)]⟩
  | .inventory =>
    ⟨.get, "/item/getInventory", [("user_id", .str user), ("page", .int 1), ("pageSize", .int 10)]⟩
  | .story => ⟨.post, "/story/progressNarrative", [("user_id", .str user)]⟩
  | .preview => ⟨.get, "/model/preview", [("user_id", .str user), ("model_id", .str "golem")]⟩
  | .shopList => ⟨.get, "/economy/shop/items", []⟩
  | .shopBuy => ⟨.post, "/economy/shop/buy", [("user_id", .str user), ("item_id", .str "potion")]⟩
  | .start => ⟨.post, "/sessions/create", [("user_id", .str user), ("correlation_id", .uuid)]⟩
  | .stats => ⟨.get, "/player/stats", [("user_id", .str user)]⟩
  | .tradePropose =>
    ⟨.post, "/trade/initiate",
      [("from_user", .str user), ("to_user", .str "bob"), ("item_offer", .offer "sword" 1),
       ("item_request", .offer "shield" 1)]⟩
  | .tradeAccept => ⟨.post, "/trade/accept", [("user_id", .str user), ("trade_id", .int 7)]⟩
  | .tradeCancel => ⟨.post, "/trade/cancel", [("user_id", .str user), ("trade_id", .int 7)]⟩

/-- The `collect` handlers that call the backend inside a `try` block. -/
inductive Handler where
  | rollConfirm
  | inventoryTurn
  | barterBuy
  | storyChoice
deriving DecidableEq, Repr

/-- Alice's click has been handed to the handler and its backend call is pending.  For
/roll-power and /inventory the click goes through the event loop.  The buy handler of
/barter and the choice handler of /story are run on their own, without the dispatch of
the same click by the interactionCreate handler. -/
def Handler.before (h : Handler) (strict : Bool) : World :=
  match h with
  | .rollConfirm =>
    step strict registry (rollSession strict) (.interaction (buttonClick 2 "alice" "roll_confirm" 0))
  | .inventoryTurn =>
    step strict registry (inventorySession strict)
      (.interaction (buttonClick 2 "alice" "inv_next" 0))
  | .barterBuy =>
    handleCollect strict registry (buttonClick 2 "alice" "barter_buy_potion" 0)
      (barterSession strict) 0
  | .storyChoice =>
    handleCollect strict registry (buttonClick 2 "alice" "story_choice_a" 0)
      (storySession strict) 0

/-- The task of the handler's backend call. -/
def Handler.task : Handler → Nat
  | .rollConfirm => 0
  | _ => 1

/-- The backend call the handler makes. -/
def Handler.request : Handler → Request
  | .rollConfirm => ⟨.post, "/gacha/rollPower", [("user_id", .str "alice"), ("cost", .int 100)]⟩
  | .inventoryTurn =>
    ⟨.get, "/item/getInventory",
      [("user_id", .str "alice"), ("page", .int 2), ("pageSize", .int 10)]⟩
  | .barterBuy =>
    ⟨.post, "/barterer/buy", [("user_id", .str "alice"), ("item_id", .str "potion")]⟩
  | .storyChoice =>
    ⟨.post, "/story/progressNarrative", [("user_id", .str "alice"), ("choice", .str "a")]⟩

/-- The handler's backend call settles with `r`. -/
def Handler.session (h : Handler) (strict : Bool) (r : HttpResult) : World :=
  step strict registry (h.before strict) (.response h.task r)

/-- The text of the `catch` block around the handler's backend call. -/
def Handler.failureText : Handler → String
  | .rollConfirm => "❌ An error occurred while rolling. Please try again later."
  | .inventoryTurn => "❌ Could not load inventory. Please try again later."
  | .barterBuy => "❌ There was an error processing your purchase."
  | .storyChoice => "❌ An error occurred processing your choice. Please try again later."

/-- The label under which the handler's `catch` block logs the error. -/
def Handler.logLabel : Handler → String
  | .rollConfirm => "Error performing gacha roll:"
  | .inventoryTurn => "Error fetching inventory:"
  | .barterBuy => "Barter purchase error:"
  | .storyChoice => "Error processing narrative choice:"

/-- A backend that answers every attempt with the response `res`. -/
def answering (res : Response) : Nat → Attempt :=
  fun _ => .fulfilled res

/-- What a command awaiting `httpClient` sees when the service answers 200 with the
JSON body `body`. -/
def backendSays (body : Json) : HttpResult :=
  HttpResult.ofSend (httpClient.send (answering { status := 200, data := body })).1

/-- A body for POST /combat/resolve as the doc comment of combat.js describes it. -/
def combatBody : Json :=
  .obj [("success", .bool true), ("message", .str "You strike the slime."),
        ("playerHp", .num 7), ("playerMaxHp", .num 10), ("enemyHp", .num 2),
        ("enemyMaxHp", .num 5), ("combatEnd", .bool false)]

/-- A body for GET /economy/shop/items as the comment in shop.js expects it: an array
of two items. -/
def shopBody : Json :=
  .arr [.obj [("id", .str "potion"), ("name", .str "Potion"), ("description", .str "Heals"),
              ("price", .num 1200)],
        .obj [("id", .str "elixir"), ("name", .str "Elixir"), ("description", .str "Restores"),
              ("price", .num 50)]]

/-- A trader encounter offering a potion and an elixir. -/
def twoWares : Data :=
  { spawn := true
    items := some [{ id := "potion", name := "Potion", description := "Heals", price := 1200 },
                   { id := "elixir", name := "Elixir", description := "Restores", price := 50 }] }

/-- A backend whose every attempt fails with status 503. -/
def alwaysDown : Nat → Attempt :=
  fun _ => .failed
    { message := "Request failed with status code 503"
      response := some { status := 503, data := .null } }

/-- A backend whose first attempt fails with status 404 and an error body. -/
def notFound : Nat → Attempt :=
  fun _ => .failed
    { message := "Request failed with status code 404"
      response := some { status := 404, data := .obj [("error", .str "no such player")] } }

/-- The function `showPage` called for page `p` of the inventory of `user`, whose
interaction 1 has been deferred, with the backend answering `d`. -/
def showPageAt (strict : Bool) (user : String) (p : Nat) (d : Data) : World :=
  let interaction := slashCommand 1 user "inventory"
  let w0 := (applyCall strict {} (.deferReply interaction)).1
  step strict registry (exec strict (inventory.showPage interaction p) w0)
    (.response 0 (.resolved (some d)))

/-! ## Lemmas on resumption trees -/

theorem returns_bind {α β : Type} (p : Prog α) (f : α → Prog β) (b : β) :
    Returns (p >>= f) b ↔ ∃ a, Returns p a ∧ Returns (f a) b := by
  show Returns (p.bind f) b ↔ _
  induction p with
  | pure a =>
    simp only [Prog.bind]
    exact ⟨fun h => ⟨a, .pure a, h⟩, fun ⟨_, ha, h⟩ => by cases ha; exact h⟩
  | throw e =>
    simp only [Prog.bind]
    exact ⟨fun h => (nomatch h), fun ⟨_, ha, _⟩ => (nomatch ha)⟩
  | http req k ih =>
    simp only [Prog.bind]
    constructor
    · intro h
      cases h with
      | http _ _ r _ h =>
        obtain ⟨a, ha, h⟩ := (ih r).1 h
        exact ⟨a, .http _ _ r _ ha, h⟩
    · rintro ⟨a, ha, h⟩
      cases ha with
      | http _ _ r _ ha => exact .http _ _ r _ ((ih r).2 ⟨a, ha, h⟩)
  | call op k ih =>
    simp only [Prog.bind]
    constructor
    · intro h
      cases h with
      | call _ _ r _ h =>
        obtain ⟨a, ha, h⟩ := (ih r).1 h
        exact ⟨a, .call _ _ r _ ha, h⟩
    · rintro ⟨a, ha, h⟩
      cases ha with
      | call _ _ r _ ha => exact .call _ _ r _ ((ih r).2 ⟨a, ha, h⟩)

theorem throws_bind {α β : Type} (p : Prog α) (f : α → Prog β) (e : Err) :
    Throws (p >>= f) e ↔ Throws p e ∨ ∃ a, Returns p a ∧ Throws (f a) e := by
  show Throws (p.bind f) e ↔ _
  induction p with
  | pure a =>
    simp only [Prog.bind]
    constructor
    · intro h; exact Or.inr ⟨a, .pure a, h⟩
    · rintro (h | ⟨_, ha, h⟩)
      · cases h
      · cases ha; exact h
  | throw e' =>
    simp only [Prog.bind]
    constructor
    · intro h; cases h; exact Or.inl (.throw _)
    · rintro (h | ⟨_, ha, _⟩)
      · cases h; exact .throw _
      · cases ha
  | http req k ih =>
    simp only [Prog.bind]
    constructor
    · intro h
      cases h with
      | http _ _ r _ h =>
        rcases (ih r).1 h with h | ⟨a, ha, h⟩
        · exact Or.inl (.http _ _ r _ h)
        · exact Or.inr ⟨a, .http _ _ r _ ha, h⟩
    · rintro (h | ⟨a, ha, h⟩)
      · cases h with
        | http _ _ r _ h => exact .http _ _ r _ ((ih r).2 (Or.inl h))
      · cases ha with
        | http _ _ r _ ha => exact .http _ _ r _ ((ih r).2 (Or.inr ⟨a, ha, h⟩))
  | call op k ih =>
    simp only [Prog.bind]
    constructor
    · intro h
      cases h with
      | call _ _ r _ h =>
        rcases (ih r).1 h with h | ⟨a, ha, h⟩
        · exact Or.inl (.call _ _ r _ h)
        · exact Or.inr ⟨a, .call _ _ r _ ha, h⟩
    · rintro (h | ⟨a, ha, h⟩)
      · cases h with
        | call _ _ r _ h => exact .call _ _ r _ ((ih r).2 (Or.inl h))
      · cases ha with
        | call _ _ r _ ha => exact .call _ _ r _ ((ih r).2 (Or.inr ⟨a, ha, h⟩))

@[simp] theorem performs_bind {α β : Type} (p : Prog α) (f : α → Prog β) (o : Op) :
    Performs (p >>= f) o ↔ Performs p o ∨ ∃ a, Returns p a ∧ Performs (f a) o := by
  show Performs (p.bind f) o ↔ _
  induction p with
  | pure a =>
    simp only [Prog.bind]
    constructor
    · intro h; exact Or.inr ⟨a, .pure a, h⟩
    · rintro (h | ⟨_, ha, h⟩)
      · cases h
      · cases ha; exact h
  | throw e =>
    simp only [Prog.bind]
    constructor
    · intro h; cases h
    · rintro (h | ⟨_, ha, _⟩)
      · cases h
      · cases ha
  | http req k ih =>
    simp only [Prog.bind]
    constructor
    · intro h
      cases h with
      | http _ _ r _ h =>
        rcases (ih r).1 h with h | ⟨a, ha, h⟩
        · exact Or.inl (.http _ _ r _ h)
        · exact Or.inr ⟨a, .http _ _ r _ ha, h⟩
    · rintro (h | ⟨a, ha, h⟩)
      · cases h with
        | http _ _ r _ h => exact .http _ _ r _ ((ih r).2 (Or.inl h))
      · cases ha with
        | http _ _ r _ ha => exact .http _ _ r _ ((ih r).2 (Or.inr ⟨a, ha, h⟩))
  | call op k ih =>
    simp only [Prog.bind]
    constructor
    · intro h
      cases h with
      | here => exact Or.inl (.here _ _)
      | call _ _ r _ h =>
        rcases (ih r).1 h with h | ⟨a, ha, h⟩
        · exact Or.inl (.call _ _ r _ h)
        · exact Or.inr ⟨a, .call _ _ r _ ha, h⟩
    · rintro (h | ⟨a, ha, h⟩)
      · cases h with
        | here => exact .here _ _
        | call _ _ r _ h => exact .call _ _ r _ ((ih r).2 (Or.inl h))
      · cases ha with
        | call _ _ r _ ha => exact .call _ _ r _ ((ih r).2 (Or.inr ⟨a, ha, h⟩))

@[simp] theorem requests_bind {α β : Type} (p : Prog α) (f : α → Prog β) (q : Request) :
    Requests (p >>= f) q ↔ Requests p q ∨ ∃ a, Returns p a ∧ Requests (f a) q := by
  show Requests (p.bind f) q ↔ _
  induction p with
  | pure a =>
    simp only [Prog.bind]
    constructor
    · intro h; exact Or.inr ⟨a, .pure a, h⟩
    · rintro (h | ⟨_, ha, h⟩)
      · cases h
      · cases ha; exact h
  | throw e =>
    simp only [Prog.bind]
    constructor
    · intro h; cases h
    · rintro (h | ⟨_, ha, _⟩)
      · cases h
      · cases ha
  | http req k ih =>
    simp only [Prog.bind]
    constructor
    · intro h
      cases h with
      | here => exact Or.inl (.here _ _)
      | http _ _ r _ h =>
        rcases (ih r).1 h with h | ⟨a, ha, h⟩
        · exact Or.inl (.http _ _ r _ h)
        · exact Or.inr ⟨a, .http _ _ r _ ha, h⟩
    · rintro (h | ⟨a, ha, h⟩)
      · cases h with
        | here => exact .here _ _
        | http _ _ r _ h => exact .http _ _ r _ ((ih r).2 (Or.inl h))
      · cases ha with
        | http _ _ r _ ha => exact .http _ _ r _ ((ih r).2 (Or.inr ⟨a, ha, h⟩))
  | call op k ih =>
    simp only [Prog.bind]
    constructor
    · intro h
      cases h with
      | call _ _ r _ h =>
        rcases (ih r).1 h with h | ⟨a, ha, h⟩
        · exact Or.inl (.call _ _ r _ h)
        · exact Or.inr ⟨a, .call _ _ r _ ha, h⟩
    · rintro (h | ⟨a, ha, h⟩)
      · cases h with
        | call _ _ r _ h => exact .call _ _ r _ ((ih r).2 (Or.inl h))
      · cases ha with
        | call _ _ r _ ha => exact .call _ _ r _ ((ih r).2 (Or.inr ⟨a, ha, h⟩))

theorem returns_tryCatch {α : Type} (p : Prog α) (h : Err → Prog α) (a : α) :
    Returns (tryCatch p h) a ↔ Returns p a ∨ ∃ e, Throws p e ∧ Returns (h e) a := by
  show Returns (p.tryCatch h) a ↔ _
  induction p with
  | pure b =>
    simp only [Prog.tryCatch]
    constructor
    · intro hr; exact Or.inl hr
    · rintro (hr | ⟨_, he, _⟩)
      · exact hr
      · cases he
  | throw e =>
    simp only [Prog.tryCatch]
    constructor
    · intro hr; exact Or.inr ⟨e, .throw e, hr⟩
    · rintro (hr | ⟨_, he, hr⟩)
      · cases hr
      · cases he; exact hr
  | http req k ih =>
    simp only [Prog.tryCatch]
    constructor
    · intro hr
      cases hr with
      | http _ _ r _ hr =>
        rcases (ih r).1 hr with hr | ⟨e, he, hr⟩
        · exact Or.inl (.http _ _ r _ hr)
        · exact Or.inr ⟨e, .http _ _ r _ he, hr⟩
    · rintro (hr | ⟨e, he, hr⟩)
      · cases hr with
        | http _ _ r _ hr => exact .http _ _ r _ ((ih r).2 (Or.inl hr))
      · cases he with
        | http _ _ r _ he => exact .http _ _ r _ ((ih r).2 (Or.inr ⟨e, he, hr⟩))
  | call op k ih =>
    simp only [Prog.tryCatch]
    constructor
    · intro hr
      cases hr with
      | call _ _ r _ hr =>
        rcases (ih r).1 hr with hr | ⟨e, he, hr⟩
        · exact Or.inl (.call _ _ r _ hr)
        · exact Or.inr ⟨e, .call _ _ r _ he, hr⟩
    · rintro (hr | ⟨e, he, hr⟩)
      · cases hr with
        | call _ _ r _ hr => exact .call _ _ r _ ((ih r).2 (Or.inl hr))
      · cases he with
        | call _ _ r _ he => exact .call _ _ r _ ((ih r).2 (Or.inr ⟨e, he, hr⟩))

theorem throws_tryCatch {α : Type} (p : Prog α) (h : Err → Prog α) (e : Err) :
    Throws (tryCatch p h) e ↔ ∃ e', Throws p e' ∧ Throws (h e') e := by
  show Throws (p.tryCatch h) e ↔ _
  induction p with
  | pure b =>
    simp only [Prog.tryCatch]
    exact ⟨fun hr => (nomatch hr), fun ⟨_, he, _⟩ => (nomatch he)⟩
  | throw e' =>
    simp only [Prog.tryCatch]
    exact ⟨fun hr => ⟨e', .throw e', hr⟩, fun ⟨_, he, hr⟩ => by cases he; exact hr⟩
  | http req k ih =>
    simp only [Prog.tryCatch]
    constructor
    · intro hr
      cases hr with
      | http _ _ r _ hr =>
        obtain ⟨e', he, hr⟩ := (ih r).1 hr
        exact ⟨e', .http _ _ r _ he, hr⟩
    · rintro ⟨e', he, hr⟩
      cases he with
      | http _ _ r _ he => exact .http _ _ r _ ((ih r).2 ⟨e', he, hr⟩)
  | call op k ih =>
    simp only [Prog.tryCatch]
    constructor
    · intro hr
      cases hr with
      | call _ _ r _ hr =>
        obtain ⟨e', he, hr⟩ := (ih r).1 hr
        exact ⟨e', .call _ _ r _ he, hr⟩
    · rintro ⟨e', he, hr⟩
      cases he with
      | call _ _ r _ he => exact .call _ _ r _ ((ih r).2 ⟨e', he, hr⟩)

@[simp] theorem performs_tryCatch {α : Type} (p : Prog α) (h : Err → Prog α) (o : Op) :
    Performs (tryCatch p h) o ↔ Performs p o ∨ ∃ e, Throws p e ∧ Performs (h e) o := by
  show Performs (p.tryCatch h) o ↔ _
  induction p with
  | pure b =>
    simp only [Prog.tryCatch]
    constructor
    · intro hr; cases hr
    · rintro (hr | ⟨_, he, _⟩)
      · cases hr
      · cases he
  | throw e =>
    simp only [Prog.tryCatch]
    constructor
    · intro hr; exact Or.inr ⟨e, .throw e, hr⟩
    · rintro (hr | ⟨_, he, hr⟩)
      · cases hr
      · cases he; exact hr
  | http req k ih =>
    simp only [Prog.tryCatch]
    constructor
    · intro hr
      cases hr with
      | http _ _ r _ hr =>
        rcases (ih r).1 hr with hr | ⟨e, he, hr⟩
        · exact Or.inl (.http _ _ r _ hr)
        · exact Or.inr ⟨e, .http _ _ r _ he, hr⟩
    · rintro (hr | ⟨e, he, hr⟩)
      · cases hr with
        | http _ _ r _ hr => exact .http _ _ r _ ((ih r).2 (Or.inl hr))
      · cases he with
        | http _ _ r _ he => exact .http _ _ r _ ((ih r).2 (Or.inr ⟨e, he, hr⟩))
  | call op k ih =>
    simp only [Prog.tryCatch]
    constructor
    · intro hr
      cases hr with
      | here => exact Or.inl (.here _ _)
      | call _ _ r _ hr =>
        rcases (ih r).1 hr with hr | ⟨e, he, hr⟩
        · exact Or.inl (.call _ _ r _ hr)
        · exact Or.inr ⟨e, .call _ _ r _ he, hr⟩
    · rintro (hr | ⟨e, he, hr⟩)
      · cases hr with
        | here => exact .here _ _
        | call _ _ r _ hr => exact .call _ _ r _ ((ih r).2 (Or.inl hr))
      · cases he with
        | call _ _ r _ he => exact .call _ _ r _ ((ih r).2 (Or.inr ⟨e, he, hr⟩))

@[simp] theorem requests_tryCatch {α : Type} (p : Prog α) (h : Err → Prog α) (q : Request) :
    Requests (tryCatch p h) q ↔ Requests p q ∨ ∃ e, Throws p e ∧ Requests (h e) q := by
  show Requests (p.tryCatch h) q ↔ _
  induction p with
  | pure b =>
    simp only [Prog.tryCatch]
    constructor
    · intro hr; cases hr
    · rintro (hr | ⟨_, he, _⟩)
      · cases hr
      · cases he
  | throw e =>
    simp only [Prog.tryCatch]
    constructor
    · intro hr; exact Or.inr ⟨e, .throw e, hr⟩
    · rintro (hr | ⟨_, he, hr⟩)
      · cases hr
      · cases he; exact hr
  | http req k ih =>
    simp only [Prog.tryCatch]
    constructor
    · intro hr
      cases hr with
      | here => exact Or.inl (.here _ _)
      | http _ _ r _ hr =>
        rcases (ih r).1 hr with hr | ⟨e, he, hr⟩
        · exact Or.inl (.http _ _ r _ hr)
        · exact Or.inr ⟨e, .http _ _ r _ he, hr⟩
    · rintro (hr | ⟨e, he, hr⟩)
      · cases hr with
        | here => exact .here _ _
        | http _ _ r _ hr => exact .http _ _ r _ ((ih r).2 (Or.inl hr))
      · cases he with
        | http _ _ r _ he => exact .http _ _ r _ ((ih r).2 (Or.inr ⟨e, he, hr⟩))
  | call op k ih =>
    simp only [Prog.tryCatch]
    constructor
    · intro hr
      cases hr with
      | call _ _ r _ hr =>
        rcases (ih r).1 hr with hr | ⟨e, he, hr⟩
        · exact Or.inl (.call _ _ r _ hr)
        · exact Or.inr ⟨e, .call _ _ r _ he, hr⟩
    · rintro (hr | ⟨e, he, hr⟩)
      · cases hr with
        | call _ _ r _ hr => exact .call _ _ r _ ((ih r).2 (Or.inl hr))
      · cases he with
        | call _ _ r _ he => exact .call _ _ r _ ((ih r).2 (Or.inr ⟨e, he, hr⟩))

@[simp] theorem returns_pure {α : Type} (a b : α) : Returns (pure a : Prog α) b ↔ a = b :=
  ⟨fun h => by cases h; rfl, fun h => h ▸ .pure a⟩

@[simp] theorem throws_pure {α : Type} (a : α) (e : Err) : ¬ Throws (pure a : Prog α) e :=
  fun h => nomatch h

@[simp] theorem performs_pure {α : Type} (a : α) (o : Op) : ¬ Performs (pure a : Prog α) o :=
  fun h => nomatch h

@[simp] theorem requests_pure {α : Type} (a : α) (q : Request) :
    ¬ Requests (pure a : Prog α) q :=
  fun h => nomatch h

@[simp] theorem returns_throw {α : Type} (e : Err) (a : α) : ¬ Returns (throw e : Prog α) a :=
  fun h => nomatch h

@[simp] theorem throws_throw {α : Type} (e e' : Err) : Throws (throw e : Prog α) e' ↔ e = e' :=
  ⟨fun h => by cases h; rfl, fun h => h ▸ .throw e⟩

@[simp] theorem performs_throw {α : Type} (e : Err) (o : Op) : ¬ Performs (throw e : Prog α) o :=
  fun h => nomatch h

@[simp] theorem requests_throw {α : Type} (e : Err) (q : Request) :
    ¬ Requests (throw e : Prog α) q :=
  fun h => nomatch h

@[simp] theorem returns_perform (op : Op) (v : Ret) : Returns (perform op) v :=
  .call _ _ (.ok v) _ (.pure v)

@[simp] theorem throws_perform (op : Op) (e : Err) : Throws (perform op) e :=
  .call _ _ (.error e) _ (.throw e)

@[simp] theorem performs_perform (op o : Op) : Performs (perform op) o ↔ o = op := by
  constructor
  · intro h
    cases h with
    | here => rfl
    | call _ _ r _ h => cases r <;> cases h
  · rintro rfl
    exact .here _ _

@[simp] theorem requests_perform (op : Op) (q : Request) : ¬ Requests (perform op) q := by
  intro h
  cases h with
  | call _ _ r _ h => cases r <;> cases h

@[simp] theorem returns_httpCall (verb : Verb) (path : String) (payload : List (String × Val))
    (d : Option Data) : Returns (httpCall verb path payload) d :=
  .http _ _ (.resolved d) _ (.pure d)

@[simp] theorem throws_httpCall (verb : Verb) (path : String) (payload : List (String × Val))
    (e : Err) : Throws (httpCall verb path payload) e ↔ ∃ he, e = .http he := by
  constructor
  · intro h
    cases h with
    | http _ _ r _ h =>
      cases r with
      | rejected he => cases h; exact ⟨he, rfl⟩
      | resolved d => cases h
  · rintro ⟨he, rfl⟩
    exact .http _ _ (.rejected he) _ (.throw _)

@[simp] theorem performs_httpCall (verb : Verb) (path : String) (payload : List (String × Val))
    (o : Op) : ¬ Performs (httpCall verb path payload) o := by
  intro h
  cases h with
  | http _ _ r _ h => cases r <;> cases h

@[simp] theorem requests_httpCall (verb : Verb) (path : String) (payload : List (String × Val))
    (q : Request) : Requests (httpCall verb path payload) q ↔ q = ⟨verb, path, payload⟩ := by
  constructor
  · intro h
    cases h with
    | here => rfl
    | http _ _ r _ h => cases r <;> cases h
  · rintro rfl
    exact .here _ _

@[simp] theorem returns_defined {α : Type} (x : Option α) (what : String) (v : α) :
    Returns (defined x what) v ↔ x = some v := by
  cases x with
  | none => exact ⟨fun h => (nomatch h), fun h => (nomatch h)⟩
  | some y => exact ⟨fun h => by cases h; rfl, fun h => by cases h; exact .pure _⟩

@[simp] theorem throws_defined {α : Type} (x : Option α) (what : String) (e : Err) :
    Throws (defined x what) e ↔ x = none ∧ e = .typeError what := by
  cases x with
  | none => exact ⟨fun h => by cases h; exact ⟨rfl, rfl⟩, fun h => by rw [h.2]; exact .throw _⟩
  | some y => exact ⟨fun h => (nomatch h), fun h => (nomatch h.1)⟩

@[simp] theorem performs_defined {α : Type} (x : Option α) (what : String) (o : Op) :
    ¬ Performs (defined x what) o := by
  cases x <;> exact fun h => nomatch h

@[simp] theorem requests_defined {α : Type} (x : Option α) (what : String) (q : Request) :
    ¬ Requests (defined x what) q := by
  cases x <;> exact fun h => nomatch h

@[simp] theorem returns_destructure (d : Option Data) (v : Data) :
    Returns (destructure d) v ↔ d = some v :=
  returns_defined d _ v

@[simp] theorem performs_destructure (d : Option Data) (o : Op) :
    ¬ Performs (destructure d) o :=
  performs_defined d _ o

@[simp] theorem requests_destructure (d : Option Data) (q : Request) :
    ¬ Requests (destructure d) q :=
  requests_defined d _ q

@[simp] theorem performs_ackFlags (i : Interaction) (o : Op) :
    Performs (ackFlags i) o ↔ o = .ackState i := by
  constructor
  · intro h
    cases h with
    | here => rfl
    | call _ _ r _ h =>
      exfalso
      revert h
      simp only [ackFlags]
      split <;> exact fun h => nomatch h
  · rintro rfl
    exact .here _ _

@[simp] theorem requests_ackFlags (i : Interaction) (q : Request) :
    ¬ Requests (ackFlags i) q := by
  intro h
  cases h with
  | call _ _ r _ h =>
    revert h
    simp only [ackFlags]
    split <;> exact fun h => nomatch h

@[simp] theorem returns_await (c : Call) (u : Unit) : Returns (await c) u := by
  simp only [await, returns_bind]
  exact ⟨.unit, returns_perform _ _, .pure _⟩

@[simp] theorem throws_await (c : Call) (e : Err) : Throws (await c) e := by
  simp [await, throws_bind]

@[simp] theorem performs_await (c : Call) (o : Op) : Performs (await c) o ↔ o = .platform c := by
  simp [await, performs_bind]

@[simp] theorem requests_await (c : Call) (q : Request) : ¬ Requests (await c) q := by
  simp [await, requests_bind]

@[simp] theorem returns_awaitMessage (c : Call) (m : Message) : Returns (awaitMessage c) m := by
  simp only [awaitMessage, returns_bind]
  exact ⟨.message m, returns_perform _ _, .pure m⟩

@[simp] theorem throws_awaitMessage (c : Call) (e : Err) : Throws (awaitMessage c) e := by
  simp only [awaitMessage, throws_bind]
  exact Or.inl (throws_perform _ _)

@[simp] theorem performs_awaitMessage (c : Call) (o : Op) :
    Performs (awaitMessage c) o ↔ o = .platform c := by
  simp only [awaitMessage, performs_bind, performs_perform]
  constructor
  · rintro (h | ⟨a, -, h⟩)
    · exact h
    · cases a <;> exact absurd h (by simp)
  · intro h
    exact Or.inl h

@[simp] theorem requests_awaitMessage (c : Call) (q : Request) :
    ¬ Requests (awaitMessage c) q := by
  simp only [awaitMessage, requests_bind, requests_perform, false_or]
  rintro ⟨a, -, h⟩
  cases a <;> exact absurd h (by simp)

@[simp] theorem returns_logLine (level : Level) (text : String) (u : Unit) :
    Returns (logLine level text) u := by
  simp only [logLine, returns_bind]
  exact ⟨.unit, returns_perform _ _, .pure _⟩

@[simp] theorem performs_logLine (level : Level) (text : String) (o : Op) :
    Performs (logLine level text) o ↔ o = .log level text none := by
  simp [logLine, performs_bind]

@[simp] theorem returns_logError (text : String) (err : Err) (u : Unit) :
    Returns (logError text err) u := by
  simp only [logError, returns_bind]
  exact ⟨.unit, returns_perform _ _, .pure _⟩

@[simp] theorem performs_logError (text : String) (err : Err) (o : Op) :
    Performs (logError text err) o ↔ o = .log .error text (some err) := by
  simp [logError, performs_bind]

@[simp] theorem requests_logError (text : String) (err : Err) (q : Request) :
    ¬ Requests (logError text err) q := by
  simp [logError, requests_bind]

@[simp] theorem requests_logLine (level : Level) (text : String) (q : Request) :
    ¬ Requests (logLine level text) q := by
  simp [logLine, requests_bind]

@[simp] theorem returns_stopCollector (c : Nat) (u : Unit) : Returns (stopCollector c) u := by
  simp only [stopCollector, returns_bind]
  exact ⟨.unit, returns_perform _ _, .pure _⟩

@[simp] theorem performs_stopCollector (c : Nat) (o : Op) :
    Performs (stopCollector c) o ↔ o = .stop c := by
  simp [stopCollector, performs_bind]

@[simp] theorem requests_stopCollector (c : Nat) (q : Request) :
    ¬ Requests (stopCollector c) q := by
  simp [stopCollector, requests_bind]

@[simp] theorem performs_ite {α : Type} (c : Prop) [Decidable c] (p q : Prog α) (o : Op) :
    Performs (if c then p else q) o ↔ (c ∧ Performs p o) ∨ (¬ c ∧ Performs q o) := by
  split <;> simp [*]

@[simp] theorem requests_ite {α : Type} (c : Prop) [Decidable c] (p q : Prog α) (r : Request) :
    Requests (if c then p else q) r ↔ (c ∧ Requests p r) ∨ (¬ c ∧ Requests q r) := by
  split <;> simp [*]

/-! ## What each command arms -/

theorem arms_combat (i : Interaction) (t : Nat) (s : Site) (h : Arms (combat.execute i) t s) :
    t = 60000 ∧ ∃ m b, s = .combat i m b := by
  obtain ⟨m, h⟩ := h
  simp [combat.execute] at h
  rcases h with h | ⟨a, -, h⟩
  · obtain ⟨_, _, _, _, _, x, _, rfl, rfl⟩ := h
    exact ⟨rfl, _, _, rfl⟩
  · cases a <;> simp at h

theorem arms_explore (i : Interaction) (t : Nat) (s : Site) (h : Arms (explore.execute i) t s) :
    t = 60000 ∧ ∃ m b, s = .explore i m b := by
  obtain ⟨m, h⟩ := h
  simp [explore.execute] at h
  rcases h with h | ⟨a, -, h⟩
  · obtain ⟨_, _, _, _, x, _, rfl, rfl⟩ := h
    exact ⟨rfl, _, _, rfl⟩
  · cases a <;> simp at h

theorem arms_barter (i : Interaction) (t : Nat) (s : Site) (h : Arms (barter.execute i) t s) :
    t = 60000 ∧ s = .barter i := by
  obtain ⟨m, h⟩ := h
  simp [barter.execute] at h
  rcases h with h | ⟨a, -, h⟩
  · obtain ⟨_, _, _, _, _, _, rfl, rfl⟩ := h
    exact ⟨rfl, rfl⟩
  · cases a <;> simp at h

theorem arms_story (i : Interaction) (t : Nat) (s : Site) (h : Arms (narrative.execute i) t s) :
    t = 120000 ∧ ∃ m, s = .story i m := by
  obtain ⟨m, h⟩ := h
  simp [narrative.execute] at h
  rcases h with h | ⟨a, -, h⟩
  · obtain ⟨_, _, _, _, _, x, _, rfl, rfl⟩ := h
    exact ⟨rfl, _, rfl⟩
  · cases a <;> simp at h

theorem arms_roll (i : Interaction) (t : Nat) (s : Site) (h : Arms (roll.execute i) t s) :
    t = 30000 ∧ s = .roll i rollRow := by
  obtain ⟨m, h⟩ := h
  simp [roll.execute] at h
  exact ⟨h.2.1, h.2.2⟩

theorem arms_inventory (i : Interaction) (t : Nat) (s : Site)
    (h : Arms (inventory.execute i) t s) : t = 120000 ∧ ∃ m, s = .inventory i m := by
  obtain ⟨m, h⟩ := h
  simp [inventory.execute, inventory.showPage] at h
  obtain ⟨-, a, -, rfl, rfl⟩ := h
  exact ⟨rfl, _, rfl⟩

theorem arms_trade (i : Interaction) (t : Nat) (s : Site) (h : Arms (trade.execute i) t s) :
    t = 120000 ∧ ∃ o, i.options = some o ∧ s = .trade i o.target := by
  obtain ⟨m, h⟩ := h
  simp [trade.execute] at h
  obtain ⟨o, ho, h⟩ := h
  rcases h with ⟨-, _, _, _, _, _, rfl, rfl⟩ | ⟨a, -, h⟩
  · exact ⟨rfl, o, ho, rfl⟩
  · cases a <;> simp at h

theorem arms_balance (i : Interaction) (t : Nat) (s : Site) : ¬ Arms (balance.execute i) t s := by
  rintro ⟨m, h⟩
  simp [balance.execute, balance.progress] at h
  obtain ⟨a, d, -, -, h⟩ := h
  split at h <;> simp at h

theorem arms_start (i : Interaction) (t : Nat) (s : Site) : ¬ Arms (start.execute i) t s := by
  rintro ⟨m, h⟩
  simp [start.execute] at h

theorem arms_stats (i : Interaction) (t : Nat) (s : Site) : ¬ Arms (stats.execute i) t s := by
  rintro ⟨m, h⟩
  simp [stats.execute] at h
  obtain ⟨a, -, h⟩ := h
  cases a <;> simp at h

theorem arms_preview (i : Interaction) (t : Nat) (s : Site) : ¬ Arms (preview.execute i) t s := by
  rintro ⟨m, h⟩
  simp [preview.execute] at h
  obtain ⟨o, -, a, -, h⟩ := h
  cases a <;> simp at h

theorem arms_shop (i : Interaction) (t : Nat) (s : Site) : ¬ Arms (shop.execute i) t s := by
  rintro ⟨m, h⟩
  simp [shop.execute] at h
  obtain ⟨o, -, h⟩ := h
  rcases h with ⟨-, a, h⟩ | ⟨-, -, a, -, h⟩
  · split at h <;> simp at h
  · cases a <;> simp at h

@[simp] theorem performs_quantity (raw : String) (o : Op) :
    ¬ Performs (forge.quantity raw) o := by
  intro h
  unfold forge.quantity at h
  split at h
  · split at h <;> cases h
  · cases h

@[simp] theorem requests_quantity (raw : String) (q : Request) :
    ¬ Requests (forge.quantity raw) q := by
  intro h
  unfold forge.quantity at h
  split at h
  · split at h <;> cases h
  · cases h

theorem arms_forge (i : Interaction) (t : Nat) (s : Site) : ¬ Arms (forge.execute i) t s := by
  rintro ⟨m, h⟩
  simp [forge.execute, getTextInputValue] at h
  obtain ⟨-, -, a, -, h⟩ := h
  cases a <;> simp at h

theorem arms_help (i : Interaction) (t : Nat) (s : Site) : ¬ Arms (help.execute i) t s := by
  rintro ⟨m, h⟩
  simp [help.execute] at h

/-! ## Collectors across the event loop -/

theorem find_map_replace (l : List Collector) (x : Collector) (c : Nat) :
    (l.map (fun y => if y.id == x.id then x else y)).find? (fun y => y.id == c) =
      if c = x.id then (l.find? (fun y => y.id == c)).map (fun _ => x)
      else l.find? (fun y => y.id == c) := by
  induction l with
  | nil => simp
  | cons y ys ih =>
    rw [List.map_cons, List.find?_cons, List.find?_cons, ih]
    by_cases hyx : y.id = x.id
    · have h1 : (y.id == x.id) = true := beq_iff_eq.2 hyx
      by_cases hc : c = x.id
      · subst hc
        simp only [h1, beq_self_eq_true, if_true, Option.map_some']
      · have h2 : (x.id == c) = false := beq_eq_false_iff_ne.2 (fun h => hc h.symm)
        have h3 : (y.id == c) = false := beq_eq_false_iff_ne.2 (fun h => hc (h.symm.trans hyx))
        simp only [h1, h2, h3, hc, if_true, if_false]
    · have h1 : (y.id == x.id) = false := beq_eq_false_iff_ne.2 hyx
      by_cases hyc : y.id = c
      · have h3 : (y.id == c) = true := beq_iff_eq.2 hyc
        have hc : ¬ c = x.id := fun h => hyx (hyc.trans h)
        simp only [h1, h3, hc, if_false, Bool.false_eq_true]
      · have h3 : (y.id == c) = false := beq_eq_false_iff_ne.2 hyc
        simp only [h1, h3, if_false, Bool.false_eq_true]

theorem collector_setCollector (w : World) (x : Collector) (c : Nat) :
    (w.setCollector x).collector c =
      if c = x.id then (w.collector c).map (fun _ => x) else w.collector c := by
  simp only [World.collector, World.setCollector]
  exact find_map_replace _ _ _

theorem collector_id (w : World) (c : Nat) (col : Collector) (h : w.collector c = some col) :
    col.id = c := by
  have := List.find?_some h
  simpa using this

theorem later_refl (x : Collector) : x.later x :=
  ⟨rfl, rfl, rfl, rfl, rfl, id⟩

theorem later_trans {x y z : Collector} (h1 : x.later y) (h2 : y.later z) : x.later z :=
  ⟨h2.1.trans h1.1, h2.2.1.trans h1.2.1, h2.2.2.1.trans h1.2.2.1,
    h2.2.2.2.1.trans h1.2.2.2.1, h2.2.2.2.2.1.trans h1.2.2.2.2.1,
    fun h => h2.2.2.2.2.2 (h1.2.2.2.2.2 h)⟩

theorem keeps_of_collectors {w w1 : World} (h : w1.collectors = w.collectors) {c : Nat}
    {x : Collector} (hk : w.keeps c x) : w1.keeps c x := by
  obtain ⟨y, hy, hl⟩ := hk
  exact ⟨y, by simpa [World.collector, h] using hy, hl⟩

theorem keeps_setCollector {w : World} {c : Nat} {x col1 : Collector} (col : Collector)
    (hk : w.keeps c x) (hcol : w.collector col1.id = some col) (hl : col.later col1) :
    (w.setCollector col1).keeps c x := by
  obtain ⟨y, hy, hxy⟩ := hk
  rw [World.keeps, collector_setCollector]
  by_cases hc : c = col1.id
  · subst hc
    rw [hcol] at hy
    cases hy
    exact ⟨col1, by simp [hcol], later_trans hxy hl⟩
  · exact ⟨y, by simp [hc, hy], hxy⟩

theorem ensureReply_collectors (w : World) (i : Interaction) :
    (w.ensureReply i).1.collectors = w.collectors := by
  unfold World.ensureReply
  split <;> rfl

theorem bindSource_collectors (w : World) (i : Interaction) :
    (w.bindSource i).collectors = w.collectors := by
  unfold World.bindSource
  split <;> rfl

theorem applyCall_collectors (strict : Bool) (w : World) (c : Call) :
    (applyCall strict w c).1.collectors = w.collectors := by
  cases c <;> simp only [applyCall] <;> repeat' split
  all_goals
    simp [World.emit, World.patch, ensureReply_collectors, bindSource_collectors]

theorem runCalls_collectors (strict : Bool) (cs : List Call) (w : World) :
    (runCalls strict cs w).collectors = w.collectors := by
  induction cs generalizing w with
  | nil => rfl
  | cons c cs ih =>
    simp only [runCalls]
    have h := applyCall_collectors strict w c
    split
    · rename_i w1 _ heq
      rw [ih]
      simpa [heq] using h
    · rename_i w1 _ heq
      simpa [World.emit, heq] using h

theorem endCollector_keeps (strict : Bool) {w : World} {c : Nat} {x : Collector}
    (hk : w.keeps c x) (c1 : Nat) : (endCollector strict w c1).keeps c x := by
  unfold endCollector
  split
  · exact hk
  · rename_i col hcol
    split
    · exact hk
    · have hid := collector_id w c1 col hcol
      have hset : (w.setCollector { col with ended := true }).keeps c x :=
        keeps_setCollector col hk (by simpa [hid] using hcol)
          ⟨rfl, rfl, rfl, rfl, rfl, fun _ => rfl⟩
      split
      · exact keeps_of_collectors (by rw [runCalls_collectors]; rfl) hset
      · exact keeps_of_collectors rfl hset

theorem applyOp_keeps (strict : Bool) {w : World} {c : Nat} {x : Collector}
    (hk : w.keeps c x) (op : Op) : (applyOp strict w op).1.keeps c x := by
  cases op with
  | platform call => exact keeps_of_collectors (applyCall_collectors strict w call) hk
  | ackState i => exact hk
  | createCollector m time site =>
    obtain ⟨y, hy, hl⟩ := hk
    refine ⟨y, ?_, hl⟩
    simp only [applyOp, World.emit, World.collector, List.find?_append]
    simp only [World.collector] at hy
    simp [hy]
  | stop c1 => exact endCollector_keeps strict hk c1
  | setPage c1 page =>
    simp only [applyOp]
    split
    · rename_i col hcol
      have hid := collector_id w c1 col hcol
      exact keeps_setCollector col hk (by simpa [hid] using hcol)
        ⟨rfl, rfl, rfl, rfl, rfl, id⟩
    · exact hk
  | log level text err => exact keeps_of_collectors rfl hk

theorem exec_keeps (strict : Bool) (p : Prog Unit) {w : World} {c : Nat} {x : Collector}
    (hk : w.keeps c x) : (exec strict p w).keeps c x := by
  induction p generalizing w with
  | pure a => exact hk
  | throw e => exact keeps_of_collectors rfl hk
  | http req k _ => exact keeps_of_collectors rfl hk
  | call op k ih =>
    simp only [exec]
    exact ih _ (applyOp_keeps strict hk op)

theorem handleCollect_keeps (strict : Bool) (reg : Registry) (i : Interaction) {w : World}
    {c : Nat} {x : Collector} (hk : w.keeps c x) (c1 : Nat) :
    (handleCollect strict reg i w c1).keeps c x := by
  unfold handleCollect
  split
  · exact hk
  · rename_i col hcol
    split
    · have hid := collector_id w c1 col hcol
      apply exec_keeps
      exact keeps_of_collectors rfl
        (keeps_setCollector col hk (by simpa [hid] using hcol)
          ⟨rfl, rfl, rfl, rfl, rfl, id⟩)
    · exact hk

theorem foldl_keeps {f : World → Nat → World} {c : Nat} {x : Collector}
    (hf : ∀ w c1, w.keeps c x → (f w c1).keeps c x) (l : List Nat) {w : World}
    (hk : w.keeps c x) : (l.foldl f w).keeps c x := by
  induction l generalizing w with
  | nil => exact hk
  | cons a l ih => exact ih (hf w a hk)

theorem step_keeps (strict : Bool) (reg : Registry) {w : World} {c : Nat} {x : Collector}
    (hk : w.keeps c x) (e : Event) : (step strict reg w e).keeps c x := by
  cases e with
  | interaction i =>
    exact foldl_keeps (fun w c1 h => handleCollect_keeps strict reg i h c1) _
      (exec_keeps strict _ hk)
  | response t r =>
    simp only [step]
    split
    · exact hk
    · exact exec_keeps strict _ (keeps_of_collectors rfl hk)
  | tick t =>
    exact foldl_keeps (fun w c1 h => endCollector_keeps strict h c1) _
      (keeps_of_collectors rfl hk)

theorem run_keeps (strict : Bool) (reg : Registry) (es : List Event) {w : World} {c : Nat}
    {x : Collector} (hk : w.keeps c x) : (run strict reg w es).keeps c x := by
  induction es generalizing w with
  | nil => exact hk
  | cons e es ih => exact ih (step_keeps strict reg hk e)

theorem endCollector_ends (strict : Bool) {w : World} {c : Nat} {x : Collector}
    (hx : w.collector c = some x) :
    ∃ y, (endCollector strict w c).collector c = some y ∧ y.ended = true := by
  have hid := collector_id w c x hx
  unfold endCollector
  rw [hx]
  simp only
  split
  · rename_i h
    exact ⟨x, hx, h⟩
  · have hset : (w.setCollector { x with ended := true }).collector c =
        some { x with ended := true } := by
      rw [collector_setCollector]
      simp [hid, hx]
    split
    · refine ⟨{ x with ended := true }, ?_, rfl⟩
      rw [← hset]
      simp only [World.collector, runCalls_collectors]
      rfl
    · exact ⟨_, hset, rfl⟩

theorem ended_of_keeps {w : World} {c : Nat} {x : Collector} (hk : w.keeps c x)
    (hx : x.ended = true) : ∃ y, w.collector c = some y ∧ y.ended = true := by
  obtain ⟨y, hy, hl⟩ := hk
  exact ⟨y, hy, hl.2.2.2.2.2 hx⟩

theorem foldl_ends (strict : Bool) (c : Nat) (l : List Nat) (w : World) (x : Collector)
    (hc : c ∈ l) (hx : w.collector c = some x) :
    ∃ y, (l.foldl (endCollector strict) w).collector c = some y ∧ y.ended = true := by
  induction l generalizing w x with
  | nil => cases hc
  | cons a l ih =>
    rw [List.foldl_cons]
    by_cases hac : a = c
    · subst hac
      obtain ⟨y, hy, hended⟩ := endCollector_ends strict hx
      exact ended_of_keeps
        (foldl_keeps (fun w c1 h => endCollector_keeps strict h c1) l ⟨y, hy, later_refl y⟩)
        hended
    · have hmem : c ∈ l := by
        rcases List.mem_cons.1 hc with h | h
        · exact absurd h.symm hac
        · exact h
      obtain ⟨y, hy, -⟩ := endCollector_keeps strict (⟨x, hx, later_refl x⟩ : w.keeps c x) a
      exact ih _ y hmem hy

theorem tick_ends (strict : Bool) (reg : Registry) {w : World} {c : Nat} {x : Collector}
    (hx : w.collector c = some x) (t : Nat) (ht : x.createdAt + x.time ≤ t) :
    ∃ y, (step strict reg w (.tick t)).collector c = some y ∧ y.ended = true := by
  simp only [step]
  by_cases hended : x.ended = true
  · exact ended_of_keeps
      (foldl_keeps (fun w c1 h => endCollector_keeps strict h c1) _
        (keeps_of_collectors rfl ⟨x, hx, later_refl x⟩))
      hended
  · apply foldl_ends strict c _ _ x
    · have hmem : x ∈ w.collectors := List.mem_of_find?_eq_some hx
      have hid := collector_id w c x hx
      refine List.mem_map.2 ⟨x, List.mem_filter.2 ⟨hmem, ?_⟩, hid⟩
      have : x.createdAt + x.time ≤ max w.now t := le_trans ht (le_max_right _ _)
      simp [Collector.due, hended, this]
    · exact hx

/-! ## The HTTP client: retries -/

theorem instanceRequest_fulfilled (server : Nat → Attempt) (n : Nat) (c : Option Nat)
    (res : Response) (h : server n = .fulfilled res) :
    instanceRequest server n c = (.resolved res, n + 1) := by
  rw [instanceRequest, h]

theorem instanceRequest_retry (server : Nat → Attempt) (n : Nat) (c : Option Nat)
    (error : AxiosError) (h : server n = .failed error) (hc : c.getD 0 < MAX_RETRIES)
    (hr : retryable error = true) :
    instanceRequest server n c = instanceRequest server (n + 1) (some (c.getD 0 + 1)) := by
  rw [instanceRequest, h]
  simp [hc, hr]

theorem instanceRequest_reject (server : Nat → Attempt) (n : Nat) (c : Option Nat)
    (error : AxiosError) (h : server n = .failed error)
    (hc : ¬ (c.getD 0 < MAX_RETRIES ∧ retryable error = true)) :
    instanceRequest server n c = (.rejected (standardize error), n + 1) := by
  rw [instanceRequest, h]
  simp only [hc, if_false]

theorem instanceRequest_attempts (server : Nat → Attempt) (n : Nat) (c : Option Nat) :
    n + 1 ≤ (instanceRequest server n c).2 ∧
      (instanceRequest server n c).2 ≤ n + 1 + (MAX_RETRIES - c.getD 0) := by
  generalize hk : MAX_RETRIES - c.getD 0 = k
  induction k generalizing n c with
  | zero =>
    cases hs : server n with
    | fulfilled res => simp [instanceRequest_fulfilled server n c res hs]
    | failed error =>
      have hc : ¬ (c.getD 0 < MAX_RETRIES ∧ retryable error = true) := by
        rintro ⟨h, -⟩
        omega
      simp [instanceRequest_reject server n c error hs hc]
  | succ k ih =>
    cases hs : server n with
    | fulfilled res => simp [instanceRequest_fulfilled server n c res hs]
    | failed error =>
      by_cases hc : c.getD 0 < MAX_RETRIES ∧ retryable error = true
      · rw [instanceRequest_retry server n c error hs hc.1 hc.2]
        have h := ih (n + 1) (some (c.getD 0 + 1)) (by simp only [Option.getD_some]; omega)
        omega
      · simp [instanceRequest_reject server n c error hs hc]

theorem send_attempts (server : Nat → Attempt) :
    1 ≤ (httpClient.send server).2 ∧ (httpClient.send server).2 ≤ MAX_RETRIES + 1 := by
  have h := instanceRequest_attempts server 0 none
  have heq : (httpClient.send server).2 = (instanceRequest server 0 none).2 := by
    unfold httpClient.send
    split <;> simp [*]
  rw [heq]
  simp only [Option.getD_none] at h
  omega

theorem backendSays_eq (body : Json) : backendSays body = .resolved (readData body) := by
  unfold backendSays httpClient.send
  rw [instanceRequest_fulfilled _ 0 none { status := 200, data := body } rfl]
  rfl

/-! ## What the user is shown when the backend fails -/

set_option maxHeartbeats 4000000 in
theorem shown_rejected (entry : Entry) (strict : Bool) (user : String) (e : HttpError) :
    shown (entry.session strict user (.rejected e)).trace = [entry.failureText] := by
  cases entry <;> cases strict <;> exact rfl

set_option maxHeartbeats 4000000 in
theorem logged_rejected (entry : Entry) (strict : Bool) (user : String) (e : HttpError) :
    logged (entry.session strict user (.rejected e)).trace =
      [(.error, entry.logLabel, some (.http e))] := by
  cases entry <;> cases strict <;> exact rfl

set_option maxHeartbeats 4000000 in
theorem shown_malformed (entry : Entry) (strict : Bool) (user : String)
    (h : entry ≠ .shopList) :
    shown (entry.session strict user (.resolved none)).trace = [entry.failureText] := by
  cases entry <;> cases strict <;> first | exact absurd rfl h | exact rfl

theorem shown_invalid_quantity (strict : Bool) (user itemId traits : String) :
    shown (run strict registry {} [.interaction (forgeSubmit 1 user itemId traits "0")]).trace =
      ["❌ Error forging item: Quantity must be a positive integer."] := by
  cases strict <;> exact rfl

set_option maxHeartbeats 4000000 in
theorem pending_entry (entry : Entry) (strict : Bool) (user : String) :
    (run strict registry {} [.interaction (entry.interaction user)]).pending.map
      (fun t => (t.id, t.req)) = [(0, entry.request user)] := by
  cases entry <;> cases strict <;> exact rfl

theorem pending_handler (h : Handler) (strict : Bool) :
    (h.before strict).pending.map (fun t => (t.id, t.req)) = [(h.task, h.request)] := by
  cases h <;> cases strict <;> decide

set_option maxHeartbeats 4000000 in
theorem shown_handler_rejected (h : Handler) (strict : Bool) (e : HttpError) :
    shown ((h.session strict (.rejected e)).since (h.before strict)) = [h.failureText] := by
  cases h <;> cases strict <;> exact rfl

set_option maxHeartbeats 4000000 in
theorem logged_handler_rejected (h : Handler) (strict : Bool) (e : HttpError) :
    logged ((h.session strict (.rejected e)).since (h.before strict)) =
      [(.error, h.logLabel, some (.http e))] := by
  cases h <;> cases strict <;> exact rfl

theorem shown_handler_malformed (h : Handler) (strict : Bool) :
    shown ((h.session strict (.resolved none)).since (h.before strict)) = [h.failureText] := by
  cases h <;> cases strict <;> decide

/-! ## The first piece of a split string -/

theorem splitAux_head (sep : Char) (cs acc : List Char) (hacc : sep ∉ acc) :
    ∃ piece rest, splitAux sep cs acc = piece :: rest ∧ sep ∉ piece := by
  induction cs generalizing acc with
  | nil => exact ⟨acc.reverse, [], rfl, by simpa using hacc⟩
  | cons c cs ih =>
    by_cases h : c = sep
    · exact ⟨acc.reverse, splitAux sep cs [], by simp [splitAux, h], by simpa using hacc⟩
    · obtain ⟨piece, rest, heq, hp⟩ := ih (c :: acc) (by
        simp only [List.mem_cons, not_or]
        exact ⟨fun h1 => h h1.symm, hacc⟩)
      exact ⟨piece, rest, by simp [splitAux, h, heq], hp⟩

theorem jsSplit_first (s : String) (sep : Char) : sep ∉ ((jsSplit s sep).getD 0 "").data := by
  obtain ⟨piece, rest, heq, hp⟩ := splitAux_head sep s.data [] (by simp)
  simp [jsSplit, heq, hp]

theorem action_ne_trade_accept (customId : String) :
    (jsSplit customId '_').getD 0 "" ≠ "trade_accept" := by
  intro h
  have := jsSplit_first customId '_'
  rw [h] at this
  exact this (by decide)

theorem trade_collect_title (c : Collector) (interaction btn : Interaction) (i : Interaction)
    (p : Payload) (em : Embed)
    (h : Performs (trade.collect c interaction btn) (.platform (.editReply i p)))
    (hem : em ∈ p.embeds.getD []) : em.title = some "❌ Trade Cancelled" := by
  have hne : (jsSplit btn.customId '_')[0]?.getD "" ≠ "trade_accept" := by
    simpa using action_ne_trade_accept btn.customId
  simp [trade.collect, hne] at h
  obtain ⟨a, d, -, h⟩ := h
  rcases h with ⟨-, -, rfl⟩ | ⟨-, -, rfl⟩
  · simp at hem
  · simp at hem
    rw [hem]

/-! ## Inventory pages -/

theorem totalPages_eq (n : Nat) : totalPages (some n) = max 1 ⌈(n : ℚ) / 10⌉₊ := by
  have hceil : ⌈(n : ℚ) / 10⌉₊ = (n + 9) / 10 := by
    apply le_antisymm
    · rw [Nat.ceil_le, div_le_iff₀ (by norm_num)]
      have h : n ≤ (n + 9) / 10 * 10 := by omega
      exact_mod_cast h
    · apply Nat.le_of_lt_succ
      rw [Nat.lt_succ_iff, Nat.div_le_iff_le_mul_add_pred (by norm_num)]
      have h1 : (n : ℚ) / 10 ≤ ⌈(n : ℚ) / 10⌉₊ := Nat.le_ceil _
      rw [div_le_iff₀ (by norm_num)] at h1
      have h2 : n ≤ ⌈(n : ℚ) / 10⌉₊ * 10 := by exact_mod_cast h1
      omega
  rw [hceil]
  simp only [totalPages, pageSize]
  split <;> omega

theorem pageRow_prev (p total : Nat) : "inv_prev" ∈ customIds [pageRow p total] ↔ 1 < p := by
  unfold pageRow customIds
  by_cases h1 : p > 1 <;> by_cases h2 : p < total <;> simp [h1, h2]

theorem pageRow_next (p total : Nat) :
    "inv_next" ∈ customIds [pageRow p total] ↔ p < total := by
  unfold pageRow customIds
  by_cases h1 : p > 1 <;> by_cases h2 : p < total <;> simp [h1, h2]

theorem showPageAt_message (strict : Bool) (user : String) (p : Nat) (n : Nat)
    (items : List Item) :
    ((showPageAt strict user p { items := some items, totalItems := some n }).message 0) =
      { id := 0
        embeds := [{ title := some s!"{user}’s Inventory"
                     footer := some s!"Page {p} of {totalPages (some n)}"
                     description :=
                       if items.length = 0 then some "_Your inventory is empty._"
                       else some ("\n".intercalate (items.map inventoryLine)) }]
        components := [pageRow p (totalPages (some n))] } := by
  cases strict <;> rfl

/-! ## The interactionCreate handler: errors -/

theorem rejects_bind {α β : Type} (p : Prog α) (f : α → Prog β) (e : Err)
    (h : Rejects (p >>= f) e) : Rejects p e ∨ ∃ a, Rejects (f a) e := by
  change Rejects (p.bind f) e at h
  induction p with
  | pure a => exact Or.inr ⟨a, h⟩
  | throw e1 =>
    cases h
    exact Or.inl (.throw _)
  | http req k ih =>
    cases h with
    | http _ _ r _ h =>
      rcases ih r h with h1 | h1
      · exact Or.inl (.http _ _ r _ h1)
      · exact Or.inr h1
  | call op k ih =>
    cases h with
    | call _ _ r _ hlog h =>
      rcases ih r h with h1 | h1
      · exact Or.inl (.call _ _ r _ hlog h1)
      · exact Or.inr h1

theorem rejects_tryCatch {α : Type} (p : Prog α) (g : Err → Prog α) (e : Err)
    (h : Rejects (tryCatch p g) e) : ∃ e1, Rejects (g e1) e := by
  change Rejects (p.tryCatch g) e at h
  induction p with
  | pure a => cases h
  | throw e1 => exact ⟨e1, h⟩
  | http req k ih =>
    cases h with
    | http _ _ r _ h => exact ih r h
  | call op k ih =>
    cases h with
    | call _ _ r _ _ h => exact ih r h

theorem rejects_pure {α : Type} (a : α) (e : Err) : ¬ Rejects (pure a : Prog α) e := by
  intro h
  cases h

theorem rejects_logError (text : String) (err e : Err) : ¬ Rejects (logError text err) e := by
  intro h
  unfold logError perform at h
  cases h with
  | call _ _ r _ hlog h =>
    obtain ⟨v, rfl⟩ := hlog _ _ _ rfl
    cases h

theorem rejects_logLine (level : Level) (text : String) (e : Err) :
    ¬ Rejects (logLine level text) e := by
  intro h
  unfold logLine perform at h
  cases h with
  | call _ _ r _ hlog h =>
    obtain ⟨v, rfl⟩ := hlog _ _ _ rfl
    cases h

theorem rejects_onError (i : Interaction) (err e : Err) :
    ¬ Rejects (interactionCreate.onError i err) e := by
  intro h
  unfold interactionCreate.onError at h
  rcases rejects_bind _ _ _ h with h1 | ⟨a, h1⟩
  · exact rejects_logError _ _ _ h1
  · obtain ⟨e1, h2⟩ := rejects_tryCatch _ _ _ h1
    exact rejects_logError _ _ _ h2

theorem rejects_execute (reg : Registry) (i : Interaction) (e : Err) :
    ¬ Rejects (interactionCreate.execute reg i) e := by
  intro h
  unfold interactionCreate.execute at h
  rcases rejects_bind _ _ _ h with h1 | ⟨a, h1⟩
  · obtain ⟨e1, h2⟩ := rejects_tryCatch _ _ _ h1
    rcases rejects_bind _ _ _ h2 with h3 | ⟨b, h3⟩
    · exact rejects_onError _ _ _ h3
    · exact rejects_pure _ _ h3
  · cases a <;> exact rejects_pure _ _ h1

theorem help_can_reject (i : Interaction) (e : Err) : Rejects (help.execute i) e := by
  unfold help.execute await perform
  exact .call _ _ (.error e) _ (fun _ _ _ h => nomatch h) (.throw e)

theorem onError_trace (strict : Bool) (w : World) (i : Interaction) (err : Err) :
    (exec strict (interactionCreate.onError i err) w).trace =
      w.trace ++ [.log .error "Error handling interaction:" (some err)] ++
        (if w.replied.contains i.id || w.deferred.contains i.id then
          match w.replyMessage i with
          | some m =>
            [.editReply i.id m
              { content := some unexpectedError, embeds := some [], components := some [] }]
          | none => [.log .error "Failed to send error reply:" (some .notReplied)]
        else
          [.reply i.id (w.ensureReply i).2
            { content := some unexpectedError, ephemeral := true }]) := by
  by_cases hf : i.id ∈ w.replied ∨ i.id ∈ w.deferred
  · cases hm : w.replyOf.find? (fun e => e.1 == i.id) with
    | none =>
      simp [interactionCreate.onError, logError, perform, ackFlags, await, exec, applyOp,
        applyCall, Bind.bind, Prog.bind, tryCatch, tryCatchThe, MonadExcept.tryCatch,
        Prog.tryCatch, Pure.pure, World.emit, World.replyMessage, hf, hm]
    | some m =>
      simp [interactionCreate.onError, logError, perform, ackFlags, await, exec, applyOp,
        applyCall, Bind.bind, Prog.bind, tryCatch, tryCatchThe, MonadExcept.tryCatch,
        Prog.tryCatch, Pure.pure, World.emit, World.replyMessage, World.patch, hf, hm]
  · have hr : i.id ∉ w.replied := fun h => hf (Or.inl h)
    have hd : i.id ∉ w.deferred := fun h => hf (Or.inr h)
    simp [interactionCreate.onError, logError, perform, ackFlags, await, exec, applyOp,
      applyCall, Bind.bind, Prog.bind, tryCatch, tryCatchThe, MonadExcept.tryCatch,
      Prog.tryCatch, Pure.pure, World.emit, World.replyMessage, World.patch, World.acked,
      World.rejects, World.ensureReply, hf, hr, hd]
    split <;> simp [World.emit, World.patch]

theorem shown_onError (strict : Bool) (w : World) (i : Interaction) (err : Err) :
    (∀ t ∈ shown ((exec strict (interactionCreate.onError i err) w).since w),
      t = unexpectedError) ∧
    (Level.error, "Error handling interaction:", some err) ∈
      logged ((exec strict (interactionCreate.onError i err) w).since w) := by
  unfold World.since
  rw [onError_trace, List.append_assoc, List.drop_left]
  constructor
  · intro t ht
    by_cases hf : i.id ∈ w.replied ∨ i.id ∈ w.deferred
    · cases hm : w.replyMessage i with
      | none => simp [shown, Effect.payload, hf, hm] at ht
      | some m =>
        simp [shown, Effect.payload, hf, hm] at ht
        exact ht
    · simp [shown, Effect.payload, hf] at ht
      exact ht
  · simp [logged]

theorem onError_logs_failure (i : Interaction) (err e : Err) :
    Performs (interactionCreate.onError i err)
      (.log .error "Failed to send error reply:" (some e)) := by
  simp [interactionCreate.onError, throws_bind]
  exact Or.inr (Or.inl (Or.inl (.call _ _ (.ok (.flags false false)) _ (.pure _))))

theorem execute_performs (reg : Registry) (i : Interaction) (cmd : Cmd) (o : Op)
    (h : (i.kind = .chatInput ∧ reg.get i.commandName = some cmd) ∨
      ((i.kind = .button ∨ i.kind = .selectMenu ∨ i.kind = .modalSubmit) ∧
        reg.get ((jsSplit i.customId '_').getD 0 "") = some cmd)) :
    Performs (interactionCreate.execute reg i) o ↔
      Performs (cmd.execute i) o ∨
        ∃ e, Throws (cmd.execute i) e ∧ Performs (interactionCreate.onError i e) o := by
  rcases h with ⟨hk, hreg⟩ | ⟨hk, hreg⟩
  · simp [interactionCreate.execute, hk, hreg, throws_bind]
    intro x _ hx
    cases x <;> simp at hx
  · have hc : i.kind ≠ .chatInput := by
      rcases hk with h | h | h <;> simp [h]
    have hreg1 : reg.get ((jsSplit i.customId '_')[0]?.getD "") = some cmd := by
      simpa using hreg
    simp [interactionCreate.execute, hk, hc, hreg1, throws_bind]
    intro x _ hx
    cases x <;> simp at hx

/-! ## The messageCreate parser -/

theorem splitRuns_nonEmpty (cs acc : List Char) (gap : Bool) (hgap : gap = true → acc = []) :
    nonEmpty (splitRunsAux cs acc gap) = nonEmpty (List.splitOnP.go jsWhitespace cs acc) := by
  induction cs generalizing acc gap with
  | nil => simp [splitRunsAux, List.splitOnP.go]
  | cons c cs ih =>
    by_cases hc : jsWhitespace c = true
    · cases gap with
      | true =>
        have hacc := hgap rfl
        subst hacc
        simp only [splitRunsAux, List.splitOnP.go, hc, if_true, cond_true]
        rw [ih [] true (fun _ => rfl)]
        simp [nonEmpty]
      | false =>
        have h := ih [] true (fun _ => rfl)
        simp only [nonEmpty] at h
        simp [splitRunsAux, List.splitOnP.go, hc, nonEmpty, List.filter_cons, h]
    · simp only [splitRunsAux, List.splitOnP.go, hc, if_false, cond_false]
      exact ih (c :: acc) false (fun h => nomatch h)

theorem go_append_white (l acc : List Char) (a : Char) (ha : jsWhitespace a = true) :
    nonEmpty (List.splitOnP.go jsWhitespace (l ++ [a]) acc) =
      nonEmpty (List.splitOnP.go jsWhitespace l acc) := by
  induction l generalizing acc with
  | nil => simp [List.splitOnP.go, ha, nonEmpty, List.filter_cons]
  | cons c l ih =>
    by_cases hc : jsWhitespace c = true
    · simp only [List.cons_append, List.splitOnP.go, hc, cond_true]
      have h := ih []
      simp only [nonEmpty] at h
      simp [nonEmpty, List.filter_cons, h]
    · simp only [List.cons_append, List.splitOnP.go, hc, cond_false]
      exact ih (c :: acc)

theorem rtrim_append (l : List Char) (a : Char) :
    rtrim (l ++ [a]) = if jsWhitespace a = true then rtrim l else l ++ [a] := by
  by_cases ha : jsWhitespace a = true <;> simp [rtrim, List.dropWhile_cons, ha]

theorem go_rtrim (l acc : List Char) :
    nonEmpty (List.splitOnP.go jsWhitespace (rtrim l) acc) =
      nonEmpty (List.splitOnP.go jsWhitespace l acc) := by
  induction l using List.reverseRecOn with
  | nil => rfl
  | append_singleton l a ih =>
    rw [rtrim_append]
    by_cases ha : jsWhitespace a = true
    · rw [if_pos ha, ih, go_append_white l acc a ha]
    · rw [if_neg ha]

theorem go_dropWhile (l : List Char) :
    nonEmpty (List.splitOnP.go jsWhitespace (l.dropWhile jsWhitespace) []) =
      nonEmpty (List.splitOnP.go jsWhitespace l []) := by
  induction l with
  | nil => rfl
  | cons c l ih =>
    by_cases hc : jsWhitespace c = true
    · simp only [List.dropWhile_cons, hc, if_true, List.splitOnP.go, cond_true]
      rw [ih]
      simp [nonEmpty, List.filter_cons]
    · simp [List.dropWhile_cons, hc]

theorem rtrim_head (l : List Char) (c : Char) (h : (rtrim l).head? = some c) :
    l.head? = some c := by
  induction l using List.reverseRecOn with
  | nil => exact h
  | append_singleton l a ih =>
    rw [rtrim_append] at h
    by_cases ha : jsWhitespace a = true
    · rw [if_pos ha] at h
      have h1 := ih h
      cases l with
      | nil => cases h1
      | cons d l => simpa using h1
    · rw [if_neg ha] at h
      exact h

theorem rtrim_last (l : List Char) (c : Char) (h : (rtrim l).getLast? = some c) :
    jsWhitespace c = false := by
  unfold rtrim at h
  rw [List.getLast?_reverse] at h
  have := List.head?_dropWhile_not jsWhitespace l.reverse
  rw [h] at this
  simpa using this

theorem splitRuns_pieces (cs acc : List Char) (gap : Bool)
    (hend : match cs.getLast? with
      | none => gap = false
      | some c => jsWhitespace c = false)
    (hstart : gap = false → acc = [] → ∃ c rest, cs = c :: rest ∧ jsWhitespace c = false) :
    ∀ piece ∈ splitRunsAux cs acc gap, piece ≠ [] := by
  induction cs generalizing acc gap with
  | nil =>
    simp only [List.getLast?_nil] at hend
    intro piece hp
    simp only [splitRunsAux, List.mem_singleton] at hp
    subst hp
    intro hnil
    obtain ⟨c, rest, h, -⟩ := hstart hend (by simpa using hnil)
    cases h
  | cons c cs ih =>
    have hend1 : ∀ g : Bool, jsWhitespace c = true ∨ g = false →
        match cs.getLast? with
        | none => g = false
        | some d => jsWhitespace d = false := by
      intro g hg
      cases cs with
      | nil =>
        simp only [List.getLast?_nil]
        simp only [List.getLast?_singleton] at hend
        rcases hg with hg | hg
        · rw [hend] at hg
          cases hg
        · exact hg
      | cons d ds =>
        rw [List.getLast?_cons_cons] at hend
        exact hend
    by_cases hc : jsWhitespace c = true
    · cases gap with
      | true =>
        simp only [splitRunsAux, hc, if_true]
        exact ih acc true (hend1 true (Or.inl hc)) (fun h => nomatch h)
      | false =>
        simp only [splitRunsAux, hc, if_true, Bool.false_eq_true, if_false]
        intro piece hp
        rcases List.mem_cons.1 hp with rfl | hp
        · intro hnil
          obtain ⟨d, rest, h, hd⟩ := hstart rfl (by simpa using hnil)
          cases h
          rw [hc] at hd
          cases hd
        · exact ih [] true (hend1 true (Or.inl hc)) (fun h => nomatch h) piece hp
    · simp only [splitRunsAux, hc, if_false]
      exact ih (c :: acc) false (hend1 false (Or.inr rfl)) (fun _ h => nomatch h)

theorem go_pieces_clean (cs acc : List Char) (hacc : ∀ c ∈ acc, jsWhitespace c = false) :
    ∀ piece ∈ List.splitOnP.go jsWhitespace cs acc, ∀ c ∈ piece, jsWhitespace c = false := by
  induction cs generalizing acc with
  | nil =>
    intro piece hp c hcp
    simp only [List.splitOnP.go, List.mem_singleton] at hp
    subst hp
    exact hacc c (by simpa using hcp)
  | cons d cs ih =>
    by_cases hd : jsWhitespace d = true
    · simp only [List.splitOnP.go, hd, cond_true]
      intro piece hp c hcp
      rcases List.mem_cons.1 hp with rfl | hp
      · exact hacc c (by simpa using hcp)
      · exact ih [] (fun _ h => nomatch h) piece hp c hcp
    · simp only [List.splitOnP.go, hd, cond_false]
      refine ih (d :: acc) ?_
      intro c hc
      rcases List.mem_cons.1 hc with rfl | hc
      · simpa using hd
      · exact hacc c hc

theorem splitRunsAux_ne_nil (cs acc : List Char) (gap : Bool) :
    splitRunsAux cs acc gap ≠ [] := by
  induction cs generalizing acc gap with
  | nil => simp [splitRunsAux]
  | cons c cs ih =>
    simp only [splitRunsAux]
    split
    · split
      · exact ih _ _
      · simp
    · exact ih _ _

theorem trimmed_split (x : List Char) :
    splitRunsAux (rtrim (x.dropWhile jsWhitespace)) [] false =
      if nonEmpty (List.splitOnP jsWhitespace x) = [] then [[]]
      else nonEmpty (List.splitOnP jsWhitespace x) := by
  have hT : nonEmpty (splitRunsAux (rtrim (x.dropWhile jsWhitespace)) [] false) =
      nonEmpty (List.splitOnP jsWhitespace x) := by
    rw [splitRuns_nonEmpty _ [] false (fun h => Bool.noConfusion h), go_rtrim, go_dropWhile]
    rfl
  cases ht : rtrim (x.dropWhile jsWhitespace) with
  | nil =>
    rw [ht] at hT
    rw [← hT]
    simp [splitRunsAux, nonEmpty]
  | cons c rest =>
    have hall : ∀ piece ∈ splitRunsAux (c :: rest) [] false, piece ≠ [] := by
      apply splitRuns_pieces
      · cases hl : (c :: rest).getLast? with
        | none => simp at hl
        | some d =>
          show jsWhitespace d = false
          rw [← ht] at hl
          exact rtrim_last _ d hl
      · intro _ _
        refine ⟨c, rest, rfl, ?_⟩
        have h1 : (rtrim (x.dropWhile jsWhitespace)).head? = some c := by rw [ht]; rfl
        have h2 := rtrim_head _ c h1
        have h3 := List.head?_dropWhile_not jsWhitespace x
        rw [h2] at h3
        simpa using h3
    have hself : nonEmpty (splitRunsAux (c :: rest) [] false) =
        splitRunsAux (c :: rest) [] false := by
      unfold nonEmpty
      rw [List.filter_eq_self]
      intro piece hp
      have := hall piece hp
      cases piece with
      | nil => exact absurd rfl this
      | cons _ _ => rfl
    rw [ht] at hT
    rw [← hT, hself, if_neg (splitRunsAux_ne_nil _ _ _)]

theorem parse_tokens (content : String) (skip : Nat) :
    messageCreate.parse content skip =
      (some ((tokens (jsSlice content skip)).headD ""), (tokens (jsSlice content skip)).tail) := by
  have h := trimmed_split (jsSlice content skip).data
  unfold messageCreate.parse jsSplitWs
  have ht : (jsTrim (jsSlice content skip)).data =
      rtrim ((jsSlice content skip).data.dropWhile jsWhitespace) := rfl
  rw [ht, h]
  unfold tokens
  change _ = (some (((nonEmpty (List.splitOnP jsWhitespace (jsSlice content skip).data)).map
    String.mk).headD ""), ((nonEmpty (List.splitOnP jsWhitespace
      (jsSlice content skip).data)).map String.mk).tail)
  cases hT : nonEmpty (List.splitOnP jsWhitespace (jsSlice content skip).data) with
  | nil => rfl
  | cons a l => simp

theorem tokens_clean (s : String) :
    ∀ a ∈ tokens s, a ≠ "" ∧ ∀ c ∈ a.data, jsWhitespace c = false := by
  intro a ha
  unfold tokens at ha
  obtain ⟨piece, hp, rfl⟩ := List.mem_map.1 ha
  obtain ⟨hmem, hne⟩ := List.mem_filter.1 hp
  constructor
  · intro h
    have : piece = [] := by
      have := congrArg String.data h
      simpa using this
    subst this
    simp at hne
  · exact go_pieces_clean s.data [] (fun _ h => nomatch h) piece hmem

theorem messageCreate_trace (strict : Bool) (configured : Option String) (reg : Registry)
    (w : World) (m : TextMessage) :
    (exec strict (messageCreate.execute configured reg m) w).trace =
      w.trace ++
        (if m.bot = true then []
         else
          .log .info s!"{messageCreate.location m} {m.tag}: {m.content}" none ::
            (if jsStartsWith m.content (orElseStr configured "!") = true then
              match reg.get (jsToLowerCase
                ((tokens (jsSlice m.content (orElseStr configured "!").length)).headD "")) with
              | none =>
                [.messageReply m.id w.nextMessage (unknownCommand
                  ((tokens (jsSlice m.content (orElseStr configured "!").length)).headD ""))]
              | some _ => []
             else [])) := by
  by_cases hb : m.bot = true
  · simp [messageCreate.execute, hb, exec]
  · by_cases hs : jsStartsWith m.content (orElseStr configured "!") = true
    · cases hr : reg.get (jsToLowerCase
        ((tokens (jsSlice m.content (orElseStr configured "!").length)).headD "")) with
      | none =>
        have hr1 := hr
        simp only [List.headD_eq_head?_getD] at hr1
        simp [messageCreate.execute, hb, hs, hr1, parse_tokens, logLine, perform, await,
          defined, exec, applyOp, applyCall, Bind.bind, Prog.bind, Pure.pure, World.emit,
          Cmd.executeText]
      | some cmd =>
        have hr1 := hr
        simp only [List.headD_eq_head?_getD] at hr1
        simp [messageCreate.execute, hb, hs, hr1, parse_tokens, logLine, perform, await,
          defined, exec, applyOp, applyCall, Bind.bind, Prog.bind, Pure.pure, World.emit,
          Cmd.executeText]
    · simp [messageCreate.execute, hb, hs, logLine, perform, exec, applyOp, Bind.bind,
        Prog.bind, Pure.pure, World.emit]

/-! ## The deadline of the /inventory collector -/

theorem arms_time (cmd : Cmd) (i : Interaction) (t : Nat) (s : Site)
    (h : Arms (cmd.execute i) t s) (hs : s.isInventory = true) : t = 120000 := by
  cases cmd with
  | combat =>
    obtain ⟨-, m, b, rfl⟩ := arms_combat i t s h
    cases hs
  | explore =>
    obtain ⟨-, m, b, rfl⟩ := arms_explore i t s h
    cases hs
  | barter =>
    obtain ⟨-, rfl⟩ := arms_barter i t s h
    cases hs
  | story =>
    obtain ⟨-, m, rfl⟩ := arms_story i t s h
    cases hs
  | rollPower =>
    obtain ⟨-, rfl⟩ := arms_roll i t s h
    cases hs
  | inventory => exact (arms_inventory i t s h).1
  | trade =>
    obtain ⟨-, o, ho, rfl⟩ := arms_trade i t s h
    cases hs
  | balance => exact absurd h (arms_balance _ _ _)
  | forge => exact absurd h (arms_forge _ _ _)
  | help => exact absurd h (arms_help _ _ _)
  | preview => exact absurd h (arms_preview _ _ _)
  | shop => exact absurd h (arms_shop _ _ _)
  | start => exact absurd h (arms_start _ _ _)
  | stats => exact absurd h (arms_stats _ _ _)

theorem stops_combat (i : Interaction) (x : Nat) : ¬ Performs (combat.execute i) (.stop x) := by
  intro h
  simp [combat.execute] at h
  obtain ⟨a, -, h⟩ := h
  cases a <;> simp at h

theorem stops_explore (i : Interaction) (x : Nat) : ¬ Performs (explore.execute i) (.stop x) := by
  intro h
  simp [explore.execute] at h
  obtain ⟨a, -, h⟩ := h
  cases a <;> simp at h

theorem stops_barter (i : Interaction) (x : Nat) : ¬ Performs (barter.execute i) (.stop x) := by
  intro h
  simp [barter.execute] at h
  obtain ⟨a, -, h⟩ := h
  cases a <;> simp at h

theorem stops_story (i : Interaction) (x : Nat) : ¬ Performs (narrative.execute i) (.stop x) := by
  intro h
  simp [narrative.execute] at h
  obtain ⟨a, -, h⟩ := h
  cases a <;> simp at h

theorem stops_roll (i : Interaction) (x : Nat) : ¬ Performs (roll.execute i) (.stop x) := by
  intro h
  simp [roll.execute] at h

theorem stops_inventory (i : Interaction) (x : Nat) :
    ¬ Performs (inventory.execute i) (.stop x) := by
  intro h
  simp [inventory.execute, inventory.showPage] at h

theorem stops_trade (i : Interaction) (x : Nat) : ¬ Performs (trade.execute i) (.stop x) := by
  intro h
  simp [trade.execute] at h
  obtain ⟨o, -, a, -, h⟩ := h
  cases a <;> simp at h

theorem stops_balance (i : Interaction) (x : Nat) : ¬ Performs (balance.execute i) (.stop x) := by
  intro h
  simp [balance.execute, balance.progress] at h
  obtain ⟨a, d, -, -, h⟩ := h
  split at h <;> simp at h

theorem stops_start (i : Interaction) (x : Nat) : ¬ Performs (start.execute i) (.stop x) := by
  intro h
  simp [start.execute] at h

theorem stops_stats (i : Interaction) (x : Nat) : ¬ Performs (stats.execute i) (.stop x) := by
  intro h
  simp [stats.execute] at h
  obtain ⟨a, -, h⟩ := h
  cases a <;> simp at h

theorem stops_preview (i : Interaction) (x : Nat) : ¬ Performs (preview.execute i) (.stop x) := by
  intro h
  simp [preview.execute] at h
  obtain ⟨o, -, a, -, h⟩ := h
  cases a <;> simp at h

theorem stops_shop (i : Interaction) (x : Nat) : ¬ Performs (shop.execute i) (.stop x) := by
  intro h
  simp [shop.execute] at h
  obtain ⟨o, -, h⟩ := h
  rcases h with ⟨-, a, h⟩ | ⟨-, -, a, -, h⟩
  · split at h <;> simp at h
  · cases a <;> simp at h

theorem stops_forge (i : Interaction) (x : Nat) : ¬ Performs (forge.execute i) (.stop x) := by
  intro h
  simp [forge.execute, getTextInputValue] at h
  obtain ⟨-, -, a, -, h⟩ := h
  cases a <;> simp at h

theorem stops_help (i : Interaction) (x : Nat) : ¬ Performs (help.execute i) (.stop x) := by
  intro h
  simp [help.execute] at h

theorem stops_execute (cmd : Cmd) (i : Interaction) (x : Nat) :
    ¬ Performs (cmd.execute i) (.stop x) := by
  cases cmd with
  | combat => exact stops_combat i x
  | explore => exact stops_explore i x
  | barter => exact stops_barter i x
  | story => exact stops_story i x
  | rollPower => exact stops_roll i x
  | inventory => exact stops_inventory i x
  | trade => exact stops_trade i x
  | balance => exact stops_balance i x
  | forge => exact stops_forge i x
  | help => exact stops_help i x
  | preview => exact stops_preview i x
  | shop => exact stops_shop i x
  | start => exact stops_start i x
  | stats => exact stops_stats i x

theorem execute_allows (w : World) (cmd : Cmd) (i : Interaction) (o : Op)
    (h : Performs (cmd.execute i) o) : w.allows o := by
  cases o with
  | stop x => exact absurd h (stops_execute cmd i x)
  | createCollector m t s => exact fun hs => arms_time cmd i t s ⟨m, h⟩ hs
  | platform c => trivial
  | ackState j => trivial
  | setPage c page => trivial
  | log level text err => trivial

theorem onError_allows (w : World) (i : Interaction) (e : Err) (o : Op)
    (h : Performs (interactionCreate.onError i e) o) : w.allows o := by
  simp [interactionCreate.onError, throws_bind] at h
  cases o with
  | stop x => simp at h
  | createCollector m t s => simp at h
  | platform c => trivial
  | ackState j => trivial
  | setPage c page => simp at h
  | log level text err => trivial

theorem router_ops (reg : Registry) (i : Interaction) (o : Op)
    (h : Performs (interactionCreate.execute reg i) o) :
    (∃ cmd : Cmd, Performs (cmd.execute i) o) ∨
      (∃ e, Performs (interactionCreate.onError i e) o) ∨
      ∃ text, o = .log .warn text none := by
  by_cases hk : i.kind = .chatInput
  · cases hreg : reg.get i.commandName with
    | none =>
      simp [interactionCreate.execute, hk, hreg, logLine, throws_bind] at h
      rcases h with (h | h) | ⟨a, -, h⟩
      · exact Or.inr (Or.inr ⟨_, h⟩)
      · exact Or.inr (Or.inl h)
      · cases a <;> simp at h
    | some cmd =>
      rcases (execute_performs reg i cmd o (Or.inl ⟨hk, hreg⟩)).1 h with h | ⟨e, -, h⟩
      · exact Or.inl ⟨cmd, h⟩
      · exact Or.inr (Or.inl ⟨e, h⟩)
  · by_cases hc : i.kind = .button ∨ i.kind = .selectMenu ∨ i.kind = .modalSubmit
    · cases hreg : reg.get ((jsSplit i.customId '_').getD 0 "") with
      | none =>
        have hreg1 : reg.get ((jsSplit i.customId '_')[0]?.getD "") = none := by
          simpa using hreg
        simp [interactionCreate.execute, hk, hc, hreg1, logLine, throws_bind] at h
        rcases h with (h | h) | ⟨a, -, h⟩
        · exact Or.inr (Or.inr ⟨_, h⟩)
        · exact Or.inr (Or.inl h)
        · cases a <;> simp at h
      | some cmd =>
        rcases (execute_performs reg i cmd o (Or.inr ⟨hc, hreg⟩)).1 h with h | ⟨e, -, h⟩
        · exact Or.inl ⟨cmd, h⟩
        · exact Or.inr (Or.inl ⟨e, h⟩)
    · simp [interactionCreate.execute, hk, hc, throws_bind] at h
      obtain ⟨a, -, h⟩ := h
      cases a <;> simp at h

theorem router_allows (w : World) (reg : Registry) (i : Interaction) (o : Op)
    (h : Performs (interactionCreate.execute reg i) o) : w.allows o := by
  rcases router_ops reg i o h with ⟨cmd, h⟩ | ⟨e, h⟩ | ⟨text, rfl⟩
  · exact execute_allows w cmd i o h
  · exact onError_allows w i e o h
  · trivial



theorem collect_stops (reg : Registry) (col : Collector) (i : Interaction) (x : Nat)
    (h : Performs (collectHandler reg col i) (.stop x)) :
    x = col.id ∧ col.site.isInventory = false := by
  unfold collectHandler at h
  cases hs : col.site with
  | combat interaction m b =>
    simp [hs, combat.collect, stopCollector, stops_combat] at h
    exact ⟨h.2.2, rfl⟩
  | explore interaction m b =>
    simp [hs, explore.collect, stopCollector, stops_explore] at h
    refine ⟨?_, rfl⟩
    rcases h with ⟨-, h⟩ | ⟨-, -, h | ⟨-, h⟩⟩
    · exact h
    · exact h
    · cases hreg : reg.get "barter" with
      | none => simp [hreg] at h
      | some cmd =>
        simp only [hreg] at h
        exact absurd h (stops_execute cmd interaction x)
  | barter interaction =>
    simp [hs, barter.collect, stopCollector, throws_bind] at h
    refine ⟨?_, rfl⟩
    rcases h with ⟨-, h⟩ | ⟨-, -, -, h⟩
    · exact h
    · exact h
  | story interaction m =>
    simp [hs, narrative.collect, stopCollector, throws_bind] at h
    exact ⟨h.2, rfl⟩
  | roll interaction row =>
    simp [hs, roll.collect, stopCollector, throws_bind] at h
    refine ⟨?_, rfl⟩
    rcases h with ⟨-, h⟩ | ⟨-, -, h⟩
    · exact h
    · exact h
  | inventory interaction m =>
    simp [hs, inventory.collect, inventory.showPage, throws_bind] at h
  | trade interaction toUser =>
    simp [hs, trade.collect, stopCollector] at h
    refine ⟨?_, rfl⟩
    obtain ⟨a, a1, -, h⟩ := h
    rcases h with ⟨-, h⟩ | ⟨-, h⟩
    · exact h
    · exact h

theorem collect_arms (reg : Registry) (col : Collector) (i : Interaction) (m t : Nat) (s : Site)
    (h : Performs (collectHandler reg col i) (.createCollector m t s)) :
    ∃ (cmd : Cmd) (j : Interaction), Performs (cmd.execute j) (.createCollector m t s) := by
  unfold collectHandler at h
  cases hs : col.site with
  | combat interaction m b =>
    simp [hs, combat.collect, stopCollector] at h
    exact ⟨.combat, interaction, h.2⟩
  | explore interaction m b =>
    simp [hs, explore.collect, stopCollector] at h
    rcases h with ⟨-, -, h⟩ | ⟨-, -, -, h⟩
    · exact ⟨.explore, interaction, h⟩
    · cases hreg : reg.get "barter" with
      | none => simp [hreg] at h
      | some cmd =>
        simp only [hreg] at h
        exact ⟨cmd, interaction, h⟩
  | barter interaction =>
    simp [hs, barter.collect, stopCollector, throws_bind] at h
  | story interaction m =>
    simp [hs, narrative.collect, stopCollector, throws_bind] at h
  | roll interaction row =>
    simp [hs, roll.collect, stopCollector, throws_bind] at h
  | inventory interaction m =>
    simp [hs, inventory.collect, inventory.showPage, throws_bind] at h
  | trade interaction toUser =>
    simp [hs, trade.collect, stopCollector] at h

theorem collect_allows (w : World) (reg : Registry) (col : Collector) (i : Interaction) (o : Op)
    (hcol : w.collector col.id = some col) (h : Performs (collectHandler reg col i) o) :
    w.allows o := by
  cases o with
  | stop x =>
    obtain ⟨rfl, hs⟩ := collect_stops reg col i x h
    exact ⟨col, hcol, hs⟩
  | createCollector m t s =>
    obtain ⟨cmd, j, h1⟩ := collect_arms reg col i m t s h
    exact fun hs => arms_time cmd j t s ⟨m, h1⟩ hs
  | platform c => trivial
  | ackState j => trivial
  | setPage c page => trivial
  | log level text err => trivial

theorem keeps_self {w : World} {c : Nat} {x : Collector} (h : w.collector c = some x) :
    w.keeps c x := ⟨x, h, later_refl x⟩

theorem allows_mono {w w1 : World} (hk : ∀ c x, w.keeps c x → w1.keeps c x) {o : Op}
    (h : w.allows o) : w1.allows o := by
  cases o with
  | stop c =>
    obtain ⟨col, hcol, hs⟩ := h
    obtain ⟨y, hy, hl⟩ := hk c col (keeps_self hcol)
    exact ⟨y, hy, by rw [hl.2.2.2.2.1]; exact hs⟩
  | createCollector m t s => exact h
  | platform c => trivial
  | ackState j => trivial
  | setPage c page => trivial
  | log level text err => trivial

theorem quiet_mono {w w1 : World} (hp : ∀ task ∈ w1.pending, task ∈ w.pending)
    (hk : ∀ c x, w.keeps c x → w1.keeps c x) (h : w.quiet) : w1.quiet :=
  fun task ht r o ho => allows_mono hk (h task (hp task ht) r o ho)

theorem distinct_frame {w w1 : World} (hc : w1.collectors = w.collectors)
    (hx : w1.nextCollector = w.nextCollector) (h : w.distinct) : w1.distinct := by
  unfold World.distinct World.collector at *
  rw [hc, hx]
  exact h

theorem timedBut_frame {w w1 : World} (hc : w1.collectors = w.collectors)
    (hn : w1.now = w.now) {due : List Nat} (h : w.timedBut due) : w1.timedBut due := by
  unfold World.timedBut at *
  rw [hc, hn]
  exact h

theorem ensureReply_frame (w : World) (i : Interaction) :
    (w.ensureReply i).1.now = w.now ∧ (w.ensureReply i).1.pending = w.pending ∧
      (w.ensureReply i).1.nextCollector = w.nextCollector := by
  unfold World.ensureReply
  split <;> exact ⟨rfl, rfl, rfl⟩

theorem bindSource_frame (w : World) (i : Interaction) :
    (w.bindSource i).now = w.now ∧ (w.bindSource i).pending = w.pending ∧
      (w.bindSource i).nextCollector = w.nextCollector := by
  unfold World.bindSource
  split <;> exact ⟨rfl, rfl, rfl⟩

theorem applyCall_frame (strict : Bool) (w : World) (c : Call) :
    (applyCall strict w c).1.now = w.now ∧ (applyCall strict w c).1.pending = w.pending ∧
      (applyCall strict w c).1.nextCollector = w.nextCollector := by
  cases c <;> simp only [applyCall] <;> repeat' split
  all_goals
    simp [World.emit, World.patch, ensureReply_frame, bindSource_frame]

theorem runCalls_frame (strict : Bool) (cs : List Call) (w : World) :
    (runCalls strict cs w).now = w.now ∧ (runCalls strict cs w).pending = w.pending ∧
      (runCalls strict cs w).nextCollector = w.nextCollector := by
  induction cs generalizing w with
  | nil => exact ⟨rfl, rfl, rfl⟩
  | cons c cs ih =>
    simp only [runCalls]
    have h := applyCall_frame strict w c
    split
    · rename_i w1 _ heq
      rw [heq] at h
      obtain ⟨h1, h2, h3⟩ := ih w1
      exact ⟨h1.trans h.1, h2.trans h.2.1, h3.trans h.2.2⟩
    · rename_i w1 _ heq
      rw [heq] at h
      exact h

theorem setCollector_distinct {w : World} {c : Nat} {col col1 : Collector} (hd : w.distinct)
    (hcol : w.collector c = some col) (hid : col1.id = c) : (w.setCollector col1).distinct := by
  constructor
  · intro y hy
    simp only [World.setCollector, List.mem_map] at hy
    obtain ⟨z, hz, rfl⟩ := hy
    rw [collector_setCollector]
    by_cases hzc : z.id = col1.id
    · simp [hzc, hid, hcol]
    · have hne : (z.id == col1.id) = false := beq_eq_false_iff_ne.2 hzc
      simp only [hne, Bool.false_eq_true, if_false, hzc]
      exact hd.1 z hz
  · intro y hy
    simp only [World.setCollector, List.mem_map] at hy
    obtain ⟨z, hz, rfl⟩ := hy
    show _ < w.nextCollector
    by_cases hzc : z.id = col1.id
    · simp only [hzc, beq_self_eq_true, if_true]
      rw [← hzc]
      exact hd.2 z hz
    · have hne : (z.id == col1.id) = false := beq_eq_false_iff_ne.2 hzc
      simp only [hne, Bool.false_eq_true, if_false]
      exact hd.2 z hz

theorem setCollector_timedBut {w : World} {c : Nat} {x y : Collector} {d e : List Nat}
    (ht : w.timedBut d) (hcol : w.collector c = some x) (hid : y.id = c)
    (hsite : y.site = x.site) (htime : y.time = x.time)
    (hcreated : y.createdAt = x.createdAt)
    (hend : x.site.isInventory = true →
      (y.ended = true → x.createdAt + 120000 ≤ w.now) ∧
        (y.ended = false → x.createdAt + 120000 ≤ w.now → c ∈ e))
    (hsub : ∀ k ∈ d, k = c ∨ k ∈ e) (hsup : ∀ k ∈ e, k ∈ d) :
    (w.setCollector y).timedBut e := by
  intro y1 hy hs
  simp only [World.setCollector, List.mem_map] at hy
  obtain ⟨z, hz, rfl⟩ := hy
  show _ ∧ (_ → _ ≤ w.now) ∧ (_ → _ ≤ w.now → _) ∧ (_ → _ ≤ w.now)
  have hmem : x ∈ w.collectors := List.mem_of_find?_eq_some hcol
  by_cases hzc : (z.id == y.id) = true
  · simp only [hzc, if_true] at hs ⊢
    rw [hsite] at hs
    rw [htime, hcreated, hid]
    have hcid := collector_id w c x hcol
    refine ⟨(ht x hmem hs).1, (hend hs).1, (hend hs).2, fun hd => ?_⟩
    exact (ht x hmem hs).2.2.2 (by rw [hcid]; exact hsup c hd)
  · simp only [hzc, if_false] at hs ⊢
    obtain ⟨h1, h2, h3, h4⟩ := ht z hz hs
    refine ⟨h1, h2, fun he hdl => ?_, fun hd => h4 (hsup _ hd)⟩
    rcases hsub _ (h3 he hdl) with h | h
    · exact absurd (by rw [h, hid]; exact beq_self_eq_true c) hzc
    · exact h

theorem endCollector_frame (strict : Bool) (w : World) (c : Nat) :
    (endCollector strict w c).now = w.now ∧ (endCollector strict w c).pending = w.pending ∧
      (endCollector strict w c).nextCollector = w.nextCollector := by
  unfold endCollector
  split
  · exact ⟨rfl, rfl, rfl⟩
  · split
    · exact ⟨rfl, rfl, rfl⟩
    · split
      · exact runCalls_frame strict _ _
      · exact ⟨rfl, rfl, rfl⟩

theorem endCollector_distinct (strict : Bool) {w : World} (hd : w.distinct) (c : Nat) :
    (endCollector strict w c).distinct := by
  unfold endCollector
  split
  · exact hd
  · rename_i col hcol
    split
    · exact hd
    · have h1 : (w.setCollector { col with ended := true }).distinct :=
        setCollector_distinct hd hcol (collector_id w c col hcol)
      split
      · exact distinct_frame (by rw [runCalls_collectors]; rfl)
          (by rw [(runCalls_frame strict _ _).2.2]; rfl) h1
      · exact distinct_frame rfl rfl h1

theorem endCollector_timedBut (strict : Bool) {w : World} {due due1 : List Nat}
    (hd : w.distinct) (ht : w.timedBut due) (c : Nat)
    (hc : ∀ col, w.collector c = some col → col.site.isInventory = true → c ∈ due)
    (hsub : ∀ d ∈ due, d = c ∨ d ∈ due1) (hsup : ∀ d ∈ due1, d ∈ due) :
    (endCollector strict w c).timedBut due1 := by
  have hweak : (∀ y ∈ w.collectors, y.id = c → y.ended = true) → w.timedBut due1 := by
    intro hne y hy hs
    obtain ⟨h1, h2, h3, h4⟩ := ht y hy hs
    refine ⟨h1, h2, fun he hdl => ?_, fun hd1 => h4 (hsup _ hd1)⟩
    rcases hsub _ (h3 he hdl) with h | h
    · rw [hne y hy h] at he
      cases he
    · exact h
  unfold endCollector
  split
  · rename_i hnone
    apply hweak
    intro y hy hyc
    have := hd.1 y hy
    rw [hyc, hnone] at this
    cases this
  · rename_i col hcol
    split
    · rename_i hended
      apply hweak
      intro y hy hyc
      have := hd.1 y hy
      rw [hyc, hcol] at this
      cases this
      exact hended
    · have h1 : (w.setCollector { col with ended := true }).timedBut due1 := by
        refine setCollector_timedBut (y := { col with ended := true }) ht hcol
          (collector_id w c col hcol) rfl rfl rfl ?_ hsub hsup
        intro hs
        refine ⟨fun _ => ?_, fun h => by cases h⟩
        have hmem : col ∈ w.collectors := List.mem_of_find?_eq_some hcol
        have hcid := collector_id w c col hcol
        exact (ht col hmem hs).2.2.2 (by rw [hcid]; exact hc col hcol hs)
      split
      · exact timedBut_frame (by rw [runCalls_collectors]; rfl)
          (by rw [(runCalls_frame strict _ _).1]; rfl) h1
      · exact timedBut_frame rfl rfl h1

theorem endCollector_quiet (strict : Bool) {w : World} (hq : w.quiet) (c : Nat) :
    (endCollector strict w c).quiet :=
  quiet_mono (fun task h => by rw [(endCollector_frame strict w c).2.1] at h; exact h)
    (fun _ _ hk => endCollector_keeps strict hk c) hq

theorem applyOp_pending (strict : Bool) (w : World) (op : Op) :
    (applyOp strict w op).1.pending = w.pending := by
  cases op with
  | platform call => exact (applyCall_frame strict w call).2.1
  | ackState i => rfl
  | createCollector m time site => rfl
  | stop c => exact (endCollector_frame strict w c).2.1
  | setPage c page =>
    simp only [applyOp]
    split <;> rfl
  | log level text err => rfl

theorem applyOp_quiet (strict : Bool) {w : World} (hq : w.quiet) (op : Op) :
    (applyOp strict w op).1.quiet :=
  quiet_mono (fun task h => by rw [applyOp_pending] at h; exact h)
    (fun _ _ hk => applyOp_keeps strict hk op) hq

theorem applyOp_distinct (strict : Bool) {w : World} (hd : w.distinct) (op : Op) :
    (applyOp strict w op).1.distinct := by
  cases op with
  | platform call =>
    exact distinct_frame (applyCall_collectors strict w call) (applyCall_frame strict w call).2.2 hd
  | ackState i => exact hd
  | createCollector m time site =>
    constructor
    · intro y hy
      simp only [applyOp, World.emit, List.mem_append, List.mem_singleton] at hy
      simp only [applyOp, World.emit, World.collector, List.find?_append]
      rcases hy with hy | rfl
      · have := hd.1 y hy
        simp only [World.collector] at this
        simp [this]
      · have hnone : w.collectors.find? (fun x => x.id == w.nextCollector) = none := by
          rw [List.find?_eq_none]
          intro x hx
          have := hd.2 x hx
          simp
          omega
        simp [hnone]
    · intro y hy
      simp only [applyOp, World.emit, List.mem_append, List.mem_singleton] at hy
      show y.id < w.nextCollector + 1
      rcases hy with hy | rfl
      · exact Nat.lt_succ_of_lt (hd.2 y hy)
      · exact Nat.lt_succ_self _
  | stop c => exact endCollector_distinct strict hd c
  | setPage c page =>
    simp only [applyOp]
    split
    · rename_i col hcol
      exact setCollector_distinct hd hcol (collector_id w c col hcol)
    · exact hd
  | log level text err => exact hd

theorem applyOp_timed (strict : Bool) {w : World} (hd : w.distinct) (ht : w.timed) (op : Op)
    (ha : w.allows op) : (applyOp strict w op).1.timed := by
  cases op with
  | platform call =>
    exact timedBut_frame (applyCall_collectors strict w call) (applyCall_frame strict w call).1 ht
  | ackState i => exact ht
  | createCollector m time site =>
    intro y hy hs
    simp only [applyOp, World.emit, List.mem_append, List.mem_singleton] at hy
    show _ ∧ (_ → _ ≤ w.now) ∧ (_ → _ ≤ w.now → _) ∧ (_ → _ ≤ w.now)
    rcases hy with hy | rfl
    · exact ht y hy hs
    · refine ⟨ha hs, ?_, ?_, ?_⟩
      · intro h
        cases h
      · intro _ h
        simp at h
      · intro h
        cases h
  | stop c =>
    obtain ⟨col, hcol, hs⟩ := ha
    refine endCollector_timedBut strict hd ht c (fun col1 hcol1 hs1 => ?_)
      (fun d h => by cases h) (fun d h => h)
    rw [hcol] at hcol1
    cases hcol1
    rw [hs] at hs1
    cases hs1
  | setPage c page =>
    simp only [applyOp]
    split
    · rename_i col hcol
      have hmem : col ∈ w.collectors := List.mem_of_find?_eq_some hcol
      refine setCollector_timedBut (y := { col with page := page }) ht hcol
        (collector_id w c col hcol) rfl rfl rfl (fun hs => ?_) (fun d h => by cases h)
        (fun d h => h)
      have hcid := collector_id w c col hcol
      obtain ⟨-, h2, h3, -⟩ := ht col hmem hs
      exact ⟨h2, fun he hdl => by rw [← hcid]; exact h3 he hdl⟩
    · exact ht
  | log level text err => exact ht

theorem exec_inv (strict : Bool) (p : Prog Unit) {w : World} (hd : w.distinct) (hq : w.quiet)
    (ht : w.timed) (hp : ∀ o, Performs p o → w.allows o) :
    (exec strict p w).distinct ∧ (exec strict p w).quiet ∧ (exec strict p w).timed := by
  induction p generalizing w with
  | pure a => exact ⟨hd, hq, ht⟩
  | throw e =>
    exact ⟨distinct_frame rfl rfl hd,
      quiet_mono (w := w) (fun _ h => h) (fun _ _ hk => keeps_of_collectors rfl hk) hq,
      timedBut_frame rfl rfl ht⟩
  | http req k _ =>
    refine ⟨distinct_frame rfl rfl hd, ?_, timedBut_frame rfl rfl ht⟩
    intro task hmem r o ho
    simp only [exec, World.emit, List.mem_append, List.mem_singleton] at hmem
    have hmono : ∀ {o}, w.allows o → World.allows (exec strict (.http req k) w) o :=
      fun h => allows_mono (fun _ _ hk => keeps_of_collectors rfl hk) h
    rcases hmem with hmem | rfl
    · exact hmono (hq task hmem r o ho)
    · exact hmono (hp o (.http _ _ r _ ho))
  | call op k ih =>
    simp only [exec]
    exact ih _ (applyOp_distinct strict hd op) (applyOp_quiet strict hq op)
      (applyOp_timed strict hd ht op (hp op (.here _ _)))
      (fun o ho => allows_mono (fun _ _ hk => applyOp_keeps strict hk op)
        (hp o (.call _ _ _ _ ho)))

theorem handleCollect_inv (strict : Bool) (reg : Registry) (i : Interaction) {w : World}
    (h : w.distinct ∧ w.quiet ∧ w.timed) (c : Nat) :
    (handleCollect strict reg i w c).distinct ∧ (handleCollect strict reg i w c).quiet ∧
      (handleCollect strict reg i w c).timed := by
  obtain ⟨hd, hq, ht⟩ := h
  unfold handleCollect
  split
  · exact ⟨hd, hq, ht⟩
  · rename_i col hcol
    split
    · have hid := collector_id w c col hcol
      have hmem : col ∈ w.collectors := List.mem_of_find?_eq_some hcol
      have hlook : ∀ (col1 : Collector), col1.id = c →
          (((w.setCollector col1).settleOthers i).emit (.collected c i.id)).collector col1.id =
            some col1 := by
        intro col1 h1
        show (w.setCollector col1).collector col1.id = some col1
        rw [collector_setCollector]
        simp [h1, hcol]
      apply exec_inv
      · exact distinct_frame rfl rfl (setCollector_distinct hd hcol hid)
      · exact quiet_mono (w := w) (fun _ h => h)
          (fun _ _ hk => keeps_of_collectors rfl
            (keeps_setCollector col hk (by simpa [hid] using hcol)
              ⟨rfl, rfl, rfl, rfl, rfl, id⟩)) hq
      · refine timedBut_frame rfl rfl
          (setCollector_timedBut (e := []) ht hcol hid rfl rfl rfl (fun hs => ?_)
            (fun d h => by cases h) (fun d h => h))
        obtain ⟨-, h2, h3, -⟩ := ht col hmem hs
        exact ⟨h2, fun he hdl => by rw [← hid]; exact h3 he hdl⟩
      · intro o ho
        exact collect_allows _ reg _ i o (hlook _ hid) ho
    · exact ⟨hd, hq, ht⟩

theorem foldl_inv {f : World → Nat → World}
    (hf : ∀ w c, w.distinct ∧ w.quiet ∧ w.timed →
      (f w c).distinct ∧ (f w c).quiet ∧ (f w c).timed)
    (l : List Nat) {w : World} (h : w.distinct ∧ w.quiet ∧ w.timed) :
    (l.foldl f w).distinct ∧ (l.foldl f w).quiet ∧ (l.foldl f w).timed := by
  induction l generalizing w with
  | nil => exact h
  | cons a l ih => exact ih (hf w a h)

theorem foldl_end_inv (strict : Bool) (due : List Nat) {w : World}
    (h : w.distinct ∧ w.quiet ∧ w.timedBut due) :
    (due.foldl (endCollector strict) w).distinct ∧ (due.foldl (endCollector strict) w).quiet ∧
      (due.foldl (endCollector strict) w).timed := by
  induction due generalizing w with
  | nil => exact h
  | cons c rest ih =>
    obtain ⟨hd, hq, ht⟩ := h
    rw [List.foldl_cons]
    by_cases hc : c ∈ rest
    · exact ih ⟨endCollector_distinct strict hd c, endCollector_quiet strict hq c,
        endCollector_timedBut strict hd ht c (fun _ _ _ => List.mem_cons_self _ _)
          (fun d hdm => by
            rcases List.mem_cons.1 hdm with h | h
            · exact Or.inr (h ▸ hc)
            · exact Or.inr h)
          (fun d hdm => List.mem_cons_of_mem _ hdm)⟩
    · exact ih ⟨endCollector_distinct strict hd c, endCollector_quiet strict hq c,
        endCollector_timedBut strict hd ht c (fun _ _ _ => List.mem_cons_self _ _)
          (fun d hdm => by
            rcases List.mem_cons.1 hdm with h | h
            · exact Or.inl h
            · exact Or.inr h)
          (fun d hdm => List.mem_cons_of_mem _ hdm)⟩

theorem step_inv (strict : Bool) (reg : Registry) {w : World}
    (h : w.distinct ∧ w.quiet ∧ w.timed) (e : Event) :
    (step strict reg w e).distinct ∧ (step strict reg w e).quiet ∧
      (step strict reg w e).timed := by
  obtain ⟨hd, hq, ht⟩ := h
  cases e with
  | interaction i =>
    exact foldl_inv (fun w c h => handleCollect_inv strict reg i h c) _
      (exec_inv strict _ hd hq ht (fun o ho => router_allows w reg i o ho))
  | response t r =>
    simp only [step]
    split
    · exact ⟨hd, hq, ht⟩
    · rename_i task htask
      have hmem : task ∈ w.pending := List.mem_of_find?_eq_some htask
      apply exec_inv
      · exact distinct_frame rfl rfl hd
      · exact quiet_mono (w := w) (fun x hx => (List.mem_filter.1 hx).1)
          (fun _ _ hk => keeps_of_collectors rfl hk) hq
      · exact timedBut_frame rfl rfl ht
      · intro o ho
        exact allows_mono (fun _ _ hk => keeps_of_collectors rfl hk) (hq task hmem r o ho)
  | tick t =>
    simp only [step]
    apply foldl_end_inv
    refine ⟨distinct_frame rfl rfl hd,
      quiet_mono (w := w) (fun _ h => h) (fun _ _ hk => keeps_of_collectors rfl hk) hq, ?_⟩
    intro col hcol hs
    obtain ⟨h1, h2, h3, -⟩ := ht col hcol hs
    show _ ∧ (_ → _ ≤ max w.now t) ∧ (_ → _ ≤ max w.now t → _) ∧ (_ → _ ≤ max w.now t)
    refine ⟨h1, fun he => le_trans (h2 he) (le_max_left _ _), fun he hdl => ?_, fun hin => ?_⟩
    · refine List.mem_map.2 ⟨col, List.mem_filter.2 ⟨hcol, ?_⟩, rfl⟩
      simp only [Collector.due, he, h1, Bool.not_false, Bool.true_and, decide_eq_true_eq]
      exact hdl
    · obtain ⟨x, hx, hxid⟩ := List.mem_map.1 hin
      obtain ⟨hxmem, hxdue⟩ := List.mem_filter.1 hx
      have hx1 := hd.1 x hxmem
      have hc1 := hd.1 col hcol
      rw [hxid, hc1] at hx1
      cases hx1
      simp only [Collector.due, h1, Bool.and_eq_true, decide_eq_true_eq] at hxdue
      exact hxdue.2

theorem run_inv (strict : Bool) (reg : Registry) (es : List Event) {w : World}
    (h : w.distinct ∧ w.quiet ∧ w.timed) :
    (run strict reg w es).distinct ∧ (run strict reg w es).quiet ∧
      (run strict reg w es).timed := by
  induction es generalizing w with
  | nil => exact h
  | cons e es ih => exact ih (step_inv strict reg h e)

theorem initial_inv : (({} : World)).distinct ∧ (({} : World)).quiet ∧ (({} : World)).timed := by
  refine ⟨⟨?_, ?_⟩, ?_, ?_⟩
  · intro col h
    cases h
  · intro col h
    cases h
  · intro task h
    cases h
  · intro col h
    cases h

theorem run_append (strict : Bool) (reg : Registry) (w : World) (a b : List Event) :
    run strict reg w (a ++ b) = run strict reg (run strict reg w a) b := by
  simp [run, List.foldl_append]

/-! ## What a run does with its interaction -/

@[simp] theorem obeys_bind {α β : Type} (router : Bool) (γ : Run) (p : Prog α) (f : α → Prog β)
    (post : β → Run → Prop) (fail : Err → Run → Prop) :
    Obeys router γ (p >>= f) post fail ↔
      Obeys router γ p (fun a γ1 => Obeys router γ1 (f a) post fail) fail := by
  show Obeys router γ (p.bind f) post fail ↔ _
  induction p generalizing γ with
  | pure a => simp only [Prog.bind, Obeys]
  | throw e => simp only [Prog.bind, Obeys]
  | http req k ih =>
    simp only [Prog.bind, Obeys]
    exact and_congr_right (fun _ => forall_congr' (fun r => ih r γ))
  | call op k ih =>
    simp only [Prog.bind, Obeys]
    exact and_congr_right (fun _ => forall_congr' (fun r => ih r _))

@[simp] theorem obeys_tryCatch {α : Type} (router : Bool) (γ : Run) (p : Prog α)
    (h : Err → Prog α) (post : α → Run → Prop) (fail : Err → Run → Prop) :
    Obeys router γ (tryCatch p h) post fail ↔
      Obeys router γ p post (fun e γ1 => Obeys router γ1 (h e) post fail) := by
  show Obeys router γ (p.tryCatch h) post fail ↔ _
  induction p generalizing γ with
  | pure a => simp only [Prog.tryCatch, Obeys]
  | throw e => simp only [Prog.tryCatch, Obeys]
  | http req k ih =>
    simp only [Prog.tryCatch, Obeys]
    exact and_congr_right (fun _ => forall_congr' (fun r => ih r γ))
  | call op k ih =>
    simp only [Prog.tryCatch, Obeys]
    exact and_congr_right (fun _ => forall_congr' (fun r => ih r _))

@[simp] theorem obeys_pure {α : Type} (router : Bool) (γ : Run) (a : α)
    (post : α → Run → Prop) (fail : Err → Run → Prop) :
    Obeys router γ (pure a : Prog α) post fail ↔ post a γ :=
  Iff.rfl

@[simp] theorem obeys_throw {α : Type} (router : Bool) (γ : Run) (e : Err)
    (post : α → Run → Prop) (fail : Err → Run → Prop) :
    Obeys router γ (throw e : Prog α) post fail ↔ fail e γ :=
  Iff.rfl

theorem obeys_mono {α : Type} (router : Bool) (γ : Run) (p : Prog α)
    {post post1 : α → Run → Prop} {fail fail1 : Err → Run → Prop}
    (hp : ∀ a γ1, post a γ1 → post1 a γ1) (hf : ∀ e γ1, fail e γ1 → fail1 e γ1)
    (h : Obeys router γ p post fail) : Obeys router γ p post1 fail1 := by
  induction p generalizing γ with
  | pure a => exact hp a γ h
  | throw e => exact hf e γ h
  | http req k ih => exact ⟨h.1, fun r => ih r γ (h.2 r)⟩
  | call op k ih => exact ⟨h.1, fun r => ih r _ (h.2 r)⟩

theorem obeys_weaken {α : Type} (γ : Run) (p : Prog α)
    {post : α → Run → Prop} {fail : Err → Run → Prop}
    (h : Obeys true γ p post fail) : Obeys false γ p post fail := by
  induction p generalizing γ with
  | pure a => exact h
  | throw e => exact h
  | http req k ih => exact ⟨fun hr => Bool.noConfusion hr, fun r => ih r γ (h.2 r)⟩
  | call op k ih => exact ⟨h.1, fun r => ih r _ (h.2 r)⟩

@[simp] theorem obeys_perform (router : Bool) (γ : Run) (op : Op)
    (post : Ret → Run → Prop) (fail : Err → Run → Prop) :
    Obeys router γ (perform op) post fail ↔
      γ.permits op ∧ (∀ v, post v (γ.next op (.ok v))) ∧ ∀ e, fail e (γ.next op (.error e)) := by
  simp only [perform, Obeys]
  refine and_congr_right (fun _ => ⟨fun h => ⟨fun v => h (.ok v), fun e => h (.error e)⟩, ?_⟩)
  rintro ⟨h1, h2⟩ r
  cases r with
  | ok v => exact h1 v
  | error e => exact h2 e

@[simp] theorem obeys_httpCall (router : Bool) (γ : Run) (verb : Verb) (path : String)
    (payload : List (String × Val)) (post : Option Data → Run → Prop)
    (fail : Err → Run → Prop) :
    Obeys router γ (httpCall verb path payload) post fail ↔
      (router = true → γ.stage ≠ .fresh) ∧ (∀ d, post d γ) ∧ ∀ e, fail (.http e) γ := by
  simp only [httpCall, Obeys]
  refine and_congr_right (fun _ => ⟨fun h => ⟨fun d => h (.resolved d), fun e => h (.rejected e)⟩, ?_⟩)
  rintro ⟨h1, h2⟩ r
  cases r with
  | resolved d => exact h1 d
  | rejected e => exact h2 e

@[simp] theorem obeys_defined {α : Type} (router : Bool) (γ : Run) (x : Option α) (what : String)
    (post : α → Run → Prop) (fail : Err → Run → Prop) :
    Obeys router γ (defined x what) post fail ↔
      (∀ v, x = some v → post v γ) ∧ (x = none → fail (.typeError what) γ) := by
  cases x <;> simp [defined, Obeys]

@[simp] theorem obeys_destructure (router : Bool) (γ : Run) (d : Option Data)
    (post : Data → Run → Prop) (fail : Err → Run → Prop) :
    Obeys router γ (destructure d) post fail ↔
      (∀ v, d = some v → post v γ) ∧
        (d = none → fail (.typeError "Cannot destructure property of undefined") γ) := by
  simp [destructure]

@[simp] theorem next_ackState (γ : Run) (i : Interaction) (r : Except Err Ret) :
    γ.next (.ackState i) r = γ := by
  cases r with
  | error e => rfl
  | ok v => cases v <;> rfl

@[simp] theorem next_log (γ : Run) (level : Level) (text : String) (err : Option Err)
    (r : Except Err Ret) : γ.next (.log level text err) r = γ := by
  cases r with
  | error e => rfl
  | ok v => cases v <;> rfl

@[simp] theorem next_stop (γ : Run) (c : Nat) (r : Except Err Ret) :
    γ.next (.stop c) r = γ := by
  cases r with
  | error e => rfl
  | ok v => cases v <;> rfl

@[simp] theorem next_setPage (γ : Run) (c page : Nat) (r : Except Err Ret) :
    γ.next (.setPage c page) r = γ := by
  cases r with
  | error e => rfl
  | ok v => cases v <;> rfl

@[simp] theorem obeys_ackFlags (router : Bool) (γ : Run) (i : Interaction)
    (post : Bool × Bool → Run → Prop) (fail : Err → Run → Prop) :
    Obeys router γ (ackFlags i) post fail ↔ ∀ f, post f γ := by
  simp only [ackFlags, Obeys, next_ackState, Run.permits, true_and]
  constructor
  · intro h f
    exact h (.ok (.flags f.1 f.2))
  · intro h r
    split <;> exact h _

@[simp] theorem obeys_ite {α : Type} (router : Bool) (γ : Run) (c : Prop) [Decidable c]
    (p q : Prog α) (post : α → Run → Prop) (fail : Err → Run → Prop) :
    Obeys router γ (if c then p else q) post fail ↔
      (c → Obeys router γ p post fail) ∧ (¬ c → Obeys router γ q post fail) := by
  split <;> simp [*]

@[simp] theorem obeys_await (router : Bool) (γ : Run) (c : Call)
    (post : Unit → Run → Prop) (fail : Err → Run → Prop) :
    Obeys router γ (await c) post fail ↔
      γ.permits (.platform c) ∧ (∀ v, post () (γ.next (.platform c) (.ok v))) ∧
        ∀ e, fail e (γ.next (.platform c) (.error e)) := by
  simp [await]

@[simp] theorem next_owner (γ : Run) (op : Op) (r : Except Err Ret) :
    (γ.next op r).owner = γ.owner := by
  cases op with
  | platform c =>
    cases r with
    | error e => cases c <;> rfl
    | ok v =>
      cases c <;> cases v <;> first | rfl | (simp only [Run.next]; split <;> rfl)
  | ackState i => cases r <;> rfl
  | createCollector m t site => cases r <;> rfl
  | stop c => cases r <;> rfl
  | setPage c page => cases r <;> rfl
  | log level text err => cases r <;> rfl

@[simp] theorem next_click (γ : Run) (op : Op) (r : Except Err Ret) :
    (γ.next op r).click = γ.click := by
  cases op with
  | platform c =>
    cases r with
    | error e => cases c <;> rfl
    | ok v =>
      cases c <;> cases v <;> first | rfl | (simp only [Run.next]; split <;> rfl)
  | ackState i => cases r <;> rfl
  | createCollector m t site => cases r <;> rfl
  | stop c => cases r <;> rfl
  | setPage c page => cases r <;> rfl
  | log level text err => cases r <;> rfl

@[simp] theorem next_error (γ : Run) (c : Call) (e : Err) :
    γ.next (.platform c) (.error e) = γ := by
  cases c <;> rfl

@[simp] theorem next_stage_editReply (γ : Run) (i : Interaction) (p : Payload)
    (r : Except Err Ret) : (γ.next (.platform (.editReply i p)) r).stage = γ.stage := by
  cases r with
  | error e => rfl
  | ok v =>
    cases v <;> first | rfl | (simp only [Run.next]; split <;> rfl)

@[simp] theorem next_stage_fetchReply (γ : Run) (i : Interaction)
    (r : Except Err Ret) : (γ.next (.platform (.fetchReply i)) r).stage = γ.stage := by
  cases r with
  | error e => rfl
  | ok v =>
    cases v <;> first | rfl | (simp only [Run.next]; split <;> rfl)

@[simp] theorem next_followUp (γ : Run) (i : Interaction) (p : Payload)
    (r : Except Err Ret) : γ.next (.platform (.followUp i p)) r = γ := by
  cases r with
  | error e => rfl
  | ok v => cases v <;> rfl

@[simp] theorem next_deferUpdate (γ : Run) (i : Interaction)
    (r : Except Err Ret) : γ.next (.platform (.deferUpdate i)) r = γ := by
  cases r with
  | error e => rfl
  | ok v => cases v <;> rfl

@[simp] theorem next_update (γ : Run) (i : Interaction) (p : Payload)
    (r : Except Err Ret) : γ.next (.platform (.update i p)) r = γ := by
  cases r with
  | error e => rfl
  | ok v => cases v <;> rfl

@[simp] theorem next_messageEdit (γ : Run) (m : Nat) (p : Payload)
    (r : Except Err Ret) : γ.next (.platform (.messageEdit m p)) r = γ := by
  cases r with
  | error e => rfl
  | ok v => cases v <;> rfl

@[simp] theorem next_showModal (γ : Run) (i : Interaction) (customId : String)
    (inputs : List String) (r : Except Err Ret) :
    γ.next (.platform (.showModal i customId inputs)) r = γ := by
  cases r with
  | error e => rfl
  | ok v => cases v <;> rfl

@[simp] theorem next_messageReply (γ : Run) (m : Nat) (text : String)
    (r : Except Err Ret) : γ.next (.platform (.messageReply m text)) r = γ := by
  cases r with
  | error e => rfl
  | ok v => cases v <;> rfl

@[simp] theorem next_deferReply (γ : Run) (i : Interaction) (v : Ret) :
    γ.next (.platform (.deferReply i)) (.ok v) = { γ with stage := γ.stage.ack } := rfl

@[simp] theorem next_reply (γ : Run) (i : Interaction) (p : Payload) (v : Ret) :
    γ.next (.platform (.reply i p)) (.ok v) = { γ with stage := γ.stage.ack } := rfl

@[simp] theorem next_editReply_message (γ : Run) (i : Interaction) (p : Payload) (m : Message) :
    γ.next (.platform (.editReply i p)) (.ok (.message m)) =
      if i.id = γ.owner.id then { γ with known := some m.id } else γ := rfl

@[simp] theorem next_fetchReply_message (γ : Run) (i : Interaction) (m : Message) :
    γ.next (.platform (.fetchReply i)) (.ok (.message m)) =
      if i.id = γ.owner.id then { γ with known := some m.id } else γ := rfl

@[simp] theorem next_createCollector (γ : Run) (m t : Nat) (site : Site) (r : Except Err Ret) :
    γ.next (.createCollector m t site) r = { γ with stage := .armed } := by
  cases r with
  | error e => rfl
  | ok v => cases v <;> rfl

@[simp] theorem obeys_awaitMessage (router : Bool) (γ : Run) (c : Call)
    (post : Message → Run → Prop) (fail : Err → Run → Prop) :
    Obeys router γ (awaitMessage c) post fail ↔
      γ.permits (.platform c) ∧ (∀ m, post m (γ.next (.platform c) (.ok (.message m)))) ∧
        (∀ v, (∀ m, v ≠ .message m) →
          fail (.typeError "no message returned") (γ.next (.platform c) (.ok v))) ∧
        ∀ e, fail e (γ.next (.platform c) (.error e)) := by
  simp only [awaitMessage, obeys_bind, obeys_perform]
  refine and_congr_right (fun _ => ?_)
  constructor
  · rintro ⟨h1, h2⟩
    refine ⟨fun m => ?_, fun v hv => ?_, h2⟩
    · simpa using h1 (.message m)
    · have := h1 v
      cases v <;> first | exact this | exact absurd rfl (hv _)
  · rintro ⟨h1, h2, h3⟩
    refine ⟨fun v => ?_, h3⟩
    cases v with
    | message m => exact h1 m
    | unit => exact h2 _ (fun m h => nomatch h)
    | flags a b => exact h2 _ (fun m h => nomatch h)
    | collector c => exact h2 _ (fun m h => nomatch h)

@[simp] theorem obeys_logLine (router : Bool) (γ : Run) (level : Level) (text : String)
    (post : Unit → Run → Prop) (fail : Err → Run → Prop) :
    Obeys router γ (logLine level text) post fail ↔ post () γ ∧ ∀ e, fail e γ := by
  simp only [logLine, obeys_bind, obeys_perform, obeys_pure, next_log, Run.permits, true_and]
  exact and_congr_left (fun _ => ⟨fun h => h .unit, fun h _ => h⟩)

@[simp] theorem obeys_logError (router : Bool) (γ : Run) (text : String) (err : Err)
    (post : Unit → Run → Prop) (fail : Err → Run → Prop) :
    Obeys router γ (logError text err) post fail ↔ post () γ ∧ ∀ e, fail e γ := by
  simp only [logError, obeys_bind, obeys_perform, obeys_pure, next_log, Run.permits, true_and]
  exact and_congr_left (fun _ => ⟨fun h => h .unit, fun h _ => h⟩)

@[simp] theorem obeys_stopCollector (router : Bool) (γ : Run) (c : Nat)
    (post : Unit → Run → Prop) (fail : Err → Run → Prop) :
    Obeys router γ (stopCollector c) post fail ↔ post () γ ∧ ∀ e, fail e γ := by
  simp only [stopCollector, obeys_bind, obeys_perform, obeys_pure, next_stop, Run.permits,
    true_and]
  exact and_congr_left (fun _ => ⟨fun h => h .unit, fun h _ => h⟩)

theorem owns_combat (i click : Interaction) :
    Owns true { owner := i, click := click } (combat.execute i) := by
  simp [Owns, combat.execute, Run.permits, Stage.ack, Site.interaction]

theorem owns_explore (i click : Interaction) :
    Owns true { owner := i, click := click } (explore.execute i) := by
  simp [Owns, explore.execute, Run.permits, Stage.ack, Site.interaction]

theorem owns_barter (i click : Interaction) :
    Owns true { owner := i, click := click } (barter.execute i) := by
  simp [Owns, barter.execute, Run.permits, Stage.ack, Site.interaction]

theorem owns_story (i click : Interaction) :
    Owns true { owner := i, click := click } (narrative.execute i) := by
  simp [Owns, narrative.execute, Run.permits, Stage.ack, Site.interaction]

theorem owns_roll (i click : Interaction) :
    Owns true { owner := i, click := click } (roll.execute i) := by
  simp [Owns, roll.execute, Run.permits, Stage.ack, Site.interaction]

theorem owns_inventory (i click : Interaction) :
    Owns true { owner := i, click := click } (inventory.execute i) := by
  simp [Owns, inventory.execute, inventory.showPage, Run.permits, Stage.ack, Site.interaction]

theorem owns_trade (i click : Interaction) :
    Owns true { owner := i, click := click } (trade.execute i) := by
  simp [Owns, trade.execute, Run.permits, Stage.ack, Site.interaction]

theorem owns_balance (i click : Interaction) :
    Owns true { owner := i, click := click } (balance.execute i) := by
  simp [Owns, balance.execute, balance.progress, Run.permits, Stage.ack, Site.interaction]
  intros
  split <;> simp

theorem owns_start (i click : Interaction) :
    Owns true { owner := i, click := click } (start.execute i) := by
  simp [Owns, start.execute, Run.permits, Stage.ack, Site.interaction]

theorem owns_stats (i click : Interaction) :
    Owns true { owner := i, click := click } (stats.execute i) := by
  simp [Owns, stats.execute, Run.permits, Stage.ack, Site.interaction]

theorem owns_preview (i click : Interaction) :
    Owns true { owner := i, click := click } (preview.execute i) := by
  simp [Owns, preview.execute, Run.permits, Stage.ack, Site.interaction]

theorem owns_shop (i click : Interaction) :
    Owns true { owner := i, click := click } (shop.execute i) := by
  simp [Owns, shop.execute, Run.permits, Stage.ack, Site.interaction]
  intros
  split <;> simp [Run.permits]

theorem obeys_quantity (router : Bool) (γ : Run) (raw : String)
    (post : Int → Run → Prop) (fail : Err → Run → Prop) (hp : ∀ n, post n γ)
    (hf : ∀ e, fail e γ) : Obeys router γ (forge.quantity raw) post fail := by
  unfold forge.quantity
  split
  · split
    · exact hf _
    · exact hp _
  · exact hf _

theorem owns_forge (i click : Interaction) :
    Owns true { owner := i, click := click } (forge.execute i) := by
  simp [Owns, forge.execute, getTextInputValue, Run.permits, Stage.ack, Site.interaction]
  intros
  apply obeys_quantity
  · intro n
    simp
  · intro e
    trivial

theorem owns_help (i click : Interaction) :
    Owns true { owner := i, click := click } (help.execute i) := by
  simp [Owns, help.execute, Run.permits, Stage.ack, Site.interaction]

theorem owns_execute (cmd : Cmd) (i click : Interaction) :
    Owns true { owner := i, click := click } (cmd.execute i) := by
  cases cmd with
  | combat => exact owns_combat i click
  | explore => exact owns_explore i click
  | barter => exact owns_barter i click
  | story => exact owns_story i click
  | rollPower => exact owns_roll i click
  | inventory => exact owns_inventory i click
  | trade => exact owns_trade i click
  | balance => exact owns_balance i click
  | forge => exact owns_forge i click
  | help => exact owns_help i click
  | preview => exact owns_preview i click
  | shop => exact owns_shop i click
  | start => exact owns_start i click
  | stats => exact owns_stats i click

theorem obeys_owner {α : Type} (router : Bool) (γ : Run) (p : Prog α)
    {post : α → Run → Prop} {fail : Err → Run → Prop} (h : Obeys router γ p post fail) :
    Obeys router γ p (fun a γ1 => post a γ1 ∧ γ1.owner = γ.owner ∧ γ1.click = γ.click)
      (fun e γ1 => fail e γ1 ∧ γ1.owner = γ.owner ∧ γ1.click = γ.click) := by
  induction p generalizing γ with
  | pure a => exact ⟨h, rfl, rfl⟩
  | throw e => exact ⟨h, rfl, rfl⟩
  | http req k ih => exact ⟨h.1, fun r => ih r γ (h.2 r)⟩
  | call op k ih =>
    refine ⟨h.1, fun r => ?_⟩
    have := ih r _ (h.2 r)
    simpa using this

theorem owns_onError (router : Bool) (γ : Run) (i : Interaction) (e : Err)
    (h : γ.owner = i) : Owns router γ (interactionCreate.onError i e) := by
  simp [Owns, interactionCreate.onError, Run.permits, h]

theorem owns_router (reg : Registry) (i : Interaction) :
    Owns true { owner := i, click := i } (interactionCreate.execute reg i) := by
  have hcmd : ∀ cmd : Cmd,
      Obeys true { owner := i, click := i } (cmd.execute i)
        (fun _ γ1 => True)
        (fun e γ1 => Obeys true γ1 (interactionCreate.onError i e)
          (fun _ _ => True) (fun _ _ => True)) := by
    intro cmd
    refine obeys_mono true _ _ (fun _ _ _ => trivial) (fun e γ1 h => ?_)
      (obeys_owner true _ _ (owns_execute cmd i i))
    exact owns_onError true γ1 i e h.2.1
  have herr : ∀ (e : Err) (γ1 : Run), γ1.owner = i →
      Obeys true γ1 (interactionCreate.onError i e) (fun _ _ => True) (fun _ _ => True) :=
    fun e γ1 h => owns_onError true γ1 i e h
  by_cases hk : i.kind = .chatInput
  · cases hreg : reg.get i.commandName with
    | none =>
      simp [Owns, interactionCreate.execute, hk, hreg]
      exact fun e => herr e _ rfl
    | some cmd =>
      simp [Owns, interactionCreate.execute, hk, hreg]
      exact hcmd cmd
  · by_cases hc : i.kind = .button ∨ i.kind = .selectMenu ∨ i.kind = .modalSubmit
    · cases hreg : reg.get ((jsSplit i.customId '_').getD 0 "") with
      | none =>
        have hreg1 : reg.get ((jsSplit i.customId '_')[0]?.getD "") = none := by
          simpa using hreg
        simp [Owns, interactionCreate.execute, hk, hc, hreg1]
        exact fun e => herr e _ rfl
      | some cmd =>
        have hreg1 : reg.get ((jsSplit i.customId '_')[0]?.getD "") = some cmd := by
          simpa using hreg
        simp [Owns, interactionCreate.execute, hk, hc, hreg1]
        exact hcmd cmd
    · simp [Owns, interactionCreate.execute, hk, hc]

theorem owns_collect (reg : Registry) (col : Collector) (i : Interaction)
    (hne : i.id ≠ col.site.interaction.id) :
    Owns false { owner := col.site.interaction, click := i } (collectHandler reg col i) := by
  have hexec : ∀ (cmd : Cmd) (j : Interaction),
      Obeys false { owner := j, click := i } (cmd.execute j)
        (fun _ _ => True) (fun _ _ => True) :=
    fun cmd j => obeys_weaken _ _ (owns_execute cmd j i)
  unfold collectHandler
  cases hs : col.site with
  | combat interaction m b =>
    rw [hs] at hne
    simp [Owns, combat.collect, Run.permits, Site.interaction] at hne ⊢
    exact fun _ => ⟨hne, fun _ => hexec .combat interaction⟩
  | explore interaction m b =>
    rw [hs] at hne
    simp [Owns, explore.collect, Run.permits, Site.interaction] at hne ⊢
    refine ⟨fun _ => ⟨hne, fun _ => hexec .explore interaction⟩, fun _ _ => ⟨hne, fun _ => ?_⟩⟩
    cases reg.get "barter" with
    | none => simp [Run.permits]
    | some cmd => exact hexec cmd interaction
  | barter interaction =>
    rw [hs] at hne
    simp [Owns, barter.collect, Run.permits, Site.interaction] at hne ⊢
    simp [hne]
  | story interaction m =>
    rw [hs] at hne
    simp [Owns, narrative.collect, Run.permits, Site.interaction] at hne ⊢
    exact hne
  | roll interaction row =>
    rw [hs] at hne
    simp [Owns, roll.collect, Run.permits, Site.interaction] at hne ⊢
    exact hne
  | inventory interaction m =>
    rw [hs] at hne
    simp [Owns, inventory.collect, inventory.showPage, Run.permits, Site.interaction] at hne ⊢
    exact fun _ => hne
  | trade interaction toUser =>
    rw [hs] at hne
    simp [Owns, trade.collect, Run.permits, Site.interaction] at hne ⊢
    exact hne

/-! ## One collector per message -/

theorem acked_congr (w : World) {j1 j2 : Interaction} (h : j1.id = j2.id) :
    w.acked j1 = w.acked j2 := by
  simp [World.acked, h]

theorem replyMessage_congr (w : World) {j1 j2 : Interaction} (h : j1.id = j2.id) :
    w.replyMessage j1 = w.replyMessage j2 := by
  simp [World.replyMessage, h]

theorem rejects_congr (w : World) (strict : Bool) {j1 j2 : Interaction} (h : j1.id = j2.id) :
    w.rejects strict j1 = w.rejects strict j2 := by
  simp [World.rejects, World.acked, h]

theorem owned_congr (w : World) {j1 j2 : Interaction} (h : j1.id = j2.id) :
    w.owned j1 ↔ w.owned j2 := by
  simp [World.owned, h]

theorem arming_congr (w : World) (g : Nat → Run) {j1 j2 : Interaction} (h : j1.id = j2.id) :
    w.arming g j1 ↔ w.arming g j2 := by
  simp [World.arming, World.owned, h]

theorem extends_refl (seen : List Nat) (w : World) : Extends seen w w :=
  ⟨rfl, rfl, fun col h => ⟨col, h, rfl, rfl, rfl⟩, fun col h => ⟨col, h, rfl, rfl, rfl⟩,
    fun _ h => h, fun _ h => Or.inl h, fun _ _ h => h, fun _ _ h => Or.inl h, le_refl _,
    fun _ h => h, rfl⟩

theorem extends_trans {seen : List Nat} {w w1 w2 : World} (h1 : Extends seen w w1)
    (h2 : Extends seen w1 w2) : Extends seen w w2 := by
  refine ⟨h2.pending.trans h1.pending, h2.nextTask.trans h1.nextTask, ?_, ?_,
    fun j h => h2.acked j (h1.acked j h), ?_, fun j m h => h2.reply j m (h1.reply j m h), ?_,
    le_trans h1.nextMessage h2.nextMessage, fun x h => h2.settled x (h1.settled x h),
    h2.nextCollector.trans h1.nextCollector⟩
  · intro col hcol
    obtain ⟨c1, hc1, e1, e2, e3⟩ := h1.forth col hcol
    obtain ⟨c2, hc2, f1, f2, f3⟩ := h2.forth c1 hc1
    exact ⟨c2, hc2, f1.trans e1, f2.trans e2, f3.trans e3⟩
  · intro col hcol
    obtain ⟨c1, hc1, e1, e2, e3⟩ := h2.back col hcol
    obtain ⟨c0, hc0, f1, f2, f3⟩ := h1.back c1 hc1
    exact ⟨c0, hc0, e1.trans f1, e2.trans f2, e3.trans f3⟩
  · intro j h
    rcases h2.ackedNew j h with h | h
    · exact h1.ackedNew j h
    · exact Or.inr h
  · intro j m h
    rcases h2.replyNew j m h with h | h
    · exact h1.replyNew j m h
    · exact Or.inr h

theorem owned_extends {seen : List Nat} {w w1 : World} (h : Extends seen w w1)
    (j : Interaction) : w1.owned j ↔ w.owned j := by
  constructor
  · rintro ⟨col1, hc1, hid⟩
    obtain ⟨col, hc, -, hs, -⟩ := h.back col1 hc1
    exact ⟨col, hc, by rw [← hs]; exact hid⟩
  · rintro ⟨col, hc, hid⟩
    obtain ⟨col1, hc1, -, hs, -⟩ := h.forth col hc
    exact ⟨col1, hc1, by rw [hs]; exact hid⟩

theorem arming_extends {seen : List Nat} {w w1 : World} (h : Extends seen w w1)
    (g : Nat → Run) (j : Interaction) : w1.arming g j ↔ w.arming g j := by
  unfold World.arming
  rw [owned_extends h, h.pending]

theorem knows_extends {seen : List Nat} {w w1 : World} (h : Extends seen w w1)
    {γ : Run} (hk : w.knows γ) : w1.knows γ :=
  fun m hm => h.reply _ m (hk m hm)

theorem holds_extends {seen : List Nat} {w w1 : World} (h : Extends seen w w1)
    {g : Nat → Run} {t : Task} (hh : w.holds g t) : w1.holds g t := by
  unfold World.holds at *
  cases hst : (g t.id).stage with
  | fresh =>
    rw [hst] at hh
    exact h.acked _ hh
  | acked =>
    rw [hst] at hh
    refine ⟨h.acked _ hh.1, fun ho => hh.2.1 ((owned_extends h _).1 ho), ?_⟩
    rw [h.pending]
    exact hh.2.2
  | armed => trivial

theorem rejects_extends {seen : List Nat} {w w1 : World} (h : Extends seen w w1)
    {strict : Bool} {j : Interaction} (hr : w.rejects strict j = true) :
    w1.rejects strict j = true := by
  simp only [World.rejects, Bool.and_eq_true, Bool.or_eq_true] at *
  refine ⟨h.acked j hr.1, ?_⟩
  rcases hr.2 with hs | hs
  · exact Or.inl hs
  · have hmem : j.id ∈ w.settled := by simpa using hs
    exact Or.inr (by simpa using h.settled _ hmem)

theorem sound_extends {seen : List Nat} {w w1 : World} {g : Nat → Run} (hs : Sound w seen g)
    (h : Extends seen w w1) (hd : w1.distinct) : Sound w1 seen g := by
  refine ⟨hd, ?_, ?_, ?_, ?_, ?_, ?_, ?_, ?_⟩
  · rw [h.pending, h.nextTask]
    exact hs.tasks
  · intro j hj
    rcases h.ackedNew j hj with hj | hj
    · exact hs.flags j hj
    · exact hj
  · intro j m hj
    rcases h.replyNew j m hj with hj | hj
    · exact hs.keys j m hj
    · exact hj
  · intro col1 hc1
    obtain ⟨col, hc, -, hsite, hmsg⟩ := h.back col1 hc1
    obtain ⟨h1, h2, h3⟩ := hs.owners col hc
    rw [hsite, hmsg]
    exact ⟨h1, h.acked _ h2, h.reply _ _ h3⟩
  · intro a ha b hb hab
    obtain ⟨a0, ha0, ea1, ea2, -⟩ := h.back a ha
    obtain ⟨b0, hb0, eb1, eb2, -⟩ := h.back b hb
    rw [ea1, eb1]
    exact hs.single a0 ha0 b0 hb0 (by rw [← ea2, ← eb2]; exact hab)
  · intro j hj
    obtain ⟨m, hm, hlt⟩ := hs.below j ((arming_extends h g j).1 hj)
    exact ⟨m, h.reply j m hm, lt_of_lt_of_le hlt h.nextMessage⟩
  · intro j1 j2 h1 h2 heq
    have a1 := (arming_extends h g j1).1 h1
    have a2 := (arming_extends h g j2).1 h2
    obtain ⟨m1, hm1, -⟩ := hs.below j1 a1
    obtain ⟨m2, hm2, -⟩ := hs.below j2 a2
    rw [h.reply j1 m1 hm1, h.reply j2 m2 hm2] at heq
    exact hs.apart j1 j2 a1 a2 (by rw [hm1, hm2, heq])
  · rw [h.pending]
    intro t ht
    obtain ⟨h1, h2, h3, h4, h5⟩ := hs.runs t ht
    exact ⟨h1, h2, h3, knows_extends h h4, holds_extends h h5⟩

theorem extends_of {seen : List Nat} {w w1 : World} (hp : w1.pending = w.pending)
    (hn : w1.nextTask = w.nextTask) (hc : w1.collectors = w.collectors)
    (hx : w1.nextCollector = w.nextCollector) (hs : w1.settled = w.settled)
    (ha : ∀ j, w.acked j = true → w1.acked j = true)
    (han : ∀ j, w1.acked j = true → w.acked j = true ∨ j.id ∈ seen)
    (hr : ∀ j m, w.replyMessage j = some m → w1.replyMessage j = some m)
    (hrn : ∀ j m, w1.replyMessage j = some m → w.replyMessage j = some m ∨ j.id ∈ seen)
    (hm : w.nextMessage ≤ w1.nextMessage) : Extends seen w w1 :=
  ⟨hp, hn, fun col h => ⟨col, hc ▸ h, rfl, rfl, rfl⟩, fun col h => ⟨col, hc ▸ h, rfl, rfl, rfl⟩,
    ha, han, hr, hrn, hm, fun _ h => hs ▸ h, hx⟩

theorem replyMessage_ensureReply (w : World) (i j : Interaction) :
    (w.ensureReply i).1.replyMessage j =
      match w.replyMessage j with
      | some m => some m
      | none => if j.id = i.id then some w.nextMessage else none := by
  unfold World.ensureReply
  cases hi : w.replyMessage i with
  | some m =>
    simp only
    cases hj : w.replyMessage j with
    | some m1 => rfl
    | none =>
      simp only
      split
      · rename_i h
        rw [replyMessage_congr w h, hi] at hj
        cases hj
      · rfl
  | none =>
    simp only [World.replyMessage, List.find?_append]
    simp only [World.replyMessage] at hi
    cases hj : w.replyOf.find? (fun e => e.1 == j.id) with
    | some e => simp
    | none =>
      by_cases h : j.id = i.id
      · simp [h]
      · have : ¬ i.id = j.id := fun h1 => h h1.symm
        simp [h, this]

theorem replyMessage_bindSource (w : World) (i j : Interaction) :
    (w.bindSource i).replyMessage j =
      match w.replyMessage j with
      | some m => some m
      | none => if j.id = i.id then some i.messageId else none := by
  unfold World.bindSource
  cases hi : w.replyMessage i with
  | some m =>
    simp only
    cases hj : w.replyMessage j with
    | some m1 => rfl
    | none =>
      simp only
      split
      · rename_i h
        rw [replyMessage_congr w h, hi] at hj
        cases hj
      · rfl
  | none =>
    simp only [World.replyMessage, List.find?_append]
    simp only [World.replyMessage] at hi
    cases hj : w.replyOf.find? (fun e => e.1 == j.id) with
    | some e => simp
    | none =>
      by_cases h : j.id = i.id
      · simp [h]
      · have : ¬ i.id = j.id := fun h1 => h h1.symm
        simp [h, this]

theorem ensureReply_rest (w : World) (i : Interaction) :
    (w.ensureReply i).1.pending = w.pending ∧ (w.ensureReply i).1.nextTask = w.nextTask ∧
      (w.ensureReply i).1.collectors = w.collectors ∧
      (w.ensureReply i).1.nextCollector = w.nextCollector ∧
      (w.ensureReply i).1.settled = w.settled ∧
      (w.ensureReply i).1.deferred = w.deferred ∧ (w.ensureReply i).1.replied = w.replied ∧
      w.nextMessage ≤ (w.ensureReply i).1.nextMessage := by
  unfold World.ensureReply
  split
  · exact ⟨rfl, rfl, rfl, rfl, rfl, rfl, rfl, le_refl _⟩
  · exact ⟨rfl, rfl, rfl, rfl, rfl, rfl, rfl, Nat.le_succ _⟩

theorem bindSource_rest (w : World) (i : Interaction) :
    (w.bindSource i).pending = w.pending ∧ (w.bindSource i).nextTask = w.nextTask ∧
      (w.bindSource i).collectors = w.collectors ∧
      (w.bindSource i).nextCollector = w.nextCollector ∧
      (w.bindSource i).settled = w.settled ∧
      (w.bindSource i).deferred = w.deferred ∧ (w.bindSource i).replied = w.replied ∧
      (w.bindSource i).nextMessage = w.nextMessage := by
  unfold World.bindSource
  split <;> exact ⟨rfl, rfl, rfl, rfl, rfl, rfl, rfl, rfl⟩

/-- The world after flags were set for `x` on top of `w0`, whose replies are those of
`w1`. -/
theorem extends_flag {seen : List Nat} {w w0 w1 : World} {i : Interaction}
    (hi : i.id ∈ seen) (h0 : Extends seen w w0)
    (hp : w1.pending = w0.pending) (hn : w1.nextTask = w0.nextTask)
    (hc : w1.collectors = w0.collectors) (hx : w1.nextCollector = w0.nextCollector)
    (hs : w1.settled = w0.settled)
    (hr : w1.replyOf = w0.replyOf) (hm : w1.nextMessage = w0.nextMessage)
    (hd : w1.deferred = w0.deferred ∨ w1.deferred = i.id :: w0.deferred)
    (hrep : w1.replied = w0.replied ∨ w1.replied = i.id :: w0.replied) :
    Extends seen w w1 := by
  refine extends_trans h0 (extends_of hp hn hc hx hs ?_ ?_ ?_ ?_ (le_of_eq hm.symm))
  · intro j hj
    simp only [World.acked, Bool.or_eq_true, List.contains_eq_any_beq, List.any_eq_true,
      beq_iff_eq] at hj ⊢
    rcases hj with ⟨x, hx, rfl⟩ | ⟨x, hx, rfl⟩
    · refine Or.inl ⟨_, ?_, rfl⟩
      rcases hd with h | h <;> rw [h]
      · exact hx
      · exact List.mem_cons_of_mem _ hx
    · refine Or.inr ⟨_, ?_, rfl⟩
      rcases hrep with h | h <;> rw [h]
      · exact hx
      · exact List.mem_cons_of_mem _ hx
  · intro j hj
    simp only [World.acked, Bool.or_eq_true, List.contains_eq_any_beq, List.any_eq_true,
      beq_iff_eq] at hj ⊢
    rcases hj with ⟨x, hx, rfl⟩ | ⟨x, hx, rfl⟩
    · rcases hd with h | h <;> rw [h] at hx
      · exact Or.inl (Or.inl ⟨_, hx, rfl⟩)
      · rcases List.mem_cons.1 hx with h1 | h1
        · exact Or.inr (h1 ▸ hi)
        · exact Or.inl (Or.inl ⟨_, h1, rfl⟩)
    · rcases hrep with h | h <;> rw [h] at hx
      · exact Or.inl (Or.inr ⟨_, hx, rfl⟩)
      · rcases List.mem_cons.1 hx with h1 | h1
        · exact Or.inr (h1 ▸ hi)
        · exact Or.inl (Or.inr ⟨_, h1, rfl⟩)
  · intro j m hj
    simpa [World.replyMessage, hr] using hj
  · intro j m hj
    exact Or.inl (by simpa [World.replyMessage, hr] using hj)

theorem extends_ensureReply {seen : List Nat} (w : World) {i : Interaction}
    (hi : i.id ∈ seen) : Extends seen w (w.ensureReply i).1 := by
  obtain ⟨h1, h2, h3, hx, h4, h5, h6, h7⟩ := ensureReply_rest w i
  refine extends_of h1 h2 h3 hx h4 ?_ ?_ ?_ ?_ h7
  · intro j hj
    simpa [World.acked, h5, h6] using hj
  · intro j hj
    exact Or.inl (by simpa [World.acked, h5, h6] using hj)
  · intro j m hj
    rw [replyMessage_ensureReply, hj]
  · intro j m hj
    rw [replyMessage_ensureReply] at hj
    cases hw : w.replyMessage j with
    | some m1 =>
      rw [hw] at hj
      exact Or.inl hj
    | none =>
      rw [hw] at hj
      simp only at hj
      split at hj
      · rename_i h
        exact Or.inr (h ▸ hi)
      · cases hj

theorem extends_bindSource {seen : List Nat} (w : World) {i : Interaction}
    (hi : i.id ∈ seen) : Extends seen w (w.bindSource i) := by
  obtain ⟨h1, h2, h3, hx, h4, h5, h6, h7⟩ := bindSource_rest w i
  refine extends_of h1 h2 h3 hx h4 ?_ ?_ ?_ ?_ (le_of_eq h7.symm)
  · intro j hj
    simpa [World.acked, h5, h6] using hj
  · intro j hj
    exact Or.inl (by simpa [World.acked, h5, h6] using hj)
  · intro j m hj
    rw [replyMessage_bindSource, hj]
  · intro j m hj
    rw [replyMessage_bindSource] at hj
    cases hw : w.replyMessage j with
    | some m1 =>
      rw [hw] at hj
      exact Or.inl hj
    | none =>
      rw [hw] at hj
      simp only at hj
      split at hj
      · rename_i h
        exact Or.inr (h ▸ hi)
      · cases hj

theorem applyCall_extends (strict : Bool) {seen : List Nat} (w : World) (c : Call)
    (hkeys : ∀ j m, w.replyMessage j = some m → j.id ∈ seen)
    (ht : ∀ i, c.target = some i → i.id ∈ seen) :
    Extends seen w (applyCall strict w c).1 := by
  cases c with
  | deferReply i =>
    have hi := ht i rfl
    simp only [applyCall]
    split
    · exact extends_refl seen w
    · exact extends_flag hi (extends_ensureReply w hi) rfl rfl rfl rfl rfl rfl rfl (Or.inr rfl)
        (Or.inl rfl)
  | reply i p =>
    have hi := ht i rfl
    simp only [applyCall]
    split
    · exact extends_refl seen w
    · exact extends_flag hi (extends_ensureReply w hi) rfl rfl rfl rfl rfl rfl rfl (Or.inl rfl)
        (Or.inr rfl)
  | editReply i p =>
    simp only [applyCall]
    split
    · exact extends_refl seen w
    · rename_i m hm
      exact extends_flag (hkeys i m hm) (extends_refl seen w) rfl rfl rfl rfl rfl rfl rfl
        (Or.inl rfl) (Or.inr rfl)
  | followUp i p =>
    simp only [applyCall]
    split
    · exact extends_of rfl rfl rfl rfl rfl (fun _ h => h) (fun _ h => Or.inl h) (fun _ _ h => h)
        (fun _ _ h => Or.inl h) (Nat.le_succ _)
    · exact extends_refl seen w
  | fetchReply i =>
    simp only [applyCall]
    split <;> exact extends_refl seen w
  | deferUpdate i =>
    have hi := ht i rfl
    simp only [applyCall]
    split
    · exact extends_refl seen w
    · exact extends_flag hi (extends_bindSource w hi) rfl rfl rfl rfl rfl rfl rfl (Or.inr rfl)
        (Or.inl rfl)
  | update i p =>
    have hi := ht i rfl
    simp only [applyCall]
    split
    · exact extends_refl seen w
    · exact extends_flag hi (extends_bindSource w hi) rfl rfl rfl rfl rfl rfl rfl (Or.inl rfl)
        (Or.inr rfl)
  | messageEdit m p =>
    exact extends_of rfl rfl rfl rfl rfl (fun _ h => h) (fun _ h => Or.inl h) (fun _ _ h => h)
      (fun _ _ h => Or.inl h) (le_refl _)
  | showModal i customId inputs =>
    have hi := ht i rfl
    simp only [applyCall]
    split
    · exact extends_refl seen w
    · exact extends_flag hi (extends_refl seen w) rfl rfl rfl rfl rfl rfl rfl (Or.inl rfl)
        (Or.inr rfl)
  | messageReply source text =>
    exact extends_of rfl rfl rfl rfl rfl (fun _ h => h) (fun _ h => Or.inl h) (fun _ _ h => h)
      (fun _ _ h => Or.inl h) (Nat.le_succ _)

theorem message_id (w : World) (m : Nat) : (w.message m).id = m := by
  unfold World.message
  cases h : w.messages.find? (fun x => x.id == m) with
  | none => rfl
  | some x =>
    have := List.find?_some h
    simpa using this

theorem keys_extends {seen : List Nat} {w w1 : World} (h : Extends seen w w1)
    (hkeys : ∀ j m, w.replyMessage j = some m → j.id ∈ seen) :
    ∀ j m, w1.replyMessage j = some m → j.id ∈ seen := by
  intro j m hj
  rcases h.replyNew j m hj with hj | hj
  · exact hkeys j m hj
  · exact hj

theorem extends_emit {seen : List Nat} {w w1 : World} (h : Extends seen w w1) (e : Effect) :
    Extends seen w (w1.emit e) :=
  extends_trans h (extends_of rfl rfl rfl rfl rfl (fun _ h => h) (fun _ h => Or.inl h)
    (fun _ _ h => h) (fun _ _ h => Or.inl h) (le_refl _))

theorem runCalls_extends (strict : Bool) {seen : List Nat} (cs : List Call) (w : World)
    (hkeys : ∀ j m, w.replyMessage j = some m → j.id ∈ seen)
    (ht : ∀ c ∈ cs, c.target = none) : Extends seen w (runCalls strict cs w) := by
  induction cs generalizing w with
  | nil => exact extends_refl seen w
  | cons c cs ih =>
    simp only [runCalls]
    have h := applyCall_extends strict w c hkeys
      (fun i hi => by rw [ht c (List.mem_cons_self _ _)] at hi; cases hi)
    split
    · rename_i w1 _ heq
      rw [heq] at h
      exact extends_trans h (ih w1 (keys_extends h hkeys)
        (fun c1 hc1 => ht c1 (List.mem_cons_of_mem _ hc1)))
    · rename_i w1 e heq
      rw [heq] at h
      exact extends_emit h _

theorem endHandler_target (site : Site) (size : Nat) (calls : List Call)
    (h : endHandler site size = .ok calls) : ∀ c ∈ calls, c.target = none := by
  unfold endHandler at h
  cases site <;> simp only at h <;> (try split at h) <;> cases h <;> intro c hc <;>
    simp at hc <;> (try rcases hc with rfl | rfl) <;> rfl

theorem extends_setCollector {seen : List Nat} {w : World} {c : Nat} {x y : Collector}
    (hd : w.distinct) (hcol : w.collector c = some x) (hid : y.id = c)
    (hsite : y.site = x.site) (hmsg : y.message = x.message) :
    Extends seen w (w.setCollector y) := by
  have hxid := collector_id w c x hcol
  refine ⟨rfl, rfl, ?_, ?_, fun _ h => h, fun _ h => Or.inl h, fun _ _ h => h,
    fun _ _ h => Or.inl h, le_refl _, fun _ h => h, rfl⟩
  · intro col hc
    by_cases hz : col.id = y.id
    · refine ⟨y, ?_, hz.symm, ?_, ?_⟩
      · simp only [World.setCollector, List.mem_map]
        exact ⟨col, hc, by simp [hz]⟩
      · have h1 := hd.1 col hc
        rw [hz, hid, hcol] at h1
        cases h1
        exact hsite
      · have h1 := hd.1 col hc
        rw [hz, hid, hcol] at h1
        cases h1
        exact hmsg
    · refine ⟨col, ?_, rfl, rfl, rfl⟩
      simp only [World.setCollector, List.mem_map]
      exact ⟨col, hc, by simp [hz]⟩
  · intro col1 hc1
    simp only [World.setCollector, List.mem_map] at hc1
    obtain ⟨z, hz, rfl⟩ := hc1
    by_cases hzy : z.id = y.id
    · have h1 := hd.1 z hz
      rw [hzy, hid, hcol] at h1
      have hzx : x = z := Option.some.inj h1
      subst hzx
      refine ⟨x, hz, ?_, ?_, ?_⟩ <;> simp [hxid, hid, hsite, hmsg]
    · refine ⟨z, hz, ?_, ?_, ?_⟩ <;> simp [hzy]

theorem endCollector_extends (strict : Bool) {seen : List Nat} {w : World} (hd : w.distinct)
    (hkeys : ∀ j m, w.replyMessage j = some m → j.id ∈ seen) (c : Nat) :
    Extends seen w (endCollector strict w c) := by
  unfold endCollector
  split
  · exact extends_refl seen w
  · rename_i col hcol
    split
    · exact extends_refl seen w
    · have h1 : Extends seen w
          ((w.setCollector { col with ended := true }).emit (.collectorEnded c)) :=
        extends_emit (extends_setCollector (y := { col with ended := true }) hd hcol
          (collector_id w c col hcol) rfl rfl) _
      split
      · rename_i calls hcalls
        exact extends_trans h1 (runCalls_extends strict calls _ (keys_extends h1 hkeys)
          (endHandler_target _ _ _ hcalls))
      · exact extends_emit h1 _

/-- An operation other than the creation of a collector extends the world. -/
theorem applyOp_extends (strict : Bool) {seen : List Nat} {w : World} (hd : w.distinct)
    (hkeys : ∀ j m, w.replyMessage j = some m → j.id ∈ seen) (op : Op)
    (ht : ∀ c i, op = .platform c → c.target = some i → i.id ∈ seen)
    (hc : ∀ m time site, op ≠ .createCollector m time site) :
    Extends seen w (applyOp strict w op).1 := by
  cases op with
  | platform call => exact applyCall_extends strict w call hkeys (fun i hi => ht call i rfl hi)
  | ackState i => exact extends_refl seen w
  | createCollector m time site => exact absurd rfl (hc m time site)
  | stop c => exact endCollector_extends strict hd hkeys c
  | setPage c page =>
    simp only [applyOp]
    split
    · rename_i col hcol
      exact extends_setCollector (y := { col with page := page }) hd hcol
        (collector_id w c col hcol) rfl rfl
    · exact extends_refl seen w
  | log level text err => exact extends_emit (extends_refl seen w) _

theorem replyMessage_of {w w1 : World} (h : w1.replyOf = w.replyOf) (j : Interaction) :
    w1.replyMessage j = w.replyMessage j := by
  simp [World.replyMessage, h]

theorem applyCall_reply (strict : Bool) (w : World) (c : Call) (j : Interaction)
    (hc : ∀ i, c.binds = some i → i.id ≠ j.id) :
    (applyCall strict w c).1.replyMessage j = w.replyMessage j := by
  have hens : ∀ i : Interaction, i.id ≠ j.id →
      (w.ensureReply i).1.replyMessage j = w.replyMessage j := by
    intro i hi
    rw [replyMessage_ensureReply]
    cases w.replyMessage j with
    | some m => rfl
    | none => simp [show ¬ j.id = i.id from fun h => hi h.symm]
  have hbind : ∀ i : Interaction, i.id ≠ j.id →
      (w.bindSource i).replyMessage j = w.replyMessage j := by
    intro i hi
    rw [replyMessage_bindSource]
    cases w.replyMessage j with
    | some m => rfl
    | none => simp [show ¬ j.id = i.id from fun h => hi h.symm]
  cases c with
  | deferReply i =>
    simp only [applyCall]
    split
    · rfl
    · exact (replyMessage_of rfl j).trans (hens i (hc i rfl))
  | reply i p =>
    simp only [applyCall]
    split
    · rfl
    · exact (replyMessage_of rfl j).trans (hens i (hc i rfl))
  | editReply i p =>
    simp only [applyCall]
    split
    · rfl
    · exact replyMessage_of rfl j
  | followUp i p =>
    simp only [applyCall]
    split
    · exact replyMessage_of rfl j
    · rfl
  | fetchReply i =>
    simp only [applyCall]
    split <;> rfl
  | deferUpdate i =>
    simp only [applyCall]
    split
    · rfl
    · exact (replyMessage_of rfl j).trans (hbind i (hc i rfl))
  | update i p =>
    simp only [applyCall]
    split
    · rfl
    · exact (replyMessage_of rfl j).trans (hbind i (hc i rfl))
  | messageEdit m p => exact replyMessage_of rfl j
  | showModal i customId inputs =>
    simp only [applyCall]
    split
    · rfl
    · exact replyMessage_of rfl j
  | messageReply source text => exact replyMessage_of rfl j

theorem runCalls_reply (strict : Bool) (cs : List Call) (w : World) (j : Interaction)
    (hc : ∀ c ∈ cs, c.binds = none) : (runCalls strict cs w).replyMessage j = w.replyMessage j := by
  induction cs generalizing w with
  | nil => rfl
  | cons c cs ih =>
    simp only [runCalls]
    have h := applyCall_reply strict w c j
      (fun i hi => by rw [hc c (List.mem_cons_self _ _)] at hi; cases hi)
    split
    · rename_i w1 _ heq
      rw [heq] at h
      rw [ih w1 (fun c1 hc1 => hc c1 (List.mem_cons_of_mem _ hc1))]
      exact h
    · rename_i w1 e heq
      rw [heq] at h
      exact (replyMessage_of rfl j).trans h

theorem endHandler_binds (site : Site) (size : Nat) (calls : List Call)
    (h : endHandler site size = .ok calls) : ∀ c ∈ calls, c.binds = none := by
  unfold endHandler at h
  cases site <;> simp only at h <;> (try split at h) <;> cases h <;> intro c hc <;>
    simp at hc <;> (try rcases hc with rfl | rfl) <;> rfl

theorem endCollector_reply (strict : Bool) (w : World) (c : Nat) (j : Interaction) :
    (endCollector strict w c).replyMessage j = w.replyMessage j := by
  unfold endCollector
  split
  · rfl
  · split
    · rfl
    · split
      · rename_i calls hcalls
        rw [runCalls_reply strict calls _ j (endHandler_binds _ _ _ hcalls)]
        exact replyMessage_of rfl j
      · exact replyMessage_of rfl j

/-- An operation that does not bind the reply of `j` leaves it as it is. -/
theorem applyOp_reply (strict : Bool) (w : World) (op : Op) (j : Interaction)
    (hc : ∀ c i, op = .platform c → c.binds = some i → i.id ≠ j.id) :
    (applyOp strict w op).1.replyMessage j = w.replyMessage j := by
  cases op with
  | platform call => exact applyCall_reply strict w call j (fun i hi => hc call i rfl hi)
  | ackState i => rfl
  | createCollector m time site => exact replyMessage_of rfl j
  | stop c => exact endCollector_reply strict w c j
  | setPage c page =>
    simp only [applyOp]
    split
    · exact replyMessage_of rfl j
    · rfl
  | log level text err => exact replyMessage_of rfl j

theorem admits_extends {strict router : Bool} {seen : List Nat} {w w1 : World}
    {g : Nat → Run} {γ : Run} (hs : Sound w seen g) (h : Extends seen w w1)
    (ha : w.admits strict router g γ)
    (hr : w1.replyMessage γ.owner = w.replyMessage γ.owner) :
    w1.admits strict router g γ := by
  unfold World.admits at *
  cases hst : γ.stage with
  | fresh =>
    rw [hst] at ha
    simp only at ha ⊢
    cases router with
    | true =>
      simp only [if_true] at ha ⊢
      refine ⟨hr.trans ha.1, fun ho => ha.2.1 ((owned_extends h _).1 ho), ?_⟩
      rw [h.pending]
      exact ha.2.2
    | false =>
      simp only [Bool.false_eq_true, if_false] at ha ⊢
      exact rejects_extends h ha
  | acked =>
    rw [hst] at ha
    simp only at ha ⊢
    obtain ⟨h1, ⟨m, hm, hlt⟩, h3, h4, h5⟩ := ha
    refine ⟨h.acked _ h1, ⟨m, h.reply _ m hm, lt_of_lt_of_le hlt h.nextMessage⟩,
      fun ho => h3 ((owned_extends h _).1 ho), ?_, ?_⟩
    · rw [h.pending]
      exact h4
    · intro j hj heq
      have hj0 := (arming_extends h g j).1 hj
      obtain ⟨m1, hm1, -⟩ := hs.below j hj0
      rw [h.reply j m1 hm1, h.reply _ m hm] at heq
      exact h5 j hj0 (by rw [hm1, hm, heq])
  | armed => trivial

theorem fits_extends {strict router : Bool} {seen : List Nat} {w w1 : World}
    {g : Nat → Run} {γ : Run} (hf : Fits strict router w seen g γ) (h : Extends seen w w1)
    (hd : w1.distinct) (hr : w1.replyMessage γ.owner = w.replyMessage γ.owner) :
    Fits strict router w1 seen g γ :=
  ⟨sound_extends hf.sound h hd, hf.owner, hf.click, knows_extends h hf.knows,
    admits_extends hf.sound h hf.admits hr⟩

theorem fits_known {strict router : Bool} {seen : List Nat} {w : World}
    {g : Nat → Run} {γ : Run} (hf : Fits strict router w seen g γ) (m : Nat)
    (hm : w.replyMessage γ.owner = some m) :
    Fits strict router w seen g { γ with known := some m } :=
  ⟨hf.sound, hf.owner, hf.click, fun m1 h1 => by cases h1; exact hm, hf.admits⟩

theorem applyCall_deferReply (strict : Bool) (w : World) (i : Interaction) :
    (w.rejects strict i = true ∧
      applyCall strict w (.deferReply i) = (w, .error .alreadyReplied)) ∨
    (w.rejects strict i = false ∧
      ∃ w1, applyCall strict w (.deferReply i) = (w1, .ok .unit) ∧ w1.acked i = true ∧
        (w.replyMessage i = none →
          w1.replyMessage i = some w.nextMessage ∧ w.nextMessage < w1.nextMessage)) := by
  cases hr : w.rejects strict i with
  | true => exact Or.inl ⟨rfl, by simp [applyCall, hr]⟩
  | false =>
    refine Or.inr ⟨rfl, _, by simp only [applyCall, hr]; rfl, ?_, ?_⟩
    · simp [World.acked, World.emit]
    · intro hnone
      constructor
      · refine (replyMessage_of (w := (w.ensureReply i).1) rfl i).trans ?_
        rw [replyMessage_ensureReply, hnone]
        simp
      · show w.nextMessage < (w.ensureReply i).1.nextMessage
        unfold World.ensureReply
        rw [hnone]
        exact Nat.lt_succ_self _

theorem applyCall_doReply (strict : Bool) (w : World) (i : Interaction) (p : Payload) :
    (w.rejects strict i = true ∧
      applyCall strict w (.reply i p) = (w, .error .alreadyReplied)) ∨
    (w.rejects strict i = false ∧
      ∃ w1, applyCall strict w (.reply i p) = (w1, .ok .unit) ∧ w1.acked i = true ∧
        (w.replyMessage i = none →
          w1.replyMessage i = some w.nextMessage ∧ w.nextMessage < w1.nextMessage)) := by
  cases hr : w.rejects strict i with
  | true => exact Or.inl ⟨rfl, by simp [applyCall, hr]⟩
  | false =>
    refine Or.inr ⟨rfl, _, by simp only [applyCall, hr]; rfl, ?_, ?_⟩
    · simp [World.acked, World.emit, World.patch]
    · intro hnone
      constructor
      · refine (replyMessage_of (w := (w.ensureReply i).1) rfl i).trans ?_
        rw [replyMessage_ensureReply, hnone]
        simp
      · show w.nextMessage < (w.ensureReply i).1.nextMessage
        unfold World.ensureReply
        rw [hnone]
        exact Nat.lt_succ_self _

theorem applyCall_editReply (strict : Bool) (w : World) (i : Interaction) (p : Payload) :
    (∃ e, (applyCall strict w (.editReply i p)).2 = .error e) ∨
      ∃ msg, (applyCall strict w (.editReply i p)).2 = .ok (.message msg) ∧
        w.replyMessage i = some msg.id := by
  simp only [applyCall]
  split
  · exact Or.inl ⟨_, rfl⟩
  · rename_i m hm
    exact Or.inr ⟨_, rfl, by rw [message_id]; exact hm⟩

theorem applyCall_fetchReply (strict : Bool) (w : World) (i : Interaction) :
    (applyCall strict w (.fetchReply i)).1 = w ∧
    ((∃ e, (applyCall strict w (.fetchReply i)).2 = .error e) ∨
      ∃ msg, (applyCall strict w (.fetchReply i)).2 = .ok (.message msg) ∧
        w.replyMessage i = some msg.id) := by
  simp only [applyCall]
  split
  · exact ⟨rfl, Or.inl ⟨_, rfl⟩⟩
  · rename_i m hm
    exact ⟨rfl, Or.inr ⟨_, rfl, by rw [message_id]; exact hm⟩⟩

/-- The run has acknowledged its owner with a reply. -/
theorem fits_ack {strict router : Bool} {seen : List Nat} {w w1 : World}
    {g : Nat → Run} {γ : Run} (hf : Fits strict router w seen g γ) (h : Extends seen w w1)
    (hd : w1.distinct) (hrej : w.rejects strict γ.owner = false)
    (hack : w1.acked γ.owner = true)
    (hnew : w.replyMessage γ.owner = none →
      w1.replyMessage γ.owner = some w.nextMessage ∧ w.nextMessage < w1.nextMessage) :
    Fits strict router w1 seen g { γ with stage := γ.stage.ack } := by
  obtain ⟨hs, ho, hc, hk, ha⟩ := hf
  obtain ⟨owner, click, stage, known⟩ := γ
  refine ⟨sound_extends hs h hd, ho, hc, knows_extends h hk, ?_⟩
  cases stage with
  | fresh =>
    cases router with
    | false =>
      simp only [World.admits, Bool.false_eq_true, if_false] at ha
      simp only at hrej
      rw [ha] at hrej
      cases hrej
    | true =>
      simp only [World.admits, if_true] at ha
      obtain ⟨h1, h2, h3⟩ := ha
      obtain ⟨hm, hlt⟩ := hnew h1
      simp only at hm hlt hack
      simp only [World.admits, Stage.ack]
      refine ⟨hack, ⟨_, hm, hlt⟩, fun ho1 => h2 ((owned_extends h _).1 ho1), ?_, ?_⟩
      · rw [h.pending]
        exact fun t ht _ => h3 t ht
      · intro j hj heq
        obtain ⟨m1, hm1, hlt1⟩ := hs.below j ((arming_extends h g j).1 hj)
        rw [h.reply j m1 hm1, hm] at heq
        cases heq
        exact lt_irrefl _ hlt1
  | acked =>
    have hr : w1.replyMessage owner = w.replyMessage owner := by
      simp only [World.admits] at ha
      obtain ⟨m, hm, -⟩ := ha.2.1
      rw [hm, h.reply _ m hm]
    exact @admits_extends strict router seen w w1 g ⟨owner, click, .acked, known⟩ hs h ha hr
  | armed => trivial

theorem fits_create {strict router : Bool} {seen : List Nat} {w : World}
    {g : Nat → Run} {γ : Run} (hf : Fits strict router w seen g γ) (m time : Nat) (site : Site)
    (hp : γ.permits (.createCollector m time site)) :
    Fits strict router (applyOp strict w (.createCollector m time site)).1 seen g
      { γ with stage := .armed } := by
  obtain ⟨hs, ho, hc, hk, ha⟩ := hf
  obtain ⟨hst, hkn, hsite⟩ := hp
  have hd := applyOp_distinct strict hs.ids (.createCollector m time site)
  have hrm := hk m hkn
  unfold World.admits at ha
  rw [hst] at ha
  simp only at ha
  obtain ⟨a1, ⟨m0, a2, a3⟩, a4, a5, a6⟩ := ha
  have hmem : ∀ col, col ∈ (applyOp strict w (.createCollector m time site)).1.collectors ↔
      col ∈ w.collectors ∨
        col = { id := w.nextCollector, message := m, time := time, createdAt := w.now,
                site := site } := by
    intro col
    simp [applyOp, World.emit]
  have hown : ∀ j, (applyOp strict w (.createCollector m time site)).1.owned j ↔
      w.owned j ∨ j.id = γ.owner.id := by
    intro j
    unfold World.owned
    constructor
    · rintro ⟨col, hcol, hid⟩
      rcases (hmem col).1 hcol with h | h
      · exact Or.inl ⟨col, h, hid⟩
      · subst h
        exact Or.inr (hid.symm.trans hsite)
    · rintro (⟨col, hcol, hid⟩ | h)
      · exact ⟨col, (hmem col).2 (Or.inl hcol), hid⟩
      · exact ⟨_, (hmem _).2 (Or.inr rfl), hsite.trans h.symm⟩
  have harm : ∀ j, (applyOp strict w (.createCollector m time site)).1.arming g j ↔
      w.arming g j ∨ j.id = γ.owner.id := by
    intro j
    unfold World.arming
    rw [hown]
    constructor
    · rintro ((h | h) | h)
      · exact Or.inl (Or.inl h)
      · exact Or.inr h
      · exact Or.inl (Or.inr h)
    · rintro ((h | h) | h)
      · exact Or.inl (Or.inl h)
      · exact Or.inr h
      · exact Or.inl (Or.inr h)
  refine ⟨⟨hd, hs.tasks, hs.flags, hs.keys, ?_, ?_, ?_, ?_, ?_⟩, ho, hc, hk, trivial⟩
  · intro col hcol
    rcases (hmem col).1 hcol with h | h
    · exact hs.owners col h
    · subst h
      refine ⟨hsite ▸ ho, ?_, ?_⟩
      · exact (acked_congr w hsite).trans a1
      · exact (replyMessage_congr w hsite).trans hrm
  · intro a ha b hb hab
    rcases (hmem a).1 ha with h1 | h1 <;> rcases (hmem b).1 hb with h2 | h2
    · exact hs.single a h1 b h2 hab
    · subst h2
      exact absurd ⟨a, h1, hab.trans hsite⟩ a4
    · subst h1
      exact absurd ⟨b, h2, hab.symm.trans hsite⟩ a4
    · rw [h1, h2]
  · intro j hj
    rcases (harm j).1 hj with h | h
    · exact hs.below j h
    · exact ⟨m0, (replyMessage_congr w h).trans a2, a3⟩
  · intro j1 j2 h1 h2 heq
    have heq0 : w.replyMessage j1 = w.replyMessage j2 := heq
    rcases (harm j1).1 h1 with h1 | h1 <;> rcases (harm j2).1 h2 with h2 | h2
    · exact hs.apart j1 j2 h1 h2 heq0
    · exact absurd (heq0.trans (replyMessage_congr w h2)) (a6 j1 h1)
    · exact absurd (heq0.symm.trans (replyMessage_congr w h1)) (a6 j2 h2)
    · exact h1.trans h2.symm
  · intro t ht
    obtain ⟨r1, r2, r3, r4, r5⟩ := hs.runs t ht
    refine ⟨r1, r2, r3, r4, ?_⟩
    unfold World.holds at r5 ⊢
    cases hgt : (g t.id).stage with
    | fresh =>
      rw [hgt] at r5
      exact r5
    | acked =>
      rw [hgt] at r5
      refine ⟨r5.1, ?_, r5.2.2⟩
      rw [hown]
      rintro (h | h)
      · exact r5.2.1 h
      · exact a5 t ht hgt h
    | armed => trivial

/-- One operation of a run that does what its book-keeping permits keeps the world sound
and the book-keeping fitting. -/
theorem applyOp_fits {strict router : Bool} {seen : List Nat} {w : World}
    {g : Nat → Run} {γ : Run} (hf : Fits strict router w seen g γ) (op : Op)
    (hp : γ.permits op) :
    Fits strict router (applyOp strict w op).1 seen g (γ.next op (applyOp strict w op).2) := by
  have hd := applyOp_distinct strict hf.sound.ids op
  have hsame : ∀ (hx : Extends seen w (applyOp strict w op).1)
      (_ : ∀ c i, op = .platform c → c.binds = some i → i.id ≠ γ.owner.id),
      Fits strict router (applyOp strict w op).1 seen g γ :=
    fun hx hb => fits_extends hf hx hd (applyOp_reply strict w op γ.owner hb)
  cases op with
  | platform call =>
    cases call with
    | deferReply i =>
      have hid : i.id = γ.owner.id := hp
      have hx := applyCall_extends strict w (.deferReply i) hf.sound.keys
        (fun i1 h1 => by cases h1; exact hid ▸ hf.owner)
      rcases applyCall_deferReply strict w i with ⟨-, heq⟩ | ⟨hrej, w1, heq, hack, hnew⟩
      · simp only [applyOp, heq, next_error]
        exact hf
      · simp only [applyOp, heq, next_deferReply] at hd ⊢
        rw [heq] at hx
        rw [replyMessage_congr w hid] at hnew
        rw [replyMessage_congr w1 hid] at hnew
        exact fits_ack hf hx hd ((rejects_congr w strict hid).symm.trans hrej)
          ((acked_congr w1 hid).symm.trans hack) hnew
    | reply i p =>
      have hid : i.id = γ.owner.id := hp
      have hx := applyCall_extends strict w (.reply i p) hf.sound.keys
        (fun i1 h1 => by cases h1; exact hid ▸ hf.owner)
      rcases applyCall_doReply strict w i p with ⟨-, heq⟩ | ⟨hrej, w1, heq, hack, hnew⟩
      · simp only [applyOp, heq, next_error]
        exact hf
      · simp only [applyOp, heq, next_reply] at hd ⊢
        rw [heq] at hx
        rw [replyMessage_congr w hid] at hnew
        rw [replyMessage_congr w1 hid] at hnew
        exact fits_ack hf hx hd ((rejects_congr w strict hid).symm.trans hrej)
          ((acked_congr w1 hid).symm.trans hack) hnew
    | editReply i p =>
      have hx := applyCall_extends strict w (.editReply i p) hf.sound.keys
        (fun i1 h1 => by cases h1)
      have h1 := hsame hx (fun c i1 hc hb => by cases hc; cases hb)
      rcases applyCall_editReply strict w i p with ⟨e, he⟩ | ⟨msg, hm, hr⟩
      · simp only [applyOp, he, next_error]
        exact h1
      · simp only [applyOp, hm, next_editReply_message]
        split
        · rename_i hid
          refine fits_known h1 msg.id ?_
          rw [applyOp_reply strict w _ γ.owner (fun c i1 hc hb => by cases hc; cases hb)]
          exact (replyMessage_congr w hid).symm.trans hr
        · exact h1
    | followUp i p =>
      have hx := applyCall_extends strict w (.followUp i p) hf.sound.keys
        (fun i1 h1 => by cases h1)
      simp only [next_followUp]
      exact hsame hx (fun c i1 hc hb => by cases hc; cases hb)
    | fetchReply i =>
      have hx := applyCall_extends strict w (.fetchReply i) hf.sound.keys
        (fun i1 h1 => by cases h1)
      have h1 := hsame hx (fun c i1 hc hb => by cases hc; cases hb)
      obtain ⟨-, hres⟩ := applyCall_fetchReply strict w i
      rcases hres with ⟨e, he⟩ | ⟨msg, hm, hr⟩
      · simp only [applyOp, he, next_error]
        exact h1
      · simp only [applyOp, hm, next_fetchReply_message]
        split
        · rename_i hid
          refine fits_known h1 msg.id ?_
          rw [applyOp_reply strict w _ γ.owner (fun c i1 hc hb => by cases hc; cases hb)]
          exact (replyMessage_congr w hid).symm.trans hr
        · exact h1
    | deferUpdate i =>
      obtain ⟨hid, hne⟩ : i.id = γ.click.id ∧ i.id ≠ γ.owner.id := hp
      have hx := applyCall_extends strict w (.deferUpdate i) hf.sound.keys
        (fun i1 h1 => by cases h1; exact hid ▸ hf.click)
      simp only [next_deferUpdate]
      exact hsame hx (fun c i1 hc hb => by cases hc; cases hb; exact hne)
    | update i p =>
      obtain ⟨hid, hne⟩ : i.id = γ.click.id ∧ i.id ≠ γ.owner.id := hp
      have hx := applyCall_extends strict w (.update i p) hf.sound.keys
        (fun i1 h1 => by cases h1; exact hid ▸ hf.click)
      simp only [next_update]
      exact hsame hx (fun c i1 hc hb => by cases hc; cases hb; exact hne)
    | messageEdit m p =>
      have hx := applyCall_extends strict w (.messageEdit m p) hf.sound.keys
        (fun i1 h1 => by cases h1)
      simp only [next_messageEdit]
      exact hsame hx (fun c i1 hc hb => by cases hc; cases hb)
    | showModal i customId inputs =>
      have hid : i.id = γ.owner.id := hp
      have hx := applyCall_extends strict w (.showModal i customId inputs) hf.sound.keys
        (fun i1 h1 => by cases h1; exact hid ▸ hf.owner)
      simp only [next_showModal]
      exact hsame hx (fun c i1 hc hb => by cases hc; cases hb)
    | messageReply source text =>
      have hx := applyCall_extends strict w (.messageReply source text) hf.sound.keys
        (fun i1 h1 => by cases h1)
      simp only [next_messageReply]
      exact hsame hx (fun c i1 hc hb => by cases hc; cases hb)
  | ackState i =>
    simp only [next_ackState]
    exact hsame (applyOp_extends strict hf.sound.ids hf.sound.keys _
      (fun c i1 hc => by cases hc) (fun m t s hc => by cases hc))
      (fun c i1 hc => by cases hc)
  | createCollector m time site =>
    simp only [next_createCollector]
    exact fits_create hf m time site hp
  | stop c =>
    simp only [next_stop]
    exact hsame (applyOp_extends strict hf.sound.ids hf.sound.keys _
      (fun c i1 hc => by cases hc) (fun m t s hc => by cases hc))
      (fun c i1 hc => by cases hc)
  | setPage c page =>
    simp only [next_setPage]
    exact hsame (applyOp_extends strict hf.sound.ids hf.sound.keys _
      (fun c i1 hc => by cases hc) (fun m t s hc => by cases hc))
      (fun c i1 hc => by cases hc)
  | log level text err =>
    simp only [next_log]
    exact hsame (applyOp_extends strict hf.sound.ids hf.sound.keys _
      (fun c i1 hc => by cases hc) (fun m t s hc => by cases hc))
      (fun c i1 hc => by cases hc)

theorem permits_target {γ : Run} {c : Call} (hp : γ.permits (.platform c)) {i : Interaction}
    (hi : c.target = some i) : i.id = γ.owner.id ∨ i.id = γ.click.id := by
  cases c <;> cases hi
  · exact Or.inl hp
  · exact Or.inl hp
  · exact Or.inr hp.1
  · exact Or.inr hp.1
  · exact Or.inl hp

theorem young_extends {seen : List Nat} {w w1 : World} (h : Extends seen w w1) {x n : Nat}
    (hn : n ≤ w.nextCollector) (hy : w.young x n) : n ≤ w1.nextCollector ∧ w1.young x n := by
  refine ⟨h.nextCollector ▸ hn, fun col1 hc1 hid => ?_⟩
  obtain ⟨col, hc, e1, e2, -⟩ := h.back col1 hc1
  rw [e1]
  exact hy col hc (by rw [← e2]; exact hid)

theorem applyOp_young {strict router : Bool} {seen : List Nat} {w : World}
    {g : Nat → Run} {γ : Run} (hf : Fits strict router w seen g γ) (op : Op)
    (hp : γ.permits op) {x n : Nat} (hn : n ≤ w.nextCollector) (hy : w.young x n) :
    n ≤ (applyOp strict w op).1.nextCollector ∧ (applyOp strict w op).1.young x n := by
  by_cases hc : ∃ m time site, op = .createCollector m time site
  · obtain ⟨m, time, site, rfl⟩ := hc
    refine ⟨Nat.le_succ_of_le hn, fun col hcol hid => ?_⟩
    simp only [applyOp, World.emit, List.mem_append, List.mem_singleton] at hcol
    rcases hcol with h | h
    · exact hy col h hid
    · subst h
      exact hn
  · refine young_extends (applyOp_extends strict hf.sound.ids hf.sound.keys op ?_ ?_) hn hy
    · intro c i hop hi
      subst hop
      rcases permits_target hp hi with h | h
      · exact h ▸ hf.owner
      · exact h ▸ hf.click
    · exact fun m time site h => hc ⟨m, time, site, h⟩

/-- A run that is suspended on a backend request joins the suspended runs with its
book-keeping. -/
theorem sound_suspend {strict router : Bool} {seen : List Nat} {w : World}
    {g : Nat → Run} {γ : Run} (hf : Fits strict router w seen g γ) (req : Request)
    (k : HttpResult → Prog Unit) (hq : router = true → γ.stage ≠ .fresh)
    (ho : ∀ r, Owns false γ (k r)) :
    Sound (({ w with nextTask := w.nextTask + 1,
                     pending := w.pending ++ [Task.mk w.nextTask req k] }).emit
        (.request w.nextTask req)) seen (Function.update g w.nextTask γ) := by
  obtain ⟨hs, hown, hclick, hk, ha⟩ := hf
  have hold : ∀ t ∈ w.pending, Function.update g w.nextTask γ t.id = g t.id :=
    fun t ht => Function.update_noteq (Nat.ne_of_lt (hs.tasks t ht)) _ _
  have hnew : Function.update g w.nextTask γ w.nextTask = γ := Function.update_same _ _ _
  have harm : ∀ j,
      World.arming
          (({ w with nextTask := w.nextTask + 1,
                     pending := w.pending ++ [Task.mk w.nextTask req k] }).emit
            (.request w.nextTask req))
          (Function.update g w.nextTask γ) j ↔
        w.arming g j ∨ (γ.owner.id = j.id ∧ γ.stage = .acked) := by
    intro j
    unfold World.arming World.owned
    simp only [World.emit, List.mem_append, List.mem_singleton]
    constructor
    · rintro (h | ⟨t, ht | ht, h1, h2⟩)
      · exact Or.inl (Or.inl h)
      · rw [hold t ht] at h1 h2
        exact Or.inl (Or.inr ⟨t, ht, h1, h2⟩)
      · subst ht
        rw [hnew] at h1 h2
        exact Or.inr ⟨h1, h2⟩
    · rintro ((h | ⟨t, ht, h1, h2⟩) | ⟨h1, h2⟩)
      · exact Or.inl h
      · refine Or.inr ⟨t, Or.inl ht, ?_, ?_⟩ <;> rw [hold t ht] <;> assumption
      · refine Or.inr ⟨_, Or.inr rfl, ?_, ?_⟩ <;> simp only [hnew] <;> assumption
  have hacked : γ.stage = .acked →
      w.acked γ.owner = true ∧ (∃ m, w.replyMessage γ.owner = some m ∧ m < w.nextMessage) ∧
      ¬ w.owned γ.owner ∧
      (∀ t ∈ w.pending, (g t.id).stage = .acked → (g t.id).owner.id ≠ γ.owner.id) ∧
      ∀ j, w.arming g j → w.replyMessage j ≠ w.replyMessage γ.owner := by
    intro hst
    unfold World.admits at ha
    rw [hst] at ha
    exact ha
  refine ⟨distinct_frame rfl rfl hs.ids, ?_, hs.flags, hs.keys, hs.owners, hs.single, ?_, ?_, ?_⟩
  · intro t ht
    simp only [World.emit, List.mem_append, List.mem_singleton] at ht ⊢
    rcases ht with ht | ht
    · exact Nat.lt_succ_of_lt (hs.tasks t ht)
    · subst ht
      exact Nat.lt_succ_self _
  · intro j hj
    rcases (harm j).1 hj with h | ⟨h1, h2⟩
    · exact hs.below j h
    · obtain ⟨-, ⟨m, hm, hlt⟩, -⟩ := hacked h2
      exact ⟨m, (replyMessage_congr w h1).symm.trans hm, hlt⟩
  · intro j1 j2 h1 h2 heq
    have heq0 : w.replyMessage j1 = w.replyMessage j2 := heq
    rcases (harm j1).1 h1 with h1 | ⟨h1, s1⟩ <;> rcases (harm j2).1 h2 with h2 | ⟨h2, s2⟩
    · exact hs.apart j1 j2 h1 h2 heq0
    · exact absurd (heq0.trans (replyMessage_congr w h2.symm)) ((hacked s2).2.2.2.2 j1 h1)
    · exact absurd (heq0.symm.trans (replyMessage_congr w h1.symm)) ((hacked s1).2.2.2.2 j2 h2)
    · exact h1.symm.trans h2
  · intro t ht
    simp only [World.emit, List.mem_append, List.mem_singleton] at ht
    rcases ht with ht | ht
    · obtain ⟨r1, r2, r3, r4, r5⟩ := hs.runs t ht
      rw [hold t ht]
      refine ⟨r1, r2, r3, r4, ?_⟩
      unfold World.holds at r5 ⊢
      rw [hold t ht]
      cases hgt : (g t.id).stage with
      | fresh =>
        rw [hgt] at r5
        exact r5
      | acked =>
        rw [hgt] at r5
        refine ⟨r5.1, r5.2.1, ?_⟩
        intro t1 ht1 hne hst
        simp only [World.emit, List.mem_append, List.mem_singleton] at ht1
        rcases ht1 with ht1 | ht1
        · rw [hold t1 ht1] at hst ⊢
          exact r5.2.2 t1 ht1 hne hst
        · subst ht1
          simp only [hnew] at hst ⊢
          exact fun h => (hacked hst).2.2.2.1 t ht hgt h.symm
      | armed => trivial
    · subst ht
      simp only [hnew]
      refine ⟨ho, hown, hclick, hk, ?_⟩
      unfold World.holds
      simp only [hnew]
      cases hst : γ.stage with
      | fresh =>
        cases router with
        | true => exact absurd hst (hq rfl)
        | false =>
          unfold World.admits at ha
          rw [hst] at ha
          simp only [Bool.false_eq_true, if_false, World.rejects, Bool.and_eq_true] at ha
          exact ha.1
      | acked =>
        obtain ⟨a1, -, a3, a4, -⟩ := hacked hst
        refine ⟨a1, a3, ?_⟩
        intro t1 ht1 hne hst1
        simp only [World.emit, List.mem_append, List.mem_singleton] at ht1
        rcases ht1 with ht1 | ht1
        · rw [hold t1 ht1] at hst1 ⊢
          exact a4 t1 ht1 hst1
        · subst ht1
          exact absurd rfl hne
      | armed => trivial

/-- Running an asynchronous function that does what its book-keeping permits keeps
the world sound; the collectors of an interaction keep their lower bound. -/
theorem exec_sound {strict router : Bool} (p : Prog Unit) {seen : List Nat} {w : World}
    {g : Nat → Run} {γ : Run} (hf : Fits strict router w seen g γ) (ho : Owns router γ p) :
    (∃ g1, Sound (exec strict p w) seen g1) ∧
      ∀ x n, n ≤ w.nextCollector → w.young x n →
        n ≤ (exec strict p w).nextCollector ∧ (exec strict p w).young x n := by
  induction p generalizing w g γ with
  | pure a => exact ⟨⟨g, hf.sound⟩, fun x n hn hy => ⟨hn, hy⟩⟩
  | throw e =>
    exact ⟨⟨g, sound_extends hf.sound (extends_emit (extends_refl seen w) _)
      (distinct_frame rfl rfl hf.sound.ids)⟩, fun x n hn hy => ⟨hn, hy⟩⟩
  | http req k _ =>
    exact ⟨⟨_, sound_suspend hf req k ho.1 (fun r => by
      cases router with
      | true => exact obeys_weaken _ _ (ho.2 r)
      | false => exact ho.2 r)⟩, fun x n hn hy => ⟨hn, hy⟩⟩
  | call op k ih =>
    simp only [exec]
    obtain ⟨h1, h2⟩ := ih (applyOp strict w op).2 (applyOp_fits hf op ho.1) (ho.2 _)
    refine ⟨h1, fun x n hn hy => ?_⟩
    obtain ⟨hn1, hy1⟩ := applyOp_young hf op ho.1 hn hy
    exact h2 x n hn1 hy1

/-- Soundness does not depend on the clock, the trace and what has settled, and it
survives the removal of suspended runs. -/
theorem sound_frame {w w1 : World} {seen : List Nat} {g : Nat → Run} (hs : Sound w seen g)
    (hp : ∀ t ∈ w1.pending, t ∈ w.pending) (hn : w1.nextTask = w.nextTask)
    (hc : w1.collectors = w.collectors) (hx : w1.nextCollector = w.nextCollector)
    (hd : w1.deferred = w.deferred) (hr : w1.replied = w.replied)
    (ho : w1.replyOf = w.replyOf) (hm : w1.nextMessage = w.nextMessage) :
    Sound w1 seen g := by
  have hack : ∀ j, w1.acked j = w.acked j := fun j => by simp [World.acked, hd, hr]
  have hrep : ∀ j, w1.replyMessage j = w.replyMessage j := replyMessage_of ho
  have hown : ∀ j, w1.owned j ↔ w.owned j := fun j => by simp [World.owned, hc]
  have harm : ∀ j, w1.arming g j → w.arming g j := by
    rintro j (h | ⟨t, ht, h⟩)
    · exact Or.inl ((hown j).1 h)
    · exact Or.inr ⟨t, hp t ht, h⟩
  refine ⟨distinct_frame hc hx hs.ids, ?_, ?_, ?_, ?_, ?_, ?_, ?_, ?_⟩
  · intro t ht
    rw [hn]
    exact hs.tasks t (hp t ht)
  · intro j hj
    exact hs.flags j ((hack j).symm.trans hj)
  · intro j m hj
    exact hs.keys j m ((hrep j).symm.trans hj)
  · intro col hcol
    rw [hc] at hcol
    rw [hack, hrep]
    exact hs.owners col hcol
  · rw [hc]
    exact hs.single
  · intro j hj
    rw [hrep, hm]
    exact hs.below j (harm j hj)
  · intro j1 j2 h1 h2 heq
    rw [hrep, hrep] at heq
    exact hs.apart j1 j2 (harm j1 h1) (harm j2 h2) heq
  · intro t ht
    obtain ⟨r1, r2, r3, r4, r5⟩ := hs.runs t (hp t ht)
    refine ⟨r1, r2, r3, fun m hm1 => (hrep _).trans (r4 m hm1), ?_⟩
    unfold World.holds at r5 ⊢
    cases hgt : (g t.id).stage with
    | fresh =>
      rw [hgt] at r5
      exact (hack _).trans r5
    | acked =>
      rw [hgt] at r5
      exact ⟨(hack _).trans r5.1, fun h => r5.2.1 ((hown _).1 h),
        fun t1 ht1 => r5.2.2 t1 (hp t1 ht1)⟩
    | armed => trivial

theorem sound_seen {w : World} {seen seen1 : List Nat} {g : Nat → Run} (hs : Sound w seen g)
    (h : ∀ x ∈ seen, x ∈ seen1) : Sound w seen1 g :=
  ⟨hs.ids, hs.tasks, fun j hj => h _ (hs.flags j hj), fun j m hj => h _ (hs.keys j m hj),
    fun col hcol => ⟨h _ (hs.owners col hcol).1, (hs.owners col hcol).2⟩, hs.single, hs.below,
    hs.apart, fun t ht => ⟨(hs.runs t ht).1, h _ (hs.runs t ht).2.1, h _ (hs.runs t ht).2.2.1,
      (hs.runs t ht).2.2.2⟩⟩

/-- A backend response resumes a suspended run: the world stays sound. -/
theorem response_sound (strict : Bool) (reg : Registry) {w : World} {seen : List Nat}
    {g : Nat → Run} (hs : Sound w seen g) (t : Nat) (r : HttpResult) :
    ∃ g1, Sound (step strict reg w (.response t r)) seen g1 := by
  simp only [step]
  split
  · exact ⟨g, hs⟩
  · rename_i task htask
    have hmem : task ∈ w.pending := List.mem_of_find?_eq_some htask
    have hid : task.id = t := by
      have := List.find?_some htask
      simpa using this
    obtain ⟨r1, r2, r3, r4, r5⟩ := hs.runs task hmem
    have hsub : ∀ t1 ∈ w.pending.filter (fun x => x.id != t), t1 ∈ w.pending ∧ t1.id ≠ task.id := by
      intro t1 ht1
      simp only [List.mem_filter, bne_iff_ne, ne_eq] at ht1
      exact ⟨ht1.1, hid ▸ ht1.2⟩
    have hs1 : Sound (({ w with pending := w.pending.filter (fun x => x.id != t) }).settleAll)
        seen g :=
      sound_frame hs (fun t1 ht1 => (hsub t1 ht1).1) rfl rfl rfl rfl rfl rfl rfl
    refine (@exec_sound strict false (task.resume r) seen _ g (g task.id)
      ⟨hs1, r2, r3, fun m hm => r4 m hm, ?_⟩ (r1 r)).1
    unfold World.holds at r5
    unfold World.admits
    cases hgt : (g task.id).stage with
    | fresh =>
      rw [hgt] at r5
      simp only [Bool.false_eq_true, if_false]
      have hacked : w.acked (g task.id).owner = true := r5
      simp only [World.rejects, World.settleAll, World.acked, Bool.and_eq_true, Bool.or_eq_true,
        List.contains_eq_any_beq, List.any_eq_true, beq_iff_eq, List.mem_append] at hacked ⊢
      refine ⟨hacked, Or.inr ?_⟩
      rcases hacked with ⟨x, hx, rfl⟩ | ⟨x, hx, rfl⟩
      · exact ⟨_, Or.inl (Or.inr hx), rfl⟩
      · exact ⟨_, Or.inr hx, rfl⟩
    | acked =>
      rw [hgt] at r5
      obtain ⟨a1, a2, a3⟩ := r5
      have harm0 : w.arming g (g task.id).owner := Or.inr ⟨task, hmem, rfl, hgt⟩
      refine ⟨a1, hs.below _ harm0, a2, ?_, ?_⟩
      · intro t1 ht1 hst
        exact a3 t1 (hsub t1 ht1).1 (hsub t1 ht1).2 hst
      · intro j hj heq
        have hj0 : w.arming g j := by
          rcases hj with h | ⟨t1, ht1, h⟩
          · exact Or.inl h
          · exact Or.inr ⟨t1, (hsub t1 ht1).1, h⟩
        have hjid := hs.apart j _ hj0 harm0 heq
        rcases hj with h | ⟨t1, ht1, h1, h2⟩
        · exact a2 ((owned_congr w hjid).1 h)
        · exact a3 t1 (hsub t1 ht1).1 (hsub t1 ht1).2 h2 (h1.trans hjid)
    | armed => trivial

theorem foldl_end_sound (strict : Bool) (due : List Nat) {w : World} {seen : List Nat}
    {g : Nat → Run} (hs : Sound w seen g) : Sound (due.foldl (endCollector strict) w) seen g := by
  induction due generalizing w with
  | nil => exact hs
  | cons c rest ih =>
    exact ih (sound_extends hs (endCollector_extends strict hs.ids hs.keys c)
      (endCollector_distinct strict hs.ids c))

/-- The clock advances and the timers that are due fire: the world stays sound. -/
theorem tick_sound (strict : Bool) (reg : Registry) {w : World} {seen : List Nat}
    {g : Nat → Run} (hs : Sound w seen g) (t : Nat) :
    Sound (step strict reg w (.tick t)) seen g := by
  simp only [step]
  exact foldl_end_sound strict _
    (sound_frame hs (fun _ h => h) rfl rfl rfl rfl rfl rfl rfl)

theorem extends_settleOthers (seen : List Nat) (w : World) (i : Interaction) :
    Extends seen w (w.settleOthers i) :=
  ⟨rfl, rfl, fun col h => ⟨col, h, rfl, rfl, rfl⟩, fun col h => ⟨col, h, rfl, rfl, rfl⟩,
    fun _ h => h, fun _ h => Or.inl h, fun _ _ h => h, fun _ _ h => Or.inl h, le_refl _,
    fun _ h => List.mem_append_left _ h, rfl⟩

/-- The `collect` handler of a collector runs on a click that is not on the collector's
own interaction: the world stays sound. -/
theorem collect_sound (strict : Bool) (reg : Registry) (i : Interaction) {w : World}
    {seen : List Nat} {g : Nat → Run} (hs : Sound w seen g) (hi : i.id ∈ seen) (c n : Nat)
    (hc : c < n) (hn : n ≤ w.nextCollector) (hy : w.young i.id n) (x y : Collector)
    (hcol : w.collector c = some x) (hsite : y.site = x.site) (hid : y.id = x.id)
    (hmsg : y.message = x.message) :
    (∃ g1, Sound (exec strict (collectHandler reg y i)
        (((w.setCollector y).settleOthers i).emit (.collected c i.id))) seen g1) ∧
      n ≤ (exec strict (collectHandler reg y i)
        (((w.setCollector y).settleOthers i).emit (.collected c i.id))).nextCollector ∧
      (exec strict (collectHandler reg y i)
        (((w.setCollector y).settleOthers i).emit (.collected c i.id))).young i.id n := by
  have hmem : x ∈ w.collectors := List.mem_of_find?_eq_some hcol
  have hcid := collector_id w c x hcol
  obtain ⟨o1, o2, o3⟩ := hs.owners x hmem
  have hne : i.id ≠ y.site.interaction.id := by
    intro h
    rw [hsite] at h
    have := hy x hmem h.symm
    omega
  have hx : Extends seen w (((w.setCollector y).settleOthers i).emit (.collected c i.id)) :=
    extends_emit (extends_trans (extends_setCollector hs.ids hcol (hid.trans hcid) hsite hmsg)
      (extends_settleOthers seen _ i)) _
  have hd : (((w.setCollector y).settleOthers i).emit (.collected c i.id)).distinct :=
    @distinct_frame (w.setCollector y) _ rfl rfl
      (setCollector_distinct hs.ids hcol (hid.trans hcid))
  have hs1 := sound_extends hs hx hd
  obtain ⟨hn1, hy1⟩ := young_extends hx hn hy
  have hfit : Fits strict false (((w.setCollector y).settleOthers i).emit (.collected c i.id))
      seen g { owner := y.site.interaction, click := i } := by
    refine ⟨hs1, hsite ▸ o1, hi, (fun m hm => by cases hm), ?_⟩
    simp only [World.admits, Bool.false_eq_true, if_false]
    have hacked : w.acked y.site.interaction = true := hsite ▸ o2
    simp only [World.rejects, World.settleOthers, World.setCollector, World.emit, World.acked,
      Bool.and_eq_true, Bool.or_eq_true, List.contains_eq_any_beq, List.any_eq_true,
      beq_iff_eq, List.mem_append, List.mem_filter, bne_iff_ne, ne_eq] at hacked ⊢
    refine ⟨hacked, Or.inr ?_⟩
    rcases hacked with ⟨z, hz, hze⟩ | ⟨z, hz, hze⟩
    · exact ⟨z, Or.inr ⟨Or.inl hz, fun h => hne (hze.trans h).symm⟩, hze⟩
    · exact ⟨z, Or.inr ⟨Or.inr hz, fun h => hne (hze.trans h).symm⟩, hze⟩
  obtain ⟨e1, e2⟩ := exec_sound (collectHandler reg y i) hfit (owns_collect reg y i hne)
  exact ⟨e1, e2 i.id n hn1 hy1⟩

/-- A collector's listener receives a click that is not on the collector's own
interaction: the world stays sound. -/
theorem handleCollect_sound (strict : Bool) (reg : Registry) (i : Interaction) {w : World}
    {seen : List Nat} {g : Nat → Run} (hs : Sound w seen g) (hi : i.id ∈ seen) (c n : Nat)
    (hc : c < n) (hn : n ≤ w.nextCollector) (hy : w.young i.id n) :
    (∃ g1, Sound (handleCollect strict reg i w c) seen g1) ∧
      n ≤ (handleCollect strict reg i w c).nextCollector ∧
      (handleCollect strict reg i w c).young i.id n := by
  unfold handleCollect
  split
  · exact ⟨⟨g, hs⟩, hn, hy⟩
  · rename_i col hcol
    split
    · exact collect_sound strict reg i hs hi c n hc hn hy col _ hcol rfl rfl rfl
    · exact ⟨⟨g, hs⟩, hn, hy⟩

theorem foldl_collect_sound (strict : Bool) (reg : Registry) (i : Interaction)
    {seen : List Nat} (hi : i.id ∈ seen) (n : Nat) (listeners : List Nat)
    (hl : ∀ c ∈ listeners, c < n) {w : World} {g : Nat → Run} (hs : Sound w seen g)
    (hn : n ≤ w.nextCollector) (hy : w.young i.id n) :
    ∃ g1, Sound (listeners.foldl (handleCollect strict reg i) w) seen g1 := by
  induction listeners generalizing w g with
  | nil => exact ⟨g, hs⟩
  | cons c rest ih =>
    obtain ⟨⟨g1, h1⟩, h2, h3⟩ :=
      handleCollect_sound strict reg i hs hi c n (hl c (List.mem_cons_self _ _)) hn hy
    exact ih (fun c1 hc1 => hl c1 (List.mem_cons_of_mem _ hc1)) h1 h2 h3

/-- An interaction with a new id is delivered: the world stays sound. -/
theorem deliver_sound (strict : Bool) (reg : Registry) {w : World} {seen : List Nat}
    {g : Nat → Run} (hs : Sound w seen g) (i : Interaction) (hi : i.id ∉ seen) :
    ∃ g1, Sound (step strict reg w (.interaction i)) (i.id :: seen) g1 := by
  simp only [step, deliver]
  have hs0 : Sound w (i.id :: seen) g := sound_seen hs (fun x hx => List.mem_cons_of_mem _ hx)
  have hown : ¬ w.owned i := by
    rintro ⟨col, hcol, hid⟩
    exact hi (hid ▸ (hs.owners col hcol).1)
  have hfit : Fits strict true w (i.id :: seen) g { owner := i, click := i } := by
    refine ⟨hs0, List.mem_cons_self _ _, List.mem_cons_self _ _, (fun m hm => by cases hm), ?_⟩
    simp only [World.admits, if_true]
    refine ⟨?_, hown, fun t ht h => hi (h ▸ (hs.runs t ht).2.1)⟩
    cases hr : w.replyMessage i with
    | none => rfl
    | some m => exact absurd (hs.keys i m hr) hi
  have hy : w.young i.id w.nextCollector :=
    fun col hcol hid => absurd ⟨col, hcol, hid⟩ hown
  obtain ⟨⟨g1, h1⟩, h2⟩ :=
    @exec_sound strict true (interactionCreate.execute reg i) _ _ _ _ hfit (owns_router reg i)
  obtain ⟨h3, h4⟩ := h2 i.id w.nextCollector (le_refl _) hy
  refine foldl_collect_sound strict reg i (List.mem_cons_self _ _) w.nextCollector _ ?_ h1 h3 h4
  intro c hc
  simp only [List.mem_map, List.mem_filter] at hc
  obtain ⟨col, ⟨hcol, -⟩, rfl⟩ := hc
  exact hs.ids.2 col hcol

theorem interactionIds_cons (e : Event) (es : List Event) :
    interactionIds (e :: es) =
      match e with
      | .interaction i => i.id :: interactionIds es
      | _ => interactionIds es := by
  cases e <;> rfl

/-- The event loop keeps the world sound when every interaction it receives has an id
of its own. -/
theorem run_sound (strict : Bool) (reg : Registry) (events : List Event) {w : World}
    {seen : List Nat} {g : Nat → Run} (hs : Sound w seen g)
    (hnd : (interactionIds events).Nodup) (hnew : ∀ x ∈ interactionIds events, x ∉ seen) :
    ∃ seen1 g1, Sound (run strict reg w events) seen1 g1 := by
  induction events generalizing w seen g with
  | nil => exact ⟨seen, g, hs⟩
  | cons e es ih =>
    rw [interactionIds_cons] at hnd hnew
    show ∃ seen1 g1, Sound (run strict reg (step strict reg w e) es) seen1 g1
    cases e with
    | interaction i =>
      simp only [List.nodup_cons, List.mem_cons, forall_eq_or_imp] at hnd hnew
      obtain ⟨g1, h1⟩ := deliver_sound strict reg hs i hnew.1
      refine ih h1 hnd.2 (fun x hx => ?_)
      simp only [List.mem_cons, not_or]
      exact ⟨fun h => hnd.1 (h ▸ hx), hnew.2 x hx⟩
    | response t r =>
      obtain ⟨g1, h1⟩ := response_sound strict reg hs t r
      exact ih h1 hnd hnew
    | tick t => exact ih (tick_sound strict reg hs t) hnd hnew

theorem initial_sound (g : Nat → Run) : Sound {} [] g := by
  refine ⟨initial_inv.1, ?_, ?_, ?_, ?_, ?_, ?_, ?_, ?_⟩
  · intro t ht
    cases ht
  · intro j hj
    simp [World.acked] at hj
  · intro j m hj
    simp [World.replyMessage] at hj
  · intro col hcol
    cases hcol
  · intro a ha
    cases ha
  · rintro j (⟨col, hcol, -⟩ | ⟨t, ht, -⟩)
    · cases hcol
    · cases ht
  · rintro j1 j2 (⟨col, hcol, -⟩ | ⟨t, ht, -⟩)
    · cases hcol
    · cases ht
  · intro t ht
    cases ht

/-- In a sound world no two collectors share a message. -/
theorem sound_message {w : World} {seen : List Nat} {g : Nat → Run} (hs : Sound w seen g)
    {a b : Collector} (ha : a ∈ w.collectors) (hb : b ∈ w.collectors)
    (hm : a.message = b.message) : a = b := by
  obtain ⟨-, -, a3⟩ := hs.owners a ha
  obtain ⟨-, -, b3⟩ := hs.owners b hb
  have hid := hs.apart a.site.interaction b.site.interaction (Or.inl ⟨a, ha, rfl⟩)
    (Or.inl ⟨b, hb, rfl⟩) (by rw [a3, b3, hm])
  have hab := hs.single a ha b hb hid
  have h1 := hs.ids.1 a ha
  have h2 := hs.ids.1 b hb
  rw [hab, h2] at h1
  exact (Option.some.inj h1).symm

/-! ## The claims -/

/-- C1 (code bug): one click by the owner on the Buy button of an active /barter
message is dispatched twice, whatever the platform does.  The collector hands it to
the `collect` handler, which posts the purchase; the interactionCreate handler, finding
the command `barter` by the customId prefix, defers the click and runs `/barter` anew,
which queries the trader again.  Two backend requests go out for the one click (their
order on the wire is not claimed): the purchase and a second encounter. -/
theorem C1_owner_click_dispatched_twice (strict : Bool) :
    (requests ((step strict registry (barterSession strict)
        (.interaction (buttonClick 2 "alice" "barter_buy_potion" 0))).since
          (barterSession strict))).length = 2 ∧
    (⟨.post, "/barterer/buy", [("user_id", .str "alice"), ("item_id", .str "potion")]⟩ :
        Request) ∈
      requests ((step strict registry (barterSession strict)
        (.interaction (buttonClick 2 "alice" "barter_buy_potion" 0))).since
          (barterSession strict)) ∧
    (⟨.get, "/barterer/encounter", [("user_id", .str "alice")]⟩ : Request) ∈
      requests ((step strict registry (barterSession strict)
        (.interaction (buttonClick 2 "alice" "barter_buy_potion" 0))).since
          (barterSession strict)) ∧
    Effect.collected 0 2 ∈
      (step strict registry (barterSession strict)
        (.interaction (buttonClick 2 "alice" "barter_buy_potion" 0))).since
          (barterSession strict) ∧
    Effect.deferReply 2 1 ∈
      (step strict registry (barterSession strict)
        (.interaction (buttonClick 2 "alice" "barter_buy_potion" 0))).since
          (barterSession strict) := by
  cases strict <;> decide

/-- C2 (code bug): a click by Bob on the Next Encounter button of Alice's /combat
message passes no collector filter, yet the interactionCreate handler runs `/combat`
for Bob: the click is acknowledged with a reply and a combat round is requested from
the backend.  Alice's collector is left as it was. -/
theorem C2_stranger_click_runs_command (strict : Bool) :
    (step strict registry (combatSession strict)
        (.interaction (buttonClick 2 "bob" "combat_next" 0))).since (combatSession strict) =
      [.deferReply 2 1, .request 1 ⟨.post, "/combat/resolve", [("user_id", .str "bob")]⟩] ∧
    (step strict registry (combatSession strict)
        (.interaction (buttonClick 2 "bob" "combat_next" 0))).collectors =
      (combatSession strict).collectors := by
  cases strict <;> decide

/-- C3 (counterexample): the collector of Alice's trade proposal to Bob rejects a
click by Alice, who initiated the command, and accepts a click by Bob. -/
theorem C3_trade_filter_rejects_initiator :
    proposeTrade.userId = "alice" ∧
    ((tradeSession true).collector 0).map
        (fun c => (c.site.filter (buttonClick 2 "alice" "trade_accept_7" 0),
                   c.site.filter (buttonClick 3 "bob" "trade_accept_7" 0))) =
      some (false, true) := by
  decide

/-- C3 (amended): whatever collector a command's `execute` arms, its filter accepts an
event exactly when the event's user is the user who ran the command; for /trade it
accepts exactly the user given as the `target` option. -/
theorem C3_filter_accepts_owner_or_trade_target (cmd : Cmd) (interaction event : Interaction)
    (time : Nat) (site : Site) (h : Arms (cmd.execute interaction) time site) :
    (cmd ≠ .trade → (site.filter event = true ↔ event.userId = interaction.userId)) ∧
    (cmd = .trade → ∃ o, interaction.options = some o ∧
      (site.filter event = true ↔ event.userId = o.target)) := by
  cases cmd with
  | combat =>
    obtain ⟨-, m, b, rfl⟩ := arms_combat interaction time site h
    simp [Site.filter]
  | explore =>
    obtain ⟨-, m, b, rfl⟩ := arms_explore interaction time site h
    simp [Site.filter]
  | barter =>
    obtain ⟨-, rfl⟩ := arms_barter interaction time site h
    simp [Site.filter]
  | story =>
    obtain ⟨-, m, rfl⟩ := arms_story interaction time site h
    simp [Site.filter]
  | rollPower =>
    obtain ⟨-, rfl⟩ := arms_roll interaction time site h
    simp [Site.filter]
  | inventory =>
    obtain ⟨-, m, rfl⟩ := arms_inventory interaction time site h
    simp [Site.filter]
  | trade =>
    obtain ⟨-, o, ho, rfl⟩ := arms_trade interaction time site h
    simp [Site.filter, ho]
  | balance => exact absurd h (arms_balance _ _ _)
  | forge => exact absurd h (arms_forge _ _ _)
  | help => exact absurd h (arms_help _ _ _)
  | preview => exact absurd h (arms_preview _ _ _)
  | shop => exact absurd h (arms_shop _ _ _)
  | start => exact absurd h (arms_start _ _ _)
  | stats => exact absurd h (arms_stats _ _ _)

/-- The trade proposal of Alice to Bob arms a collector, and that collector accepts
exactly Bob. -/
theorem C3_filter_accepts_owner_or_trade_target_witness :
    Arms (Cmd.execute .trade proposeTrade) 120000 (.trade proposeTrade "bob") ∧
    ((Cmd.trade ≠ Cmd.trade →
        ((Site.trade proposeTrade "bob").filter (buttonClick 2 "bob" "trade_accept_7" 0) = true ↔
          (buttonClick 2 "bob" "trade_accept_7" 0).userId = proposeTrade.userId)) ∧
     (Cmd.trade = Cmd.trade → ∃ o, proposeTrade.options = some o ∧
        ((Site.trade proposeTrade "bob").filter (buttonClick 2 "bob" "trade_accept_7" 0) = true ↔
          (buttonClick 2 "bob" "trade_accept_7" 0).userId = o.target))) :=
  have harm : Arms (Cmd.execute .trade proposeTrade) 120000 (.trade proposeTrade "bob") :=
    ⟨0, .call _ _ (.ok .unit) _
      (.http _ _ (.resolved (some { success := true, trade_id := some 7 })) _
        (.call _ _ (.ok (.message { id := 0 })) _
          (.call _ _ (.ok (.message { id := 0 })) _ (.here _ _))))⟩
  ⟨harm, C3_filter_accepts_owner_or_trade_target .trade proposeTrade
    (buttonClick 2 "bob" "trade_accept_7" 0) 120000 (.trade proposeTrade "bob") harm⟩

/-- C4 (code bug): two clicks by the owner on Buy, the second arriving while the first
handler is suspended on its purchase request, are both collected by the same
collector and both post a purchase. -/
theorem C4_second_click_buys_again (strict : Bool) :
    ((run strict registry (barterSession strict)
        [.interaction (buttonClick 2 "alice" "barter_buy_potion" 0),
         .interaction (buttonClick 3 "alice" "barter_buy_potion" 0)]).since
          (barterSession strict)).filter
        (fun e => e = .collected 0 2 ∨ e = .collected 0 3 ∨
          e = .request 2 ⟨.post, "/barterer/buy",
            [("user_id", .str "alice"), ("item_id", .str "potion")]⟩ ∨
          e = .request 4 ⟨.post, "/barterer/buy",
            [("user_id", .str "alice"), ("item_id", .str "potion")]⟩) =
      [.collected 0 2,
       .request 2 ⟨.post, "/barterer/buy",
         [("user_id", .str "alice"), ("item_id", .str "potion")]⟩,
       .collected 0 3,
       .request 4 ⟨.post, "/barterer/buy",
         [("user_id", .str "alice"), ("item_id", .str "potion")]⟩] := by
  cases strict <;> decide

/-- C5: in every world that the event loop reaches from the start, on both platforms and
for every registry, no two collectors are on one message, whether they have ended or
not; so a message never has more than one active collector, and a command that a
collect handler invokes again on the collector's interaction creates no second collector
on its message.  The interactions received have ids of their own, as the platform
gives each interaction its id. -/
theorem C5_one_collector_per_message (strict : Bool) (reg : Registry) (events : List Event)
    (hids : (interactionIds events).Nodup) :
    ∀ a ∈ (run strict reg {} events).collectors, ∀ b ∈ (run strict reg {} events).collectors,
      a.message = b.message → a = b := by
  obtain ⟨seen, g, hs⟩ := run_sound strict reg events
    (initial_sound (fun _ => { owner := slashCommand 0 "" "", click := slashCommand 0 "" "" }))
    hids
    (fun _ _ h => by cases h)
  exact fun a ha b hb hm => sound_message hs ha hb hm

/-- C5 at work: Alice wins a fight, clicks Next Encounter and wins again; the first
collector is on message 0 and the one of the second fight on message 1. -/
theorem C5_one_collector_per_message_witness :
    (interactionIds
      [.interaction (slashCommand 1 "alice" "combat"), .response 0 (.resolved (some combatWon)),
       .interaction (buttonClick 2 "alice" "combat_next" 0),
       .response 1 (.resolved (some combatWon))]).Nodup ∧
    ((run false registry {}
      [.interaction (slashCommand 1 "alice" "combat"), .response 0 (.resolved (some combatWon)),
       .interaction (buttonClick 2 "alice" "combat_next" 0),
       .response 1 (.resolved (some combatWon))]).collectors.map
        (fun c => (c.id, c.message, c.ended))) = [(0, 0, false), (1, 1, false)] ∧
    ∀ a ∈ (run false registry {}
      [.interaction (slashCommand 1 "alice" "combat"), .response 0 (.resolved (some combatWon)),
       .interaction (buttonClick 2 "alice" "combat_next" 0),
       .response 1 (.resolved (some combatWon))]).collectors,
     ∀ b ∈ (run false registry {}
      [.interaction (slashCommand 1 "alice" "combat"), .response 0 (.resolved (some combatWon)),
       .interaction (buttonClick 2 "alice" "combat_next" 0),
       .response 1 (.resolved (some combatWon))]).collectors,
      a.message = b.message → a = b :=
  ⟨by decide, by decide,
    C5_one_collector_per_message false registry _ (by decide)⟩

/-- C6 (code bug): when the collectors of /combat, /story and /inventory end with
nothing collected, the only thing rendered is the message edit that disables the
buttons: no expiry notice is sent, and afterwards the /combat and /story messages
have no enabled button and carry no text. -/
theorem C6_expiry_without_notice (strict : Bool) :
    (step strict registry (combatSession strict) (.tick 60000)).since (combatSession strict) =
      [.collectorEnded 0, .messageEdit 0 { components := some [[combatNextBtn.disable]] }] ∧
    (step strict registry (storySession strict) (.tick 120000)).since (storySession strict) =
      [.collectorEnded 0,
       .messageEdit 0 { components := some [[(choiceBtn ⟨"a", "a"⟩).disable]] }] ∧
    (step strict registry (inventorySession strict) (.tick 120000)).since
        (inventorySession strict) =
      [.collectorEnded 0,
       .messageEdit 0 { components := some [(pageRow 1 3).map Button.disable] }] ∧
    (((step strict registry (combatSession strict) (.tick 60000)).message 0).allDisabled,
     ((step strict registry (storySession strict) (.tick 120000)).message 0).allDisabled) =
      (true, true) ∧
    (((step strict registry (combatSession strict) (.tick 60000)).message 0).content,
     ((step strict registry (storySession strict) (.tick 120000)).message 0).content) =
      ("", "") := by
  cases strict <;> decide

/-- C7 (code bug): the `end` handler of an expired /explore session issues no backend
request, but a click on Descend Further that arrives after the collector has ended is
still routed by the interactionCreate handler to `/explore`, which requests a new
floor from the backend. -/
theorem C7_late_click_reaches_backend (strict : Bool) :
    ((step strict registry (exploreSession strict) (.tick 60000)).collector 0).map
        (fun c => c.ended) = some true ∧
    requests ((step strict registry (exploreSession strict) (.tick 60000)).since
        (exploreSession strict)) = [] ∧
    (run strict registry (exploreSession strict)
        [.tick 60000, .interaction (buttonClick 2 "alice" "explore_next" 0)]).since
        (step strict registry (exploreSession strict) (.tick 60000)) =
      [.deferReply 2 2, .request 1 ⟨.post, "/dungeon/generate", [("user_id", .str "alice")]⟩] := by
  cases strict <;> decide

/-- C8 (code bug): after Alice picks choice `a` and the backend answers with a beat
offering `b`, message 0 shows the enabled button `story_choice_b` but the collector
has been stopped: a click on it is not collected and the only request it causes is
the interactionCreate handler's fresh `/story`, without `choice`.  Where the platform
rejects a second acknowledgement, already the first choice is never sent. -/
theorem C8_story_not_rearmed :
    ((run false registry (storySession false)
        [.interaction (buttonClick 2 "alice" "story_choice_a" 0),
         .response 2 (.resolved (some (beat "The road bends." "b")))]).message 0).components =
      [[choiceBtn ⟨"b", "b"⟩]] ∧
    ((run false registry (storySession false)
        [.interaction (buttonClick 2 "alice" "story_choice_a" 0),
         .response 2 (.resolved (some (beat "The road bends." "b")))]).collector 0).map
        (fun c => c.ended) = some true ∧
    (run false registry (storySession false)
        [.interaction (buttonClick 2 "alice" "story_choice_a" 0),
         .response 2 (.resolved (some (beat "The road bends." "b"))),
         .interaction (buttonClick 3 "alice" "story_choice_b" 0)]).since
        (run false registry (storySession false)
          [.interaction (buttonClick 2 "alice" "story_choice_a" 0),
           .response 2 (.resolved (some (beat "The road bends." "b")))]) =
      [.deferReply 3 2,
       .request 3 ⟨.post, "/story/progressNarrative", [("user_id", .str "alice")]⟩] ∧
    requests ((step true registry (storySession true)
        (.interaction (buttonClick 2 "alice" "story_choice_a" 0))).since (storySession true)) =
      [⟨.post, "/story/progressNarrative", [("user_id", .str "alice")]⟩] := by
  decide

/-- C9 (counterexample): an /inventory session created at time 0 whose page is turned
at 100 000 ms has ended at 120 000 ms, 20 000 ms after the page turn. -/
theorem C9_inventory_expires_at_first_deadline :
    ((run true registry (inventorySession true)
        [.tick 100000, .interaction (buttonClick 2 "alice" "inv_next" 0),
         .response 1 (.resolved (some inventoryPage))]).collector 0).map
        (fun c => (c.page, c.collected, c.ended)) = some (2, [2], false) ∧
    (run true registry (inventorySession true)
        [.tick 100000, .interaction (buttonClick 2 "alice" "inv_next" 0),
         .response 1 (.resolved (some inventoryPage))]).now = 100000 ∧
    ((run true registry (inventorySession true)
        [.tick 100000, .interaction (buttonClick 2 "alice" "inv_next" 0),
         .response 1 (.resolved (some inventoryPage)), .tick 120000]).collector 0).map
        (fun c => (c.createdAt, c.ended)) = some (0, true) := by
  decide

/-- C9 (amended): a collector created by inventory.js has the `time` option 120 000 ms
and keeps the one deadline set when it was created.  Whatever events follow (page turns,
backend answers, passage of time), its creation time stays the same and it has ended
exactly when the clock has reached creation time + 120 000 ms: no page turn re-arms it
and nothing ends it earlier. -/
theorem C9_inventory_deadline_fixed (strict : Bool) (reg : Registry)
    (before after : List Event) (c : Nat) (x : Collector)
    (hx : (run strict reg {} before).collector c = some x)
    (hs : x.site.isInventory = true) :
    x.time = 120000 ∧
    (∃ y, (run strict reg {} (before ++ after)).collector c = some y ∧
      y.createdAt = x.createdAt ∧ y.time = 120000 ∧
      (y.ended = true ↔
        x.createdAt + 120000 ≤ (run strict reg {} (before ++ after)).now)) ∧
    (∀ (interaction : Interaction) (time : Nat) (site : Site),
      Arms (inventory.execute interaction) time site →
        site.isInventory = true ∧ time = 120000) := by
  have hmem : x ∈ (run strict reg {} before).collectors := List.mem_of_find?_eq_some hx
  have h0 := (run_inv strict reg before initial_inv).2.2 x hmem hs
  obtain ⟨y, hy, hl⟩ := run_keeps strict reg after (keeps_self hx)
  rw [← run_append] at hy
  have hys : y.site.isInventory = true := by rw [hl.2.2.2.2.1]; exact hs
  have hymem : y ∈ (run strict reg {} (before ++ after)).collectors :=
    List.mem_of_find?_eq_some hy
  obtain ⟨h1, h2, h3, -⟩ := (run_inv strict reg (before ++ after) initial_inv).2.2 y hymem hys
  refine ⟨h0.1, ⟨y, hy, hl.2.2.2.1, h1, ?_⟩, ?_⟩
  · rw [← hl.2.2.2.1]
    constructor
    · exact h2
    · intro hdl
      cases he : y.ended with
      | true => rfl
      | false => exact absurd (h3 he hdl) (List.not_mem_nil _)
  · intro interaction time site harm
    obtain ⟨ht, m, rfl⟩ := arms_inventory interaction time site harm
    exact ⟨rfl, ht⟩

/-- The session of Alice: its page is turned at 100 000 ms and it has ended at
120 000 ms. -/
theorem C9_inventory_deadline_fixed_witness :
    (run true registry {}
        [.interaction (slashCommand 1 "alice" "inventory"),
         .response 0 (.resolved (some inventoryPage))]).collector 0 =
      some { id := 0, message := 0, time := 120000, createdAt := 0,
             site := .inventory (slashCommand 1 "alice" "inventory")
               ((inventorySession true).message 0) } ∧
    ((120000 : Nat) = 120000 ∧
    (∃ y, (run true registry {}
        ([.interaction (slashCommand 1 "alice" "inventory"),
          .response 0 (.resolved (some inventoryPage))] ++
         [.tick 100000, .interaction (buttonClick 2 "alice" "inv_next" 0),
          .response 1 (.resolved (some inventoryPage)), .tick 120000])).collector 0 = some y ∧
      y.createdAt = 0 ∧ y.time = 120000 ∧
      (y.ended = true ↔
        0 + 120000 ≤ (run true registry {}
          ([.interaction (slashCommand 1 "alice" "inventory"),
            .response 0 (.resolved (some inventoryPage))] ++
           [.tick 100000, .interaction (buttonClick 2 "alice" "inv_next" 0),
            .response 1 (.resolved (some inventoryPage)), .tick 120000])).now)) ∧
    (∀ (interaction : Interaction) (time : Nat) (site : Site),
      Arms (inventory.execute interaction) time site →
        site.isInventory = true ∧ time = 120000)) :=
  ⟨by decide,
    C9_inventory_deadline_fixed true registry
      [.interaction (slashCommand 1 "alice" "inventory"),
       .response 0 (.resolved (some inventoryPage))]
      [.tick 100000, .interaction (buttonClick 2 "alice" "inv_next" 0),
       .response 1 (.resolved (some inventoryPage)), .tick 120000] 0
      { id := 0, message := 0, time := 120000, createdAt := 0,
        site := .inventory (slashCommand 1 "alice" "inventory")
          ((inventorySession true).message 0) }
      (by decide) rfl⟩

/-- C10 (code bug): when the backend request of an /inventory page turn is rejected,
the failure message is rendered but the collector is not stopped; when the request of
the trade-propose button handler is rejected (on a platform that lets the handler get
that far), nothing is rendered, the rejection is unhandled and the collector is not
stopped. -/
theorem C10_rejection_leaves_collector_armed (strict : Bool) :
    (run strict registry (inventorySession strict)
        [.interaction (buttonClick 2 "alice" "inv_next" 0), .response 1 serviceDown]).since
        (step strict registry (inventorySession strict)
          (.interaction (buttonClick 2 "alice" "inv_next" 0))) =
      [.log .error "Error fetching inventory:"
         (some (.http { message := "Request failed with status code 503", status := some 503 })),
       .editReply 1 0
         { content := some "❌ Could not load inventory. Please try again later."
           embeds := some []
           components := some [] }] ∧
    ((run strict registry (inventorySession strict)
        [.interaction (buttonClick 2 "alice" "inv_next" 0), .response 1 serviceDown]).collector
          0).map (fun c => c.ended) = some false ∧
    (run false registry (tradeSession false)
        [.interaction (buttonClick 2 "bob" "trade_accept_7" 0), .response 1 serviceDown]).since
        (step false registry (tradeSession false)
          (.interaction (buttonClick 2 "bob" "trade_accept_7" 0))) =
      [.unhandledRejection
        (.http { message := "Request failed with status code 503", status := some 503 })] ∧
    ((run false registry (tradeSession false)
        [.interaction (buttonClick 2 "bob" "trade_accept_7" 0), .response 1 serviceDown]).collector
          0).map (fun c => c.ended) = some false := by
  cases strict <;> decide

/-- C11 (counterexample): the forge modal is submitted with the quantity "0"; the
handler throws the error "Quantity must be a positive integer." and the text shown to
the user contains that error's message. -/
theorem C11_forge_shows_error_message :
    shown (run true registry {} [.interaction (forgeSubmit 1 "alice" "sword" "" "0")]).trace =
      ["❌ Error forging item: Quantity must be a positive integer."] ∧
    logged (run true registry {} [.interaction (forgeSubmit 1 "alice" "sword" "" "0")]).trace =
      [(.error, "Error in forge modal submission:",
        some (.error "Quantity must be a positive integer."))] ∧
    "❌ Error forging item: Quantity must be a positive integer." =
      "❌ Error forging item: " ++ (Err.error "Quantity must be a positive integer.").message := by
  decide

/-- C11 (amended): in every command other than /forge, each `catch` block around a
backend call shows one fixed text, the same for every error, and writes the error to
the log.  This holds when the call is rejected with any error `e` and when the response
has no `data`, so that the command throws a `TypeError` (for /shop list such a response
reads as an empty shop): for the call `execute` makes at each of the 14 slash entry
points, for the confirm handler of /roll-power and the page-turn handler of /inventory
in the event loop, and for the buy handler of /barter and the choice handler of /story
run on their own.  An error that escapes `execute` is logged by the interactionCreate
handler, which shows nothing but its own fixed text.  The forge modal shows the message
of its own validation error after "❌ Error forging item: ".  (The button handler of
/trade has no `catch` block and is not covered.) -/
theorem C11_failure_shows_fixed_text (entry : Entry) (handler : Handler) (strict : Bool)
    (user : String) (e : HttpError) :
    (run strict registry {} [.interaction (entry.interaction user)]).pending.map
      (fun t => (t.id, t.req)) = [(0, entry.request user)] ∧
    shown (entry.session strict user (.rejected e)).trace = [entry.failureText] ∧
    logged (entry.session strict user (.rejected e)).trace =
      [(.error, entry.logLabel, some (.http e))] ∧
    (entry = .shopList ∨
      shown (entry.session strict user (.resolved none)).trace = [entry.failureText]) ∧
    (handler.before strict).pending.map (fun t => (t.id, t.req)) =
      [(handler.task, handler.request)] ∧
    shown ((handler.session strict (.rejected e)).since (handler.before strict)) =
      [handler.failureText] ∧
    logged ((handler.session strict (.rejected e)).since (handler.before strict)) =
      [(.error, handler.logLabel, some (.http e))] ∧
    shown ((handler.session strict (.resolved none)).since (handler.before strict)) =
      [handler.failureText] ∧
    (∀ (w : World) (i : Interaction) (err : Err),
      (∀ t ∈ shown ((exec strict (interactionCreate.onError i err) w).since w),
        t = unexpectedError) ∧
      (Level.error, "Error handling interaction:", some err) ∈
        logged ((exec strict (interactionCreate.onError i err) w).since w)) ∧
    shown (run strict registry {} [.interaction (forgeSubmit 1 user "sword" "" "0")]).trace =
      ["❌ Error forging item: Quantity must be a positive integer."] := by
  refine ⟨pending_entry entry strict user, shown_rejected entry strict user e,
    logged_rejected entry strict user e, ?_, pending_handler handler strict,
    shown_handler_rejected handler strict e, logged_handler_rejected handler strict e,
    shown_handler_malformed handler strict, fun w i err => shown_onError strict w i err,
    shown_invalid_quantity strict user "sword" ""⟩
  by_cases h : entry = .shopList
  · exact Or.inl h
  · exact Or.inr (shown_malformed entry strict user h)

/-- C12: when each of the first three attempts fails without a response or with a
status of 500 or more, the client makes exactly three attempts (the original and
`MAX_RETRIES` = 2 retries) and then rejects with the standardized error of the third
failure.  Whatever the backend does, the call settles after at least one and at most
three attempts. -/
theorem C12_three_attempts_then_rejects (server : Nat → Attempt)
    (h : ∀ n, n < 3 → ∃ error, server n = .failed error ∧ retryable error = true) :
    (∃ error, server 2 = .failed error ∧
      httpClient.send server = (.error (standardize error), 3)) ∧
    (∀ other : Nat → Attempt,
      1 ≤ (httpClient.send other).2 ∧ (httpClient.send other).2 ≤ MAX_RETRIES + 1) := by
  obtain ⟨e0, h0, r0⟩ := h 0 (by omega)
  obtain ⟨e1, h1, r1⟩ := h 1 (by omega)
  obtain ⟨e2, h2, r2⟩ := h 2 (by omega)
  refine ⟨⟨e2, h2, ?_⟩, send_attempts⟩
  unfold httpClient.send
  rw [instanceRequest_retry server 0 none e0 h0 (by decide) r0,
    instanceRequest_retry server 1 _ e1 h1 (by decide) r1,
    instanceRequest_reject server 2 _ e2 h2 (by simp [MAX_RETRIES])]

/-- A backend that always answers 503 is asked three times. -/
theorem C12_three_attempts_then_rejects_witness :
    (∀ n, n < 3 → ∃ error, alwaysDown n = .failed error ∧ retryable error = true) ∧
    ((∃ error, alwaysDown 2 = .failed error ∧
      httpClient.send alwaysDown = (.error (standardize error), 3)) ∧
     (∀ other : Nat → Attempt,
      1 ≤ (httpClient.send other).2 ∧ (httpClient.send other).2 ≤ MAX_RETRIES + 1)) :=
  have h : ∀ n, n < 3 → ∃ error, alwaysDown n = .failed error ∧ retryable error = true :=
    fun _ _ => ⟨_, rfl, rfl⟩
  ⟨h, C12_three_attempts_then_rejects alwaysDown h⟩

/-- C13: a first attempt that fails with a response whose status is below 500 is
not retried: the call rejects after one attempt with the object `{ message, status,
data }`, where `message` is the error's message, `status` the response status (`null`
for the falsy status 0) and `data` the response data, `null` when it is falsy.  An error
without a response standardizes to `status` and `data` both `null`. -/
theorem C13_client_error_rejects_at_once (server : Nat → Attempt) (message : String)
    (status : Nat) (data : Json)
    (h : server 0 =
      .failed { message := message, response := some { status := status, data := data } })
    (hs : status < 500) :
    httpClient.send server =
      (.error { message := message
                status := if status = 0 then none else some status
                data := if data.truthy then some data else none }, 1) ∧
    (∀ text, standardize { message := text } =
      { message := text, status := none, data := none }) := by
  refine ⟨?_, fun _ => rfl⟩
  unfold httpClient.send
  rw [instanceRequest_reject server 0 none _ h (by simp [retryable]; omega)]
  simp only [standardize, Option.map_some', Option.filter]
  by_cases h0 : status = 0 <;> cases hd : data.truthy <;> simp [h0, hd]

/-- A 404 with an error body is reported after one attempt, body included. -/
theorem C13_client_error_rejects_at_once_witness :
    (notFound 0 = .failed
      { message := "Request failed with status code 404"
        response := some { status := 404, data := .obj [("error", .str "no such player")] } }) ∧
    404 < 500 ∧
    (httpClient.send notFound =
      (.error { message := "Request failed with status code 404"
                status := if 404 = 0 then none else some 404
                data := if (Json.obj [("error", .str "no such player")]).truthy
                  then some (.obj [("error", .str "no such player")]) else none }, 1) ∧
    (∀ text, standardize { message := text } =
      { message := text, status := none, data := none })) :=
  ⟨rfl, by decide, C13_client_error_rejects_at_once notFound _ 404 _ rfl (by decide)⟩

/-- C14 (code bug): the service answers POST /combat/resolve with the body the doc
comment of combat.js describes.  `httpClient.post` resolves to that body, the command
reads its property `data`, which the body does not have, and the destructuring throws:
the reply is the generic error text, not the "⚔️ Combat Round" embed.  The embed is
rendered for a body that wraps the documented object in a `data` property. -/
theorem C14_documented_body_takes_error_branch (strict : Bool) :
    readData combatBody = none ∧
    (run strict registry {}
        [.interaction (slashCommand 1 "alice" "combat"),
         .response 0 (backendSays combatBody)]).trace =
      [.deferReply 1 0,
       .request 0 ⟨.post, "/combat/resolve", [("user_id", .str "alice")]⟩,
       .log .error "Error in /combat command:"
         (some (.typeError "Cannot destructure property of undefined")),
       .editReply 1 0
         { content := some
             "❌ An error occurred while resolving combat. Please try again later."
           ephemeral := true }] ∧
    shownEmbeds (run strict registry {}
        [.interaction (slashCommand 1 "alice" "combat"),
         .response 0 (backendSays (.obj [("data", combatBody)]))]).trace =
      [{ title := some "⚔️ Combat Round"
         description := some "You strike the slime."
         fields := [("🛡️ You", "7 / 10 HP"), ("👹 Enemy", "2 / 5 HP")] }] := by
  rw [backendSays_eq, backendSays_eq]
  cases strict <;> decide

/-- C15 (code bug): the service answers GET /economy/shop/items with an array of two
items, as the comment in shop.js expects.  `httpClient.get` resolves to that array, the
command reads its property `data`, which is `undefined`, and `Array.isArray` fails: the
reply is "🛒 The shop is currently empty." and no embed is sent.  The "Item Shop" embed
with one field per item is rendered for a body that wraps the array in `data`. -/
theorem C15_array_body_reads_as_empty_shop (strict : Bool) :
    shown (run strict registry {}
        [.interaction (slashWith 1 "alice" "shop" { subcommand := "list" }),
         .response 0 (backendSays shopBody)]).trace =
      ["🛒 The shop is currently empty."] ∧
    shownEmbeds (run strict registry {}
        [.interaction (slashWith 1 "alice" "shop" { subcommand := "list" }),
         .response 0 (backendSays shopBody)]).trace = [] ∧
    shownEmbeds (run strict registry {}
        [.interaction (slashWith 1 "alice" "shop" { subcommand := "list" }),
         .response 0 (backendSays (.obj [("data", shopBody)]))]).trace =
      [{ title := some "🛒 Item Shop"
         description := some "Browse items available for purchase:"
         fields := [("**Potion** (`potion`)", "Heals\n**Price:** 1,200 🪙"),
                    ("**Elixir** (`elixir`)", "Restores\n**Price:** 50 🪙")] }] := by
  rw [backendSays_eq, backendSays_eq]
  cases strict <;> decide

/-- C16 (code bug): the trader offers a potion and an elixir; the rendered message has
one row per item and each row carries its own Skip button, so the custom id
`barter_skip` occurs twice.  For every list of two or more items, whatever their ids,
the custom ids of the rows are not pairwise distinct. -/
theorem C16_skip_button_repeated (strict : Bool) :
    customIds ((run strict registry {}
        [.interaction (slashCommand 1 "alice" "barter"),
         .response 0 (.resolved (some twoWares))]).message 0).components =
      ["barter_buy_potion", "barter_skip", "barter_buy_elixir", "barter_skip"] ∧
    ∀ a b rest, ¬ (customIds ((a :: b :: rest).map wareRow)).Nodup := by
  constructor
  · cases strict <;> decide
  · intro a b rest h
    simp [customIds, wareRow] at h

/-- C17: a button, select-menu or modal-submit event whose customId prefix (the text
before the first underscore) is not a key of the registry makes the interactionCreate
handler write one warning to the log and do nothing else; when no collector is
listening, that warning is all the event causes. -/
theorem C17_unmatched_component_logs_warning (strict : Bool) (reg : Registry) (w : World)
    (i : Interaction)
    (hk : i.kind = .button ∨ i.kind = .selectMenu ∨ i.kind = .modalSubmit)
    (hreg : reg.get ((jsSplit i.customId '_').getD 0 "") = none) :
    exec strict (interactionCreate.execute reg i) w =
      w.emit (.log .warn s!"No command found for component {i.customId}" none) ∧
    (w.collectors.filter (fun c => !c.ended) = [] →
      step strict reg w (.interaction i) =
        w.emit (.log .warn s!"No command found for component {i.customId}" none)) := by
  have hc : i.kind ≠ .chatInput := by
    rcases hk with h | h | h <;> simp [h]
  have hexec : exec strict (interactionCreate.execute reg i) w =
      w.emit (.log .warn s!"No command found for component {i.customId}" none) := by
    simp only [interactionCreate.execute, hc, hk, hreg, if_true, if_false]
    rfl
  refine ⟨hexec, fun hnone => ?_⟩
  simp only [step, deliver, hnone, List.map_nil, List.foldl_nil]
  exact hexec

/-- A click on a button `quest_accept`, which no command owns, in a world without
collectors. -/
theorem C17_unmatched_component_logs_warning_witness :
    (buttonClick 2 "alice" "quest_accept" 0).kind = .button ∧
    registry.get ((jsSplit (buttonClick 2 "alice" "quest_accept" 0).customId '_').getD 0 "") =
      none ∧
    exec true (interactionCreate.execute registry (buttonClick 2 "alice" "quest_accept" 0)) {} =
      World.emit {} (.log .warn "No command found for component quest_accept" none) ∧
    ((({} : World).collectors.filter (fun c => !c.ended)) = [] →
      step true registry {} (.interaction (buttonClick 2 "alice" "quest_accept" 0)) =
        World.emit {} (.log .warn "No command found for component quest_accept" none)) :=
  ⟨rfl, by decide,
    C17_unmatched_component_logs_warning true registry {}
      (buttonClick 2 "alice" "quest_accept" 0) (Or.inl rfl) (by decide)⟩

/-- C18 (code bug): Bob clicks Accept on Alice's trade proposal 7 and the backend
accepts the trade: the request goes to /trade/accept, yet the outcome embed is titled
"❌ Trade Cancelled" and says the trade has been cancelled.  The variable `action` is
the text before the first underscore of the custom id, which is never `trade_accept`:
no run of the `collect` handler renders an embed titled "✅ Trade Completed". -/
theorem C18_accepted_trade_rendered_cancelled :
    requests ((run false registry (tradeSession false)
        [.interaction (buttonClick 2 "bob" "trade_accept_7" 0),
         .response 1 (.resolved (some { success := true }))]).since (tradeSession false)) =
      [⟨.post, "/trade/accept", [("user_id", .str "bob"), ("trade_id", .int 7)]⟩] ∧
    ((run false registry (tradeSession false)
        [.interaction (buttonClick 2 "bob" "trade_accept_7" 0),
         .response 1 (.resolved (some { success := true }))]).message 0).embeds =
      [{ title := some "❌ Trade Cancelled"
         description := some "Trade ID **7** has been cancelled." }] ∧
    (∀ (c : Collector) (interaction btn i : Interaction) (p : Payload),
      ¬ (Performs (trade.collect c interaction btn) (.platform (.editReply i p)) ∧
        ∃ em ∈ p.embeds.getD [], em.title = some "✅ Trade Completed")) := by
  refine ⟨by decide, by decide, ?_⟩
  rintro c interaction btn i p ⟨h, em, hem, htitle⟩
  rw [trade_collect_title c interaction btn i p em h hem] at htitle
  exact absurd htitle (by decide)

/-- C19 (code bug): the forge modal is submitted with the quantity "1.5", which is not
the decimal representation of an integer: `parseInt` reads the leading digits, the
input is accepted and the quantity 1 is sent to POST /item/forgeItem.  The input
"3 of them" is accepted as 3.  The input "0" is rejected with "Quantity must be a
positive integer." -/
theorem C19_fraction_accepted_as_integer (strict : Bool) :
    (run strict registry {} [.interaction (forgeSubmit 1 "alice" "sword" "" "1.5")]).trace =
      [.deferReply 1 0,
       .request 0 ⟨.post, "/item/forgeItem",
         [("user_id", .str "alice"), ("item_id", .str "sword"), ("traits", .strs []),
          ("quantity", .int 1)]⟩] ∧
    requests (run strict registry {}
        [.interaction (forgeSubmit 1 "alice" "sword" "" "3 of them")]).trace =
      [⟨.post, "/item/forgeItem",
         [("user_id", .str "alice"), ("item_id", .str "sword"), ("traits", .strs []),
          ("quantity", .int 3)]⟩] ∧
    shown (run strict registry {} [.interaction (forgeSubmit 1 "alice" "sword" "" "0")]).trace =
      ["❌ Error forging item: Quantity must be a positive integer."] := by
  cases strict <;> decide

/-- C20: for every item count `n` and page number `p`, the message `showPage` renders
from a response with `totalItems` = `n` has one embed, with the footer "Page p of T"
where T = max(1, ceil(n / 10)), and one action row, which holds the button `inv_prev`
exactly when p > 1 and the button `inv_next` exactly when p < T.  Numbers are exact
integers here. -/
theorem C20_page_footer_and_buttons (strict : Bool) (user : String) (p n : Nat)
    (items : List Item) :
    ((showPageAt strict user p { items := some items, totalItems := some n }).message
        0).embeds.map (fun em => em.footer) =
      [some s!"Page {p} of {max 1 ⌈(n : ℚ) / 10⌉₊}"] ∧
    ((showPageAt strict user p { items := some items, totalItems := some n }).message
        0).components.length = 1 ∧
    ("inv_prev" ∈ customIds ((showPageAt strict user p
        { items := some items, totalItems := some n }).message 0).components ↔ 1 < p) ∧
    ("inv_next" ∈ customIds ((showPageAt strict user p
        { items := some items, totalItems := some n }).message 0).components ↔
      p < max 1 ⌈(n : ℚ) / 10⌉₊) := by
  rw [showPageAt_message, ← totalPages_eq]
  exact ⟨rfl, rfl, pageRow_prev p _, pageRow_next p _⟩

/-- C21 (code bug): Alice clicks Skip on her /barter message.  No purchase is posted,
but the interactionCreate handler, which runs first, has dispatched the click to
`/barter` and deferred it, so on a platform that rejects a second acknowledgement the
`update` of the `collect` handler is rejected: the collector stays active and the
buttons stay on the message.  Where the platform accepts the repeated
acknowledgement the collector is stopped and the buttons are removed.  A Cancel click
on a /roll-power message, whose prefix `roll` names no command, posts nothing, stops
the collector and removes the buttons on both platforms. -/
theorem C21_skip_click_leaves_collector_active :
    requests ((run true registry (barterSession true)
        [.interaction (buttonClick 2 "alice" "barter_skip" 0)]).since (barterSession true)) =
      [⟨.get, "/barterer/encounter", [("user_id", .str "alice")]⟩] ∧
    (run true registry (barterSession true)
        [.interaction (buttonClick 2 "alice" "barter_skip" 0)]).since (barterSession true) =
      [.deferReply 2 1,
       .request 1 ⟨.get, "/barterer/encounter", [("user_id", .str "alice")]⟩,
       .collected 0 2,
       .unhandledRejection .alreadyReplied] ∧
    ((run true registry (barterSession true)
        [.interaction (buttonClick 2 "alice" "barter_skip" 0)]).collector 0).map
          (fun c => c.ended) = some false ∧
    customIds ((run true registry (barterSession true)
        [.interaction (buttonClick 2 "alice" "barter_skip" 0)]).message 0).components =
      ["barter_buy_potion", "barter_skip"] ∧
    (((run false registry (barterSession false)
        [.interaction (buttonClick 2 "alice" "barter_skip" 0)]).collector 0).map
          (fun c => c.ended) = some true ∧
     ((run false registry (barterSession false)
        [.interaction (buttonClick 2 "alice" "barter_skip" 0)]).message 0).components = []) ∧
    (∀ strict,
      requests ((run strict registry (rollSession strict)
        [.interaction (buttonClick 2 "alice" "roll_cancel" 0)]).since (rollSession strict)) = [] ∧
      ((run strict registry (rollSession strict)
        [.interaction (buttonClick 2 "alice" "roll_cancel" 0)]).collector 0).map
          (fun c => c.ended) = some true ∧
      ((run strict registry (rollSession strict)
        [.interaction (buttonClick 2 "alice" "roll_cancel" 0)]).message 0).components = []) := by
  refine ⟨by decide, by decide, by decide, by decide, by decide, ?_⟩
  intro strict
  cases strict <;> decide

/-- C22 (code bug): the buttons of /inventory carry the custom ids `inv_prev` and
`inv_next` and those of /roll-power the ids `roll_confirm` and `roll_cancel`; the
texts before the first underscore, `inv` and `roll`, are not keys of the registry, in
which these commands are `inventory` and `roll-power`, so the lookup of
interactionCreate finds no command for them and logs a warning.  The ids `combat_next`
and `forge_modal` do lead to their commands. -/
theorem C22_prefix_is_not_the_command_name (strict : Bool) :
    customIds ((inventorySession strict).message 0).components = ["inv_next"] ∧
    registry.get ((jsSplit "inv_next" '_').getD 0 "") = none ∧
    registry.get ((jsSplit "inv_prev" '_').getD 0 "") = none ∧
    Cmd.inventory.dataName = "inventory" ∧
    customIds ((rollSession strict).message 0).components = ["roll_confirm", "roll_cancel"] ∧
    registry.get ((jsSplit "roll_confirm" '_').getD 0 "") = none ∧
    registry.get ((jsSplit "roll_cancel" '_').getD 0 "") = none ∧
    Cmd.rollPower.dataName = "roll-power" ∧
    logged ((run strict registry (inventorySession strict)
        [.interaction (buttonClick 2 "alice" "inv_next" 0)]).since (inventorySession strict)) =
      [(.warn, "No command found for component inv_next", none)] ∧
    registry.get ((jsSplit "combat_next" '_').getD 0 "") = some .combat ∧
    registry.get ((jsSplit "forge_modal" '_').getD 0 "") = some .forge := by
  cases strict <;> decide

/-- C23 (code bug): Bob clicks Accept (or Cancel) on Alice's trade proposal 7.  The
interactionCreate handler, which runs first, dispatches the click to `/trade`, which
defers it and then throws; on a platform that rejects a second acknowledgement the
`deferUpdate` of the `collect` handler is rejected and nothing is posted to the
backend.  Where the platform accepts the repeated acknowledgement the click posts to
/trade/accept (or /trade/cancel) with Bob's id and the trade id 7. -/
theorem C23_accept_click_posts_nothing :
    requests ((run true registry (tradeSession true)
        [.interaction (buttonClick 2 "bob" "trade_accept_7" 0)]).since (tradeSession true)) = [] ∧
    requests ((run true registry (tradeSession true)
        [.interaction (buttonClick 2 "bob" "trade_cancel_7" 0)]).since (tradeSession true)) = [] ∧
    (run true registry (tradeSession true)
        [.interaction (buttonClick 2 "bob" "trade_accept_7" 0)]).since (tradeSession true) =
      [.deferReply 2 1,
       .log .error "Error handling interaction:"
         (some (.typeError "Cannot read properties of undefined (reading getSubcommand)")),
       .editReply 2 1
         { content := some unexpectedError, embeds := some [], components := some [] },
       .collected 0 2,
       .unhandledRejection .alreadyReplied] ∧
    customIds ((tradeSession true).message 0).components =
      ["trade_accept_7", "trade_cancel_7"] ∧
    requests ((run false registry (tradeSession false)
        [.interaction (buttonClick 2 "bob" "trade_accept_7" 0)]).since (tradeSession false)) =
      [⟨.post, "/trade/accept", [("user_id", .str "bob"), ("trade_id", .int 7)]⟩] ∧
    requests ((run false registry (tradeSession false)
        [.interaction (buttonClick 2 "bob" "trade_cancel_7" 0)]).since (tradeSession false)) =
      [⟨.post, "/trade/cancel", [("user_id", .str "bob"), ("trade_id", .int 7)]⟩] := by
  decide

/-- C24 (code bug): the `collect` handler of /explore, run on its own for a click on
Descend Further, stops the collector and re-invokes `execute` with the original
interaction, whose `deferReply` is rejected because that interaction is deferred
already: no request is issued and no floor is rendered; likewise for Next Encounter in
/combat, whatever the platform does.  In the event loop the only request after the
click is the one of the interactionCreate handler's own dispatch, made for the click
interaction, on either platform. -/
theorem C24_reinvoked_execute_is_rejected :
    (handleCollect true registry (buttonClick 2 "alice" "explore_next" 0)
        (exploreSession true) 0).since (exploreSession true) =
      [.collected 0 2, .deferUpdate 2, .collectorEnded 0, .unhandledRejection .alreadyReplied] ∧
    (handleCollect true registry (buttonClick 2 "alice" "combat_next" 0)
        (combatSession true) 0).since (combatSession true) =
      [.collected 0 2, .deferUpdate 2, .unhandledRejection .alreadyReplied] ∧
    (run true registry (exploreSession true)
        [.interaction (buttonClick 2 "alice" "explore_next" 0)]).since (exploreSession true) =
      [.deferReply 2 1,
       .request 1 ⟨.post, "/dungeon/generate", [("user_id", .str "alice")]⟩,
       .collected 0 2,
       .unhandledRejection .alreadyReplied] ∧
    (run true registry (combatSession true)
        [.interaction (buttonClick 2 "alice" "combat_next" 0)]).since (combatSession true) =
      [.deferReply 2 1,
       .request 1 ⟨.post, "/combat/resolve", [("user_id", .str "alice")]⟩,
       .collected 0 2,
       .unhandledRejection .alreadyReplied] ∧
    (handleCollect false registry (buttonClick 2 "alice" "explore_next" 0)
        (exploreSession false) 0).since (exploreSession false) =
      [.collected 0 2, .deferUpdate 2, .collectorEnded 0, .unhandledRejection .alreadyReplied] ∧
    (handleCollect false registry (buttonClick 2 "alice" "combat_next" 0)
        (combatSession false) 0).since (combatSession false) =
      [.collected 0 2, .deferUpdate 2, .unhandledRejection .alreadyReplied] ∧
    (run false registry (exploreSession false)
        [.interaction (buttonClick 2 "alice" "explore_next" 0)]).since (exploreSession false) =
      [.deferReply 2 1,
       .request 1 ⟨.post, "/dungeon/generate", [("user_id", .str "alice")]⟩,
       .collected 0 2,
       .deferUpdate 2,
       .collectorEnded 0,
       .unhandledRejection .alreadyReplied] ∧
    (run false registry (combatSession false)
        [.interaction (buttonClick 2 "alice" "combat_next" 0)]).since (combatSession false) =
      [.deferReply 2 1,
       .request 1 ⟨.post, "/combat/resolve", [("user_id", .str "alice")]⟩,
       .collected 0 2,
       .deferUpdate 2,
       .unhandledRejection .alreadyReplied] := by
  decide

/-- C25: no run of the interactionCreate handler in which the logger returns rejects,
whatever the platform and the backend answer, though a command such as `/help` can
reject.  When the dispatched command's
`execute` throws `e`, what the handler does next is its `catch` block for `e`: it logs
`e`, then sends the fixed text "❌ An unexpected error occurred. Please try again later.",
by `editReply` when the interaction is replied or deferred and by an ephemeral `reply`
otherwise; when that call fails, its error is caught and logged. -/
theorem C25_handler_never_rejects (strict : Bool) (reg : Registry) (w : World)
    (i : Interaction) (cmd : Cmd) (err : Err)
    (h : (i.kind = .chatInput ∧ reg.get i.commandName = some cmd) ∨
      ((i.kind = .button ∨ i.kind = .selectMenu ∨ i.kind = .modalSubmit) ∧
        reg.get ((jsSplit i.customId '_').getD 0 "") = some cmd)) :
    (∀ e, ¬ Rejects (interactionCreate.execute reg i) e) ∧
    (∀ e, Rejects (help.execute i) e) ∧
    (∀ o, Performs (interactionCreate.execute reg i) o ↔
      Performs (cmd.execute i) o ∨
        ∃ e, Throws (cmd.execute i) e ∧ Performs (interactionCreate.onError i e) o) ∧
    (exec strict (interactionCreate.onError i err) w).trace =
      w.trace ++ [.log .error "Error handling interaction:" (some err)] ++
        (if w.replied.contains i.id || w.deferred.contains i.id then
          match w.replyMessage i with
          | some m =>
            [.editReply i.id m
              { content := some unexpectedError, embeds := some [], components := some [] }]
          | none => [.log .error "Failed to send error reply:" (some .notReplied)]
        else
          [.reply i.id (w.ensureReply i).2
            { content := some unexpectedError, ephemeral := true }]) ∧
    (∀ e, Performs (interactionCreate.onError i err)
      (.log .error "Failed to send error reply:" (some e))) ∧
    unexpectedError = "❌ An unexpected error occurred. Please try again later." :=
  ⟨rejects_execute reg i, help_can_reject i, fun o => execute_performs reg i cmd o h,
    onError_trace strict w i err, onError_logs_failure i err, rfl⟩

/-- Bob's click on Accept is dispatched to `/trade`, whose `execute` throws. -/
theorem C25_handler_never_rejects_witness :
    (((buttonClick 2 "bob" "trade_accept_7" 0).kind = .chatInput ∧
        registry.get (buttonClick 2 "bob" "trade_accept_7" 0).commandName = some .trade) ∨
      (((buttonClick 2 "bob" "trade_accept_7" 0).kind = .button ∨
          (buttonClick 2 "bob" "trade_accept_7" 0).kind = .selectMenu ∨
          (buttonClick 2 "bob" "trade_accept_7" 0).kind = .modalSubmit) ∧
        registry.get ((jsSplit (buttonClick 2 "bob" "trade_accept_7" 0).customId '_').getD 0 "") =
          some .trade)) ∧
    (exec true (interactionCreate.onError (buttonClick 2 "bob" "trade_accept_7" 0)
        .alreadyReplied) {}).trace =
      [.log .error "Error handling interaction:" (some .alreadyReplied),
       .reply 2 0 { content := some unexpectedError, ephemeral := true }] :=
  have h : ((buttonClick 2 "bob" "trade_accept_7" 0).kind = .chatInput ∧
        registry.get (buttonClick 2 "bob" "trade_accept_7" 0).commandName = some .trade) ∨
      (((buttonClick 2 "bob" "trade_accept_7" 0).kind = .button ∨
          (buttonClick 2 "bob" "trade_accept_7" 0).kind = .selectMenu ∨
          (buttonClick 2 "bob" "trade_accept_7" 0).kind = .modalSubmit) ∧
        registry.get ((jsSplit (buttonClick 2 "bob" "trade_accept_7" 0).customId '_').getD 0 "") =
          some .trade) := Or.inr ⟨Or.inl rfl, by decide⟩
  ⟨h, (C25_handler_never_rejects true registry {} (buttonClick 2 "bob" "trade_accept_7" 0)
    .trade .alreadyReplied h).2.2.2.1⟩

/-- C26: the parser of messageCreate yields as `cmdName` the first whitespace-delimited
token of the text after the leading characters (the empty string when that text has no
token) and as `args` the remaining tokens in order; no element of `args` is empty or
holds white space.  A message from a bot causes nothing; any other message is logged;
one that does not start with the configured lead (`!` by default) gets no reply; one
that does is looked up by `cmdName` in lower case and is answered, with the
unknown-command text, only when no command has that name. -/
theorem C26_text_command_parsing (strict : Bool) (configured : Option String)
    (reg : Registry) (w : World) (m : TextMessage) :
    (∀ content skip, messageCreate.parse content skip =
      (some ((tokens (jsSlice content skip)).headD ""), (tokens (jsSlice content skip)).tail)) ∧
    (∀ content skip, ∀ a ∈ (messageCreate.parse content skip).2,
      a ≠ "" ∧ ∀ c ∈ a.data, jsWhitespace c = false) ∧
    (exec strict (messageCreate.execute configured reg m) w).trace =
      w.trace ++
        (if m.bot = true then []
         else
          .log .info s!"{messageCreate.location m} {m.tag}: {m.content}" none ::
            (if jsStartsWith m.content (orElseStr configured "!") = true then
              match reg.get (jsToLowerCase
                ((tokens (jsSlice m.content (orElseStr configured "!").length)).headD "")) with
              | none =>
                [.messageReply m.id w.nextMessage (unknownCommand
                  ((tokens (jsSlice m.content (orElseStr configured "!").length)).headD ""))]
              | some _ => []
             else [])) ∧
    messageCreate.parse "!Trade  propose\tbob " 1 = (some "Trade", ["propose", "bob"]) ∧
    shown (exec strict (messageCreate.execute none registry
      { id := 5, tag := "alice#1", content := "!Stats now" }) {}).trace = [] ∧
    shown (exec strict (messageCreate.execute none registry
      { id := 5, tag := "alice#1", content := "!dance" }) {}).trace =
        ["❓ Unknown command `dance`. Use `/help` to see all available slash commands."] := by
  refine ⟨parse_tokens, ?_, messageCreate_trace strict configured reg w m, by decide, ?_, ?_⟩
  · intro content skip a ha
    rw [parse_tokens] at ha
    exact tokens_clean _ a (List.mem_of_mem_tail ha)
  · cases strict <;> decide
  · cases strict <;> decide

end EternitysDescent
